import Mathlib

/-!
# RenderWidgetHostViewWin: a shallow embedding

Source: `chrome/browser/renderer_host/render_widget_host_view_win.cc`.

The view is a record of its member variables together with the part of the
window system it reads and writes (`Os`).  Every method is a function from a
view (and the answers the outside world gives during the call) to the new view
and the list of outward calls it made, in program order.  Calls through
`render_widget_host_` that the source makes without a null test are emitted as
calls; the pointer is tested only where the source tests it.

Coordinates are C `int`s.  They are pixel positions far from the 32-bit limits,
so they are embedded as `Int` without wrap-around.

The member `ime_input_` is kept beside the view as an `ImeInput`, because its
class is not part of the source at hand.  The last part embeds
`CleanUpDuplicates` of `chrome/browser/extensions/extension_dom_ui.cc`, whose
loop index is a `size_t` and does wrap around.
-/

/-- A window handle; `NULL` is `0`. -/
abbrev HWND := Nat

/-- A Win32 `RECT`: the points `left ≤ x < right`, `top ≤ y < bottom`. -/
structure RECT where
  left : Int
  top : Int
  right : Int
  bottom : Int
deriving DecidableEq, Repr

/-- The points Win32 drawing calls such as `FillRect` touch for a `RECT`. -/
def RECT.Contains (r : RECT) (px py : Int) : Prop :=
  r.left ≤ px ∧ px < r.right ∧ r.top ≤ py ∧ py < r.bottom

instance (r : RECT) (px py : Int) : Decidable (r.Contains px py) := by
  unfold RECT.Contains; infer_instance

namespace gfx

/-- Modelled from the spec: `gfx::Size` (gfx/size.h is not under src/); a size
never has a negative dimension. -/
structure Size where
  width : Nat
  height : Nat
deriving DecidableEq, Repr

/-- Modelled from the spec: `gfx::Rect` (gfx/rect.h is not under src/): an
origin and a size, the size never negative. -/
structure Rect where
  x : Int
  y : Int
  width : Nat
  height : Nat
deriving DecidableEq, Repr

namespace Rect

/-- Modelled from the spec: `gfx::Rect::right()` (gfx/rect.h is not under src/). -/
def right (r : Rect) : Int := r.x + r.width

/-- Modelled from the spec: `gfx::Rect::bottom()` (gfx/rect.h is not under src/). -/
def bottom (r : Rect) : Int := r.y + r.height

/-- Modelled from the spec: `gfx::Rect::IsEmpty()` (gfx/rect.h is not under src/):
no width or no height. -/
def IsEmpty (r : Rect) : Bool := r.width == 0 || r.height == 0

/-- Modelled from the spec: `gfx::Rect::Contains(x, y)` (gfx/rect.h is not under
src/). -/
def Contains (r : Rect) (px py : Int) : Prop :=
  r.x ≤ px ∧ px < r.right ∧ r.y ≤ py ∧ py < r.bottom

instance (r : Rect) (px py : Int) : Decidable (r.Contains px py) := by
  unfold Contains; infer_instance

/-- Modelled from the spec: `gfx::Rect::Rect(const RECT&)` (gfx/rect.h is not
under src/): a negative extent is clamped to zero. -/
def ofRECT (r : RECT) : Rect :=
  { x := r.left, y := r.top,
    width := (r.right - r.left).toNat, height := (r.bottom - r.top).toNat }

/-- Modelled from the spec: `gfx::Rect::ToRECT()` (gfx/rect.h is not under src/). -/
def ToRECT (r : Rect) : RECT :=
  { left := r.x, top := r.y, right := r.right, bottom := r.bottom }

/-- Modelled from the spec: `gfx::Rect::Rect(gfx::Point(), size)` (gfx/rect.h is
not under src/): the rectangle at the origin. -/
def ofSize (s : Size) : Rect :=
  { x := 0, y := 0, width := s.width, height := s.height }

/-- Modelled from the spec: `gfx::Rect::Intersect` (gfx/rect.h is not under
src/): the common part, `(0,0,0,0)` when there is none. -/
def Intersect (a b : Rect) : Rect :=
  let rx := max a.x b.x
  let ry := max a.y b.y
  let rr := min a.right b.right
  let rb := min a.bottom b.bottom
  if rx ≥ rr ∨ ry ≥ rb then
    { x := 0, y := 0, width := 0, height := 0 }
  else
    { x := rx, y := ry, width := (rr - rx).toNat, height := (rb - ry).toNat }

end Rect

end gfx

/-- Modelled from the spec: `base::TimeTicks` (base/time.h is not under src/): a
tick count; the null value is `0`. -/
abbrev TimeTicks := Int

/-- Modelled from the spec: `base::TimeDelta` (base/time.h is not under src/): a
difference of tick counts. -/
abbrev TimeDelta := Int

/-- Modelled from the spec: `TimeTicks::is_null()` (base/time.h is not under
src/). -/
def TimeTicks.is_null (t : TimeTicks) : Bool := t == 0

/-- The two histograms `OnPaint` records into. -/
inductive Histogram where
  | RWHH_WhiteoutDuration
  | RWH_TabSwitchPaintDuration
deriving DecidableEq, Repr

/-- A window region as the source builds it: `CreateRectRgn` on the clip
rectangle, then `gfx::SubtractRectanglesFromRegion` with the cutouts. -/
structure Region where
  clip : RECT
  cutouts : List gfx.Rect
deriving DecidableEq, Repr

/-- Modelled from the spec: `gfx::SubtractRectanglesFromRegion`
(app/gfx/gdi_util.cc is not under src/): a point is in the region when it is
in the clip rectangle and in no cutout rectangle. -/
def Region.Contains (g : Region) (px py : Int) : Prop :=
  g.clip.Contains px py ∧ ∀ c ∈ g.cutouts, ¬ c.Contains px py

/-- What the window system holds for one window. -/
structure WindowInfo where
  parent : HWND
  visible : Bool
  x : Int
  y : Int
  width : Int
  height : Int
  rgn : Option Region
  disabled : Bool
deriving DecidableEq, Repr

/-- The part of the window system the view reads and writes. -/
structure Os where
  /-- The live windows; `none` where `IsWindow` is false. -/
  windows : HWND → Option WindowInfo
  /-- The handle the next `CreateWindowEx` returns. -/
  next_hwnd : HWND
  /-- The result of `GetDesktopWindow()`. -/
  desktop : HWND
  /-- The result of `GetFocus()`. -/
  focus : HWND
  /-- The update (damage) region of the view's own window, as the rectangles
  that make it up. -/
  update_rgn : List RECT

namespace Os

/-- The Win32 `IsWindow`. -/
def IsWindow (os : Os) (h : HWND) : Bool := (os.windows h).isSome

/-- The Win32 `GetParent`; `NULL` for a handle that is no window. -/
def GetParent (os : Os) (h : HWND) : HWND :=
  match os.windows h with
  | some i => i.parent
  | none => 0

/-- Replace the record of one window. -/
def setWindow (os : Os) (h : HWND) (i : Option WindowInfo) : Os :=
  { os with windows := fun k => if k = h then i else os.windows k }

/-- The Win32 `SetParent`; with `NULL` the desktop window becomes the parent. -/
def SetParent (os : Os) (h newParent : HWND) : Os :=
  match os.windows h with
  | some i =>
    os.setWindow h (some { i with parent := if newParent = 0 then os.desktop else newParent })
  | none => os

/-- The Win32 `ShowWindow` with `SW_SHOW` (true) or `SW_HIDE` (false). -/
def ShowWindow (os : Os) (h : HWND) (show_ : Bool) : Os :=
  match os.windows h with
  | some i => os.setWindow h (some { i with visible := show_ })
  | none => os

/-- The Win32 `SetWindowRgn`. -/
def SetWindowRgn (os : Os) (h : HWND) (g : Region) : Os :=
  match os.windows h with
  | some i => os.setWindow h (some { i with rgn := some g })
  | none => os

/-- The Win32 `DestroyWindow`. -/
def DestroyWindow (os : Os) (h : HWND) : Os := os.setWindow h none

/-- The Win32 `CreateWindowEx` for a child window at `0, 0, 0, 0`, created
hidden: the fresh handle and the new window system. -/
def CreateWindowEx (os : Os) (parent : HWND) (disabled : Bool) : HWND × Os :=
  (os.next_hwnd,
   { (os.setWindow os.next_hwnd
        (some { parent := parent, visible := false, x := 0, y := 0, width := 0,
                height := 0, rgn := none, disabled := disabled })) with
     next_hwnd := os.next_hwnd + 1 })

/-- The Win32 `InvalidateRect` on the view's window: the rectangle joins the
update region. -/
def InvalidateRect (os : Os) (r : RECT) : Os :=
  { os with update_rgn := os.update_rgn ++ [r] }

end Os

/-- The Win32 flag `SWP_NOSIZE`. -/
def SWP_NOSIZE : Nat := 0x0001

/-- The Win32 flag `SWP_NOMOVE`. -/
def SWP_NOMOVE : Nat := 0x0002

/-- The Win32 flag `SWP_SHOWWINDOW`. -/
def SWP_SHOWWINDOW : Nat := 0x0040

/-- The Win32 flag `SWP_HIDEWINDOW`. -/
def SWP_HIDEWINDOW : Nat := 0x0080

/-- The arguments of one `DeferWindowPos` call: the window, the position, the
size and the `SWP_*` flags. -/
structure DeferredPos where
  hwnd : HWND
  x : Int
  y : Int
  cx : Int
  cy : Int
  flags : Nat
deriving DecidableEq, Repr

/-- Whether a flag word contains a flag. -/
def hasFlag (flags flag : Nat) : Bool := flags &&& flag != 0

/-- The WebKit enumeration `WebCompositionCommand`. -/
inductive WebCompositionCommand where
  | WebCompositionCommandDiscard
  | WebCompositionCommandSet
  | WebCompositionCommandConfirm
deriving DecidableEq, Repr

/-- The IPC messages the view sends with `Send`, without the routing id. -/
inductive ViewMsg where
  /-- The message `ViewMsg_ImeSetInputMode(routing_id, is_active)`. -/
  | ImeSetInputMode (is_active : Bool)
  /-- The message `ViewMsg_ImeSetComposition(routing_id, command,
  cursor_position, target_start, target_end, ime_string)`. -/
  | ImeSetComposition (command : WebCompositionCommand)
      (cursor_position target_start target_end : Int) (ime_string : String)
deriving DecidableEq, Repr

/-- The WebKit enumeration `WebTextDirection`. -/
inductive WebTextDirection where
  | WebTextDirectionDefault
  | WebTextDirectionLeftToRight
  | WebTextDirectionRightToLeft
deriving DecidableEq, Repr

/-- An outward call of the view, in the order the source makes it. -/
inductive Call where
  /-- The call `render_widget_host_->GetBackingStore(true)`. -/
  | GetBackingStore
  /-- The Win32 `GetUpdateRect`. -/
  | GetUpdateRect
  /-- The Win32 `GetUpdateRgn`, with the region it copies out. -/
  | GetUpdateRgn (rgn : List RECT)
  /-- The constructor of `CPaintDC`, that is `BeginPaint`, with `rcPaint`. -/
  | BeginPaint (rcPaint : RECT)
  /-- The destructor of `CPaintDC`, that is `EndPaint`. -/
  | EndPaint
  /-- The Win32 `SetICMMode`. -/
  | SetICMMode (enable : Bool)
  /-- The method `DrawResizeCorner(paint_rect, backing_store->hdc())`. -/
  | DrawResizeCorner (r : gfx.Rect)
  /-- The function `DrawDeemphasized(paint_rect, ...)`. -/
  | DrawDeemphasized (r : gfx.Rect)
  /-- The Win32 `BitBlt` from the backing store to the same place on screen. -/
  | BitBlt (r : gfx.Rect)
  /-- The Win32 `FillRect` with the white brush. -/
  | FillRect (r : RECT)
  /-- Tiling `background_` over a rectangle and drawing it to the paint DC. -/
  | TileBackground (r : RECT)
  /-- The macro `UMA_HISTOGRAM_TIMES`. -/
  | HistogramTimes (h : Histogram) (d : TimeDelta)
  /-- The Win32 `InvalidateRect`. -/
  | InvalidateRect (r : RECT)
  /-- The Win32 `RedrawWindow` with `RDW_UPDATENOW | RDW_NOCHILDREN`. -/
  | RedrawWindow (rgn : List RECT)
  /-- The Win32 `EnumChildWindows` with `EnumChildProc`. -/
  | EnumChildWindows
  /-- The Win32 `ScrollWindowEx` with `SW_INVALIDATE`. -/
  | ScrollWindowEx (dx dy : Int) (clip : RECT)
  /-- The call `render_widget_host_->WasRestored()`. -/
  | WasRestored
  /-- The call `render_widget_host_->WasHidden()`. -/
  | WasHidden
  /-- The Win32 `CreateWindowEx`, with the handle it returned. -/
  | CreateWindowEx (h : HWND)
  /-- The Win32 `DestroyWindow`. -/
  | DestroyWindow (h : HWND)
  /-- Sending `TTM_ADDTOOL` (true) or `TTM_NEWTOOLRECT` (false) to the tooltip. -/
  | TooltipMessage (h : HWND) (addTool : Bool)
  /-- The Win32 `SetFocus`. -/
  | SetFocus (h : HWND)
  /-- The Win32 `ShowWindow`, `SW_SHOW` (true) or `SW_HIDE` (false). -/
  | ShowWindow (h : HWND) (show_ : Bool)
  /-- The Win32 `SetParent`. -/
  | SetParent (h newParent : HWND)
  /-- The `LOG(WARNING)` of `Hide()`. -/
  | LogWarning
  /-- The Win32 `BeginDeferWindowPos`, with the number of windows announced. -/
  | BeginDeferWindowPos (n : Nat)
  /-- The Win32 `SetWindowRgn`, with the redraw flag. -/
  | SetWindowRgn (h : HWND) (rgn : Region) (redraw : Bool)
  /-- The Win32 `DeferWindowPos`. -/
  | DeferWindowPos (d : DeferredPos)
  /-- The Win32 `EndDeferWindowPos`. -/
  | EndDeferWindowPos
  /-- Posting `new NotifyPluginProcessHostTask(window, parent)` to the IO thread. -/
  | PostNotifyPluginProcessHostTask (window parent : HWND)
  /-- A failed `NOTREACHED()` or `DCHECK`. -/
  | NotReached
  /-- The Win32 `SendMessage` to a window. -/
  | SendMessage (h : HWND) (message wparam lparam : Nat)
  /-- The Win32 `PostMessage` to a window. -/
  | PostMessage (h : HWND) (message wparam lparam : Nat)
  /-- Sending `TTM_RELAYEVENT` to the tooltip, with the relayed message. -/
  | TooltipRelayEvent (h : HWND) (message wparam lparam : Nat)
  /-- Sending `views::kReflectedMessage` to a window, with the reflected message. -/
  | ReflectedMessage (h : HWND) (message wparam lparam : Nat)
  /-- A call of `views::RerouteMouseWheel` that returned true: the wheel message
  went to the window under the pointer. -/
  | RerouteMouseWheel (h : HWND) (wparam lparam : Nat)
  /-- The call `render_widget_host_->LostCapture()`. -/
  | LostCapture
  /-- The Win32 `SetWindowPos` without a move or a resize, with its flags. -/
  | SetWindowPos (h : HWND) (flags : Nat)
  /-- Posting `ShutdownHost` through `shutdown_factory_`. -/
  | PostShutdownHost
  /-- The call `render_widget_host_->UpdateTextDirection(direction)`. -/
  | UpdateTextDirection (direction : WebTextDirection)
  /-- The call `render_widget_host_->CancelUpdateTextDirection()`. -/
  | CancelUpdateTextDirection
  /-- The call `render_widget_host_->NotifyTextDirection()`. -/
  | NotifyTextDirection
  /-- The call `render_widget_host_->ForwardKeyboardEvent(...)`. -/
  | ForwardKeyboardEvent (message wparam lparam : Nat)
  /-- The call `render_widget_host_->ForwardMouseEvent(event)`. -/
  | ForwardMouseEvent (message wparam lparam : Nat)
  /-- The call `render_widget_host_->ForwardWheelEvent(...)`. -/
  | ForwardWheelEvent (message wparam lparam : Nat)
  /-- The call `ime_input_.CleanupComposition(m_hWnd)`. -/
  | CleanupComposition
  /-- The Win32 `TrackMouseEvent`, with `dwFlags`. -/
  | TrackMouseEvent (h : HWND) (flags : Nat)
  /-- The Win32 `SetCapture`. -/
  | SetCapture (h : HWND)
  /-- The Win32 `ReleaseCapture`. -/
  | ReleaseCapture
  /-- The call `render_widget_host_->Send(message)`. -/
  | Send (message : ViewMsg)
  /-- A use of `render_widget_host_` while it is null. -/
  | NullDereference
  /-- The call `render_widget_host_->GotFocus()`. -/
  | GotFocus
  /-- The call `render_widget_host_->Blur()`. -/
  | Blur
  /-- The call `render_widget_host_->SystemThemeChanged()`. -/
  | SystemThemeChanged
  /-- The call `render_widget_host_->Shutdown()`. -/
  | Shutdown
  /-- The call `OnWidgetFocusEvent(from, to)` on the widget focus manager. -/
  | OnWidgetFocusEvent (source target : HWND)
  /-- The method `UpdateCursorIfOverSelf`, not expanded: it sets the cursor and
  changes no member. -/
  | UpdateCursorIfOverSelf
  /-- The call `ime_input_.SetInputLanguage()`. -/
  | SetInputLanguage
  /-- The call `ime_input_.CreateImeWindow(m_hWnd)`. -/
  | CreateImeWindow
  /-- The call `ime_input_.ResetComposition(m_hWnd)`. -/
  | ResetComposition
  /-- The call `ime_input_.UpdateImeWindow(m_hWnd)`. -/
  | UpdateImeWindow
  /-- The call `ime_input_.DestroyImeWindow(m_hWnd)`. -/
  | DestroyImeWindow
  /-- The call `ime_input_.SetImeWindowStyle(m_hWnd, ...)`. -/
  | SetImeWindowStyle
  /-- Filling the `NMTTDISPINFOW` of `TTN_GETDISPINFO` with a text. -/
  | TooltipDispInfo (text : String)
deriving Repr

set_option maxHeartbeats 8000000 in
/-- Equality of calls is decidable: two calls are equal when they have the same
constructor and equal arguments. -/
instance instDecidableEqCall : DecidableEq Call := fun a b => by
  cases a <;> cases b <;>
  first
    | exact isFalse (fun h => Call.noConfusion h)
    | exact isTrue rfl
    | (rename_i x1 x2 x3 x4 y1 y2 y3 y4
       exact
        if h1 : x1 = y1 then
          if h2 : x2 = y2 then
            if h3 : x3 = y3 then
              if h4 : x4 = y4 then isTrue (by rw [h1, h2, h3, h4])
              else isFalse (fun e => h4 (by injection e))
            else isFalse (fun e => h3 (by injection e))
          else isFalse (fun e => h2 (by injection e))
        else isFalse (fun e => h1 (by injection e)))
    | (rename_i x1 x2 x3 y1 y2 y3
       exact
        if h1 : x1 = y1 then
          if h2 : x2 = y2 then
            if h3 : x3 = y3 then isTrue (by rw [h1, h2, h3])
            else isFalse (fun e => h3 (by injection e))
          else isFalse (fun e => h2 (by injection e))
        else isFalse (fun e => h1 (by injection e)))
    | (rename_i x1 x2 y1 y2
       exact
        if h1 : x1 = y1 then
          if h2 : x2 = y2 then isTrue (by rw [h1, h2])
          else isFalse (fun e => h2 (by injection e))
        else isFalse (fun e => h1 (by injection e)))
    | (rename_i x1 y1
       exact
        if h1 : x1 = y1 then isTrue (by rw [h1])
        else isFalse (fun e => h1 (by injection e)))

/-- The member variables of `RenderWidgetHostViewWin` and its window system. -/
structure View where
  m_hWnd : HWND
  /-- Whether `render_widget_host_` is non-null. -/
  render_widget_host_ : Bool
  track_mouse_leave_ : Bool
  ime_notification_ : Bool
  capture_enter_key_ : Bool
  is_hidden_ : Bool
  about_to_validate_and_paint_ : Bool
  close_on_deactivate_ : Bool
  being_destroyed_ : Bool
  tooltip_hwnd_ : HWND
  tooltip_showing_ : Bool
  /-- The number of tasks `shutdown_factory_` has pending. -/
  shutdown_factory_ : Nat
  parent_hwnd_ : HWND
  is_loading_ : Bool
  visually_deemphasized_ : Bool
  /-- Whether `gpu_view_host_.get()` is non-null. -/
  gpu_view_host_ : Bool
  /-- Whether `background_.empty()`. -/
  background_empty : Bool
  tab_switch_paint_time_ : TimeTicks
  whiteout_start_time_ : TimeTicks
  /-- The member `activatable_` of the base class `RenderWidgetHostView`. -/
  activatable_ : Bool
  tooltip_text_ : String
  os : Os

/-- What the outside world answers during one `OnPaint`. -/
structure PaintEnv where
  /-- The `DidPaintBackingStoreRects` notifications that arrive while
  `GetBackingStore(true)` waits for the renderer. -/
  during_fetch : List (List gfx.Rect)
  /-- The result of `GetBackingStore(true)`: the size of the backing store, or
  `none` for `NULL`. -/
  backing_store : Option gfx.Size
  /-- The rectangle `paint_dc.m_ps.rcPaint` that `BeginPaint` reports. -/
  rcPaint : RECT
  /-- The result of `BackingStoreWin::ColorManagementEnabled()`. -/
  manage_colors : Bool
  /-- The result of `TimeTicks::Now()` when the whiteout sample is taken. -/
  now_whiteout : TimeTicks
  /-- The result of `TimeTicks::Now()` when the tab-switch sample is taken. -/
  now_tab_switch : TimeTicks
  /-- The result of `TimeTicks::Now()` when the blank timer is started. -/
  now_blank : TimeTicks

namespace RenderWidgetHostViewWin

/-- The constructor `RenderWidgetHostViewWin(widget)`, for a window system. -/
def new (os : Os) : View :=
  { m_hWnd := 0, render_widget_host_ := true, track_mouse_leave_ := false,
    ime_notification_ := false, capture_enter_key_ := false, is_hidden_ := false,
    about_to_validate_and_paint_ := false, close_on_deactivate_ := false,
    being_destroyed_ := false, tooltip_hwnd_ := 0, tooltip_showing_ := false,
    shutdown_factory_ := 0, parent_hwnd_ := 0, is_loading_ := false,
    visually_deemphasized_ := false, gpu_view_host_ := false, background_empty := true,
    tab_switch_paint_time_ := 0, whiteout_start_time_ := 0, activatable_ := true,
    tooltip_text_ := "", os := os }

/-- The method `EnsureTooltip`. -/
def EnsureTooltip (v : View) : View × List Call :=
  if !v.os.IsWindow v.tooltip_hwnd_ then
    let created := v.os.CreateWindowEx v.m_hWnd false
    ({ v with tooltip_hwnd_ := created.1, os := created.2 },
     [Call.CreateWindowEx created.1, Call.TooltipMessage created.1 true])
  else
    (v, [Call.TooltipMessage v.tooltip_hwnd_ false])

/-- The method `ResetTooltip`. -/
def ResetTooltip (v : View) : View × List Call :=
  if v.os.IsWindow v.tooltip_hwnd_ then
    ({ v with os := v.os.DestroyWindow v.tooltip_hwnd_, tooltip_hwnd_ := 0 },
     [Call.DestroyWindow v.tooltip_hwnd_])
  else
    ({ v with tooltip_hwnd_ := 0 }, [])

/-- The method `DidBecomeSelected`; `now` is what `TimeTicks::Now()` returns. -/
def DidBecomeSelected (v : View) (now : TimeTicks) : View × List Call :=
  if !v.is_hidden_ then (v, [])
  else
    let v1 :=
      if v.tab_switch_paint_time_.is_null then { v with tab_switch_paint_time_ := now } else v
    let v2 := { v1 with is_hidden_ := false }
    let t := EnsureTooltip v2
    (t.1, t.2 ++ [Call.WasRestored])

/-- The method `WasHidden`. -/
def WasHidden (v : View) : View × List Call :=
  if v.is_hidden_ then (v, [])
  else
    let v1 := { v with is_hidden_ := true }
    let t := ResetTooltip v1
    (t.1, t.2 ++ [Call.WasHidden])

/-- The statements `if (::GetFocus() == m_hWnd) ::SetFocus(NULL);` of `Hide`. -/
def dropFocus (v : View) : Os × List Call :=
  if v.os.focus = v.m_hWnd then ({ v.os with focus := 0 }, [Call.SetFocus 0])
  else (v.os, [])

/-- The view `Hide` hands to `WasHidden`: focus dropped, window hidden, the old
parent cached and the window orphaned. -/
def hideStage (v : View) : View :=
  { v with
    parent_hwnd_ := ((dropFocus v).1.ShowWindow v.m_hWnd false).GetParent v.m_hWnd,
    os := ((dropFocus v).1.ShowWindow v.m_hWnd false).SetParent v.m_hWnd 0 }

/-- The method `Hide`. -/
def Hide (v : View) : View × List Call :=
  if v.os.GetParent v.m_hWnd = v.os.desktop then (v, [Call.LogWarning])
  else
    let t := WasHidden (hideStage v)
    (t.1, (dropFocus v).2 ++ [Call.ShowWindow v.m_hWnd false, Call.SetParent v.m_hWnd 0] ++ t.2)

/-- The method `Redraw`.  The `WM_PAINT` that `RDW_UPDATENOW` dispatches is a
separate `OnPaint` step. -/
def Redraw (v : View) : List Call :=
  [Call.GetUpdateRect, Call.GetUpdateRgn v.os.update_rgn, Call.RedrawWindow v.os.update_rgn,
   Call.EnumChildWindows]

/-- The loop of `DidPaintBackingStoreRects`: one `InvalidateRect` per rectangle. -/
def invalidateRects (os : Os) : List gfx.Rect → Os × List Call
  | [] => (os, [])
  | r :: rs =>
    let rest := invalidateRects (os.InvalidateRect r.ToRECT) rs
    (rest.1, Call.InvalidateRect r.ToRECT :: rest.2)

/-- The method `DidPaintBackingStoreRects`. -/
def DidPaintBackingStoreRects (v : View) (rects : List gfx.Rect) : View × List Call :=
  if v.is_hidden_ then (v, [])
  else
    let i := invalidateRects v.os rects
    let v1 := { v with os := i.1 }
    if !v1.about_to_validate_and_paint_ then (v1, i.2 ++ Redraw v1) else (v1, i.2)

/-- The method `DidScrollBackingStoreRect`; `invalidated` is the area
`ScrollWindowEx` adds to the update region under `SW_INVALIDATE`. -/
def DidScrollBackingStoreRect (v : View) (rect : gfx.Rect) (dx dy : Int)
    (invalidated : List RECT) : View × List Call :=
  if v.is_hidden_ then (v, [])
  else
    ({ v with os := { v.os with update_rgn := v.os.update_rgn ++ invalidated } },
     [Call.ScrollWindowEx dx dy rect.ToRECT])

/-- The method `DrawBackground`. -/
def DrawBackground (v : View) (dirty_rect : RECT) : List Call :=
  if !v.background_empty then [Call.TileBackground dirty_rect]
  else [Call.FillRect dirty_rect]

/-- The notifications delivered while `GetBackingStore(true)` is running. -/
def deliverDuringFetch (v : View) : List (List gfx.Rect) → View × List Call
  | [] => (v, [])
  | rects :: more =>
    let a := DidPaintBackingStoreRects v rects
    let b := deliverDuringFetch a.1 more
    (b.1, a.2 ++ b.2)

/-- One pass of the blit loop of `OnPaint`, for one rectangle of the region. -/
def blitRect (v : View) (bitmap_rect : gfx.Rect) (region_rect : RECT) : List Call :=
  let paint_rect := bitmap_rect.Intersect (gfx.Rect.ofRECT region_rect)
  if !paint_rect.IsEmpty then
    Call.DrawResizeCorner paint_rect ::
      (if v.visually_deemphasized_ then [Call.DrawDeemphasized paint_rect]
       else [Call.BitBlt paint_rect])
  else []

/-- The blit loop of `OnPaint` over the rectangles of the damage region. -/
def blitLoop (v : View) (bitmap_rect : gfx.Rect) : List RECT → List Call
  | [] => []
  | r :: rs => blitRect v bitmap_rect r ++ blitLoop v bitmap_rect rs

/-- The strip right of the backing store that `OnPaint` fills with background. -/
def rightStrip (bitmap_rect damaged_rect : gfx.Rect) : Option RECT :=
  if damaged_rect.right > bitmap_rect.right then
    some { left := max bitmap_rect.right damaged_rect.x, right := damaged_rect.right,
           top := damaged_rect.y, bottom := min bitmap_rect.bottom damaged_rect.bottom }
  else none

/-- The strip below the backing store that `OnPaint` fills with background. -/
def bottomStrip (bitmap_rect damaged_rect : gfx.Rect) : Option RECT :=
  if damaged_rect.bottom > bitmap_rect.bottom then
    some { left := damaged_rect.x, right := damaged_rect.right,
           top := max bitmap_rect.bottom damaged_rect.y, bottom := damaged_rect.bottom }
  else none

/-- The background fill of a strip, when there is one. -/
def fillStrip (v : View) : Option RECT → List Call
  | some r => DrawBackground v r
  | none => []

/-- The whiteout sample of `OnPaint`. -/
def recordWhiteout (v : View) (now : TimeTicks) : View × List Call :=
  if !v.whiteout_start_time_.is_null then
    ({ v with whiteout_start_time_ := 0 },
     [Call.HistogramTimes Histogram.RWHH_WhiteoutDuration (now - v.whiteout_start_time_)])
  else (v, [])

/-- The tab-switch sample of `OnPaint`. -/
def recordTabSwitch (v : View) (now : TimeTicks) : View × List Call :=
  if !v.tab_switch_paint_time_.is_null then
    ({ v with tab_switch_paint_time_ := 0 },
     [Call.HistogramTimes Histogram.RWH_TabSwitchPaintDuration
        (now - v.tab_switch_paint_time_)])
  else (v, [])

/-- The branch of `OnPaint` with a backing store. -/
def paintFromBackingStore (v : View) (env : PaintEnv) (size : gfx.Size)
    (damage_region : List RECT) (damaged_rect : gfx.Rect) : View × List Call :=
  let bitmap_rect := gfx.Rect.ofSize size
  let icmOn := if env.manage_colors then [Call.SetICMMode true] else []
  let blits := blitLoop v bitmap_rect damage_region
  let icmOff := if env.manage_colors then [Call.SetICMMode false] else []
  let fills := fillStrip v (rightStrip bitmap_rect damaged_rect) ++
    fillStrip v (bottomStrip bitmap_rect damaged_rect)
  let w := recordWhiteout v env.now_whiteout
  let t := recordTabSwitch w.1 env.now_tab_switch
  (t.1, icmOn ++ blits ++ icmOff ++ fills ++ w.2 ++ t.2)

/-- The branch of `OnPaint` without a backing store. -/
def paintBlank (v : View) (env : PaintEnv) : View × List Call :=
  (if v.whiteout_start_time_.is_null then { v with whiteout_start_time_ := env.now_blank }
   else v,
   DrawBackground v env.rcPaint)

/-- The method `OnPaint`. -/
def OnPaint (v : View) (env : PaintEnv) : View × List Call :=
  if v.gpu_view_host_ then
    ({ v with os := { v.os with update_rgn := [] } },
     [Call.BeginPaint env.rcPaint, Call.FillRect env.rcPaint, Call.EndPaint])
  else
    let v1 := { v with about_to_validate_and_paint_ := true }
    let fetched := deliverDuringFetch v1 env.during_fetch
    let v2 := { fetched.1 with about_to_validate_and_paint_ := false }
    let damage_region := v2.os.update_rgn
    let v3 := { v2 with os := { v2.os with update_rgn := [] } }
    let damaged_rect := gfx.Rect.ofRECT env.rcPaint
    let opening := Call.GetBackingStore :: fetched.2 ++
      [Call.GetUpdateRgn damage_region, Call.BeginPaint env.rcPaint]
    if damaged_rect.IsEmpty then (v3, opening ++ [Call.EndPaint])
    else
      match env.backing_store with
      | some size =>
        let p := paintFromBackingStore v3 env size damage_region damaged_rect
        (p.1, opening ++ p.2 ++ [Call.EndPaint])
      | none =>
        let p := paintBlank v3 env
        (p.1, opening ++ p.2 ++ [Call.EndPaint])

end RenderWidgetHostViewWin

/-- Modelled from the spec: the struct `webkit_glue::WebPluginGeometry`
(webkit/glue/webplugin.h is not under src/), with the fields `MovePluginWindows`
reads. -/
structure WebPluginGeometry where
  window : HWND
  window_rect : gfx.Rect
  clip_rect : gfx.Rect
  cutout_rects : List gfx.Rect
  rects_valid : Bool
  visible : Bool
deriving DecidableEq, Repr

/-- What the outside world answers during one `MovePluginWindows`. -/
structure MoveEnv where
  /-- Whether the command line has `switches::kSingleProcess`. -/
  single_process : Bool
  /-- Whether the command line has `switches::kInProcessPlugins`. -/
  in_process_plugins : Bool
  /-- Whether `BeginDeferWindowPos` returns a non-null handle. -/
  begin_defer_ok : Bool
  /-- Whether the `DeferWindowPos` call of loop pass `i` returns a non-null
  handle. -/
  defer_ok : Nat → Bool

/-- The local `oop_plugins` of `MovePluginWindows`. -/
def MoveEnv.oop_plugins (env : MoveEnv) : Bool :=
  !env.single_process && !env.in_process_plugins

namespace Os

/-- The effect of one deferred placement on a window, as `EndDeferWindowPos`
carries it out. -/
def placeWindow (d : DeferredPos) (i : WindowInfo) : WindowInfo :=
  let i1 := if hasFlag d.flags SWP_NOMOVE then i else { i with x := d.x, y := d.y }
  let i2 := if hasFlag d.flags SWP_NOSIZE then i1 else { i1 with width := d.cx, height := d.cy }
  let i3 := if hasFlag d.flags SWP_SHOWWINDOW then { i2 with visible := true } else i2
  if hasFlag d.flags SWP_HIDEWINDOW then { i3 with visible := false } else i3

/-- One deferred placement carried out. -/
def applyDeferred (os : Os) (d : DeferredPos) : Os :=
  match os.windows d.hwnd with
  | some i => os.setWindow d.hwnd (some (placeWindow d i))
  | none => os

/-- The Win32 `EndDeferWindowPos`: the deferred placements carried out in the
order they were deferred. -/
def EndDeferWindowPos (os : Os) (deferred : List DeferredPos) : Os :=
  deferred.foldl applyDeferred os

end Os

namespace RenderWidgetHostViewWin

/-- The method `ReparentWindow`: the intermediate window, the new window system
and the calls. -/
def ReparentWindow (os : Os) (window : HWND) : HWND × Os × List Call :=
  let enabled_style :=
    match os.windows window with
    | some i => i.disabled
    | none => false
  let created := os.CreateWindowEx (os.GetParent window) enabled_style
  let parent := created.1
  (parent, created.2.SetParent window parent,
   [Call.CreateWindowEx parent, Call.SetParent window parent,
    Call.PostNotifyPluginProcessHostTask window parent])

/-- The first half of the loop body of `MovePluginWindows`: `none` when the
entry is skipped by `continue`, otherwise the window to move, the window system
and the calls made on the way. -/
def moveTarget (m_hWnd : HWND) (oop_plugins : Bool) (os : Os) (window : HWND) :
    Option (HWND × Os × List Call) :=
  let parent := os.GetParent window
  if !os.IsWindow window then none
  else if oop_plugins then
    if parent = m_hWnd then
      let r := ReparentWindow os window
      some (r.1, r.2.1.ShowWindow window true, r.2.2 ++ [Call.ShowWindow window true])
    else if os.GetParent parent ≠ m_hWnd then none
    else some (parent, os, [])
  else some (window, os, [])

/-- The local `flags` of the loop body of `MovePluginWindows`. -/
def moveFlags (move : WebPluginGeometry) : Nat :=
  (if move.visible then SWP_SHOWWINDOW else SWP_HIDEWINDOW) |||
    (if move.rects_valid then 0 else SWP_NOMOVE ||| SWP_NOSIZE)

/-- The region the loop body of `MovePluginWindows` builds from `clip_rect` and
`cutout_rects`. -/
def moveRegion (move : WebPluginGeometry) : Region :=
  { clip := { left := move.clip_rect.x, top := move.clip_rect.y,
              right := move.clip_rect.right, bottom := move.clip_rect.bottom },
    cutouts := move.cutout_rects }

/-- The arguments of the `DeferWindowPos` call of the loop body. -/
def moveDeferred (window : HWND) (move : WebPluginGeometry) : DeferredPos :=
  { hwnd := window, x := move.window_rect.x, y := move.window_rect.y,
    cx := move.window_rect.width, cy := move.window_rect.height, flags := moveFlags move }

/-- The second half of the loop body of `MovePluginWindows`, once the window to
move is known: the region is set at once, the placement is deferred. -/
def moveWindow (os : Os) (window : HWND) (move : WebPluginGeometry) : Os × List Call :=
  if move.rects_valid then
    (os.SetWindowRgn window (moveRegion move),
     [Call.SetWindowRgn window (moveRegion move) (!move.clip_rect.IsEmpty),
      Call.DeferWindowPos (moveDeferred window move)])
  else
    (os, [Call.DeferWindowPos (moveDeferred window move)])

/-- The state of the loop of `MovePluginWindows`. -/
structure MoveLoop where
  os : Os
  /-- The placements held by `defer_window_pos_info`, oldest first. -/
  deferred : List DeferredPos
  calls : List Call
  /-- Whether a `DeferWindowPos` failed, which ends the method. -/
  failed : Bool

/-- A loop state with the calls made before it put in front. -/
def MoveLoop.after (calls : List Call) (r : MoveLoop) : MoveLoop :=
  { r with calls := calls ++ r.calls }

/-- The loop of `MovePluginWindows` from pass `i` on. -/
def moveLoop (m_hWnd : HWND) (env : MoveEnv) :
    Nat → List WebPluginGeometry → Os → List DeferredPos → MoveLoop
  | _, [], os, deferred => { os := os, deferred := deferred, calls := [], failed := false }
  | i, move :: rest, os, deferred =>
    match moveTarget m_hWnd env.oop_plugins os move.window with
    | none => moveLoop m_hWnd env (i + 1) rest os deferred
    | some (window, os1, calls1) =>
      let w := moveWindow os1 window move
      if !env.defer_ok i then
        { os := w.1, deferred := deferred, calls := calls1 ++ w.2 ++ [Call.NotReached],
          failed := true }
      else
        (moveLoop m_hWnd env (i + 1) rest w.1 (deferred ++ [moveDeferred window move])).after
          (calls1 ++ w.2)

/-- The method `MovePluginWindows`. -/
def MovePluginWindows (v : View) (env : MoveEnv) (plugin_window_moves : List WebPluginGeometry) :
    View × List Call :=
  if plugin_window_moves.isEmpty then (v, [])
  else if !env.begin_defer_ok then
    (v, [Call.BeginDeferWindowPos plugin_window_moves.length, Call.NotReached])
  else
    let r := moveLoop v.m_hWnd env 0 plugin_window_moves v.os []
    if r.failed then
      ({ v with os := r.os }, Call.BeginDeferWindowPos plugin_window_moves.length :: r.calls)
    else
      ({ v with os := r.os.EndDeferWindowPos r.deferred },
       Call.BeginDeferWindowPos plugin_window_moves.length :: r.calls ++
         [Call.EndDeferWindowPos])

end RenderWidgetHostViewWin

/-! ## Re-applying a batch -/

/-- A window system whose handles were all issued before `next_hwnd`: no
window lives at a handle not yet issued, no window has a parent not yet
issued, and the view's handle `m_hWnd` has been issued. -/
structure Os.WellFormed (os : Os) (m_hWnd : HWND) : Prop where
  fresh : ∀ h, os.next_hwnd ≤ h → os.windows h = none
  parents : ∀ h i, os.windows h = some i → i.parent < os.next_hwnd
  view : m_hWnd < os.next_hwnd

namespace RenderWidgetHostViewWin

/-- The window `MovePluginWindows` moves for an entry that needs no
reparenting: the window itself, or with out-of-process plugins its parent when
that is a child of the view. -/
def settledTarget (m_hWnd : HWND) (oop_plugins : Bool) (os : Os) (window : HWND) :
    Option HWND :=
  if !os.IsWindow window then none
  else if oop_plugins then
    if os.GetParent (os.GetParent window) = m_hWnd then some (os.GetParent window) else none
  else some window

/-- No entry of a batch needs reparenting: with out-of-process plugins no live
window of the batch is a direct child of the view. -/
def Settled (m_hWnd : HWND) (oop_plugins : Bool) (os : Os)
    (moves : List WebPluginGeometry) : Prop :=
  ∀ e ∈ moves, os.IsWindow e.window = true → oop_plugins = true →
    os.GetParent e.window ≠ m_hWnd

/-- The placements a settled batch defers. -/
def settledDeferred (m_hWnd : HWND) (oop_plugins : Bool) (os : Os)
    (moves : List WebPluginGeometry) : List DeferredPos :=
  moves.filterMap
    (fun e => (settledTarget m_hWnd oop_plugins os e.window).map (fun t => moveDeferred t e))

/-- The placements of a list that are for the window `h`. -/
def deferredFor (h : HWND) (D : List DeferredPos) : List DeferredPos :=
  D.filter (fun d => decide (d.hwnd = h))

/-- The entries of a batch that move the window `h`. -/
def movesFor (m_hWnd : HWND) (oop_plugins : Bool) (os : Os) (h : HWND)
    (moves : List WebPluginGeometry) : List WebPluginGeometry :=
  moves.filter (fun e => decide (settledTarget m_hWnd oop_plugins os e.window = some h))

/-- The region a window has after the `SetWindowRgn` calls of a list of
entries. -/
def rgnFold (L : List WebPluginGeometry) (i : WindowInfo) : WindowInfo :=
  L.foldl (fun j e => if e.rects_valid then { j with rgn := some (moveRegion e) } else j) i

/-- The placement a window `h` has after the deferred placements of a list of
entries. -/
def placeFold (h : HWND) (L : List WebPluginGeometry) (i : WindowInfo) : WindowInfo :=
  L.foldl (fun j e => Os.placeWindow (moveDeferred h e) j) i

/-- The last visibility and the last valid window rectangle of a list of
entries, starting from given ones. -/
def placeSummary :
    List WebPluginGeometry → Option Bool × Option gfx.Rect → Option Bool × Option gfx.Rect
  | [], s => s
  | e :: es, s =>
    placeSummary es (some e.visible, if e.rects_valid then some e.window_rect else s.2)

/-- A window with the visibility and the rectangle of a summary put in. -/
def applyPlace (s : Option Bool × Option gfx.Rect) (i : WindowInfo) : WindowInfo :=
  { i with
    visible := match s.1 with
      | some b => b
      | none => i.visible,
    x := match s.2 with
      | some r => r.x
      | none => i.x,
    y := match s.2 with
      | some r => r.y
      | none => i.y,
    width := match s.2 with
      | some r => r.width
      | none => i.width,
    height := match s.2 with
      | some r => r.height
      | none => i.height }

/-- The last region of a list of entries, starting from a given one. -/
def rgnSummary : List WebPluginGeometry → Option Region → Option Region
  | [], s => s
  | e :: es, s => rgnSummary es (if e.rects_valid then some (moveRegion e) else s)

/-- A window with the region of a summary put in. -/
def applyRgn (s : Option Region) (i : WindowInfo) : WindowInfo :=
  match s with
  | some g => { i with rgn := some g }
  | none => i

/-- The invariant of the loop of `MovePluginWindows` once it has worked through
the entries `pre`: the window system is well formed, no entry of `pre` needs
reparenting any more, every handle in the batch or in a deferred placement has
been issued, and every child of the view (every window, with in-process
plugins) holds the regions and has deferred the placements of exactly the
entries of `pre` that move it. -/
structure MoveInv (m_hWnd : HWND) (oop_plugins : Bool) (pre : List WebPluginGeometry)
    (os : Os) (D : List DeferredPos) : Prop where
  wf : os.WellFormed m_hWnd
  settled : Settled m_hWnd oop_plugins os pre
  issued : ∀ d ∈ D, d.hwnd < os.next_hwnd
  known : ∀ e ∈ pre, e.window < os.next_hwnd
  placed : ∀ h i, os.windows h = some i → (oop_plugins = true → i.parent = m_hWnd) →
    deferredFor h D =
      (pre.filter (fun e => decide (settledTarget m_hWnd oop_plugins os e.window = some h))).map
        (moveDeferred h) ∧
    rgnFold (pre.filter
      (fun e => decide (settledTarget m_hWnd oop_plugins os e.window = some h))) i = i

end RenderWidgetHostViewWin

/-! ## NotifyPluginProcessHostTask -/

/-- What the task sees of one `PluginProcessHost` in the registry. -/
structure PluginProcessHost where
  /-- The process id `base::GetProcId(plugin->handle())`, or `none` while
  `plugin->handle()` is still null. -/
  handle : Option Nat
deriving DecidableEq, Repr

/-- What the registry answers during one run of the task: the process id of
the plugin window and the plugin process hosts, in iteration order. -/
structure RegistryView where
  plugin_process_id : Nat
  hosts : List PluginProcessHost

/-- The member variables of `NotifyPluginProcessHostTask`. -/
structure NotifyPluginProcessHostTask where
  window_ : HWND
  parent_ : HWND
  tries_ : Int
deriving DecidableEq, Repr

/-- An outward call of one run of the task. -/
inductive TaskCall where
  /-- The call `plugin->AddWindow(parent_)` on the host at a position of the
  iteration. -/
  | AddWindow (host : Nat) (parent : HWND)
  /-- The call `PostDelayedTask(FROM_HERE, this, delay)`. -/
  | PostDelayedTask (delay_ms : Nat)
  /-- The call `PostMessage(parent_, WM_CLOSE, 0, 0)`. -/
  | PostWmClose (hwnd : HWND)
deriving DecidableEq, Repr

namespace NotifyPluginProcessHostTask

/-- The constant `kMaxTries`. -/
def kMaxTries : Int := 5

/-- The constant `kTryDelayMs`. -/
def kTryDelayMs : Nat := 200

/-- The constructor `NotifyPluginProcessHostTask(window, parent)`. -/
def new (window parent : HWND) : NotifyPluginProcessHostTask :=
  { window_ := window, parent_ := parent, tries_ := kMaxTries }

/-- The `for` loop of `Run` from position `k` on: the position of the host
whose process matches, if the loop returned on one, and the flag
`found_starting_plugin_process`. -/
def findHost (plugin_process_id : Nat) :
    List PluginProcessHost → Nat → Bool → Option Nat × Bool
  | [], _, found_starting => (none, found_starting)
  | plugin :: more, k, found_starting =>
    match plugin.handle with
    | none => findHost plugin_process_id more (k + 1) true
    | some id =>
      if id = plugin_process_id then (some k, found_starting)
      else findHost plugin_process_id more (k + 1) found_starting

/-- The method `Run`: the task afterwards and its calls. -/
def Run (t : NotifyPluginProcessHostTask) (reg : RegistryView) :
    NotifyPluginProcessHostTask × List TaskCall :=
  match findHost reg.plugin_process_id reg.hosts 0 false with
  | (some k, _) => (t, [TaskCall.AddWindow k t.parent_])
  | (none, found_starting_plugin_process) =>
    if found_starting_plugin_process then
      if t.tries_ ≠ 0 then
        ({ t with tries_ := t.tries_ - 1 }, [TaskCall.PostDelayedTask kTryDelayMs])
      else
        ({ t with tries_ := t.tries_ - 1 }, [TaskCall.PostWmClose t.parent_])
    else (t, [TaskCall.PostWmClose t.parent_])

/-- The runs of the task on the message loop: run `n` sees the registry as
`registry n`, and a run that posted the task again is followed by the next
run.  The calls of each run, first run first; `fuel` bounds the number of
runs. -/
def runs : Nat → Nat → NotifyPluginProcessHostTask → (Nat → RegistryView) → List (List TaskCall)
  | 0, _, _, _ => []
  | fuel + 1, n, t, registry =>
    let r := Run t (registry n)
    if r.2 = [TaskCall.PostDelayedTask kTryDelayMs] then r.2 :: runs fuel (n + 1) r.1 registry
    else [r.2]

end NotifyPluginProcessHostTask

/-- A registry in which one plugin process is starting, its handle never
known, and no process matches. -/
def startingRegistry : Nat → RegistryView :=
  fun _ => { plugin_process_id := 77, hosts := [{ handle := none }] }

/-! ## Keyboard, pointer and wheel input -/

/-- The Win32 message `WM_CANCELMODE`. -/
def WM_CANCELMODE : Nat := 0x001F

/-- The Win32 message `WM_NCLBUTTONDOWN`. -/
def WM_NCLBUTTONDOWN : Nat := 0x00A1

/-- The Win32 message `WM_KEYDOWN`. -/
def WM_KEYDOWN : Nat := 0x0100

/-- The Win32 message `WM_KEYUP`. -/
def WM_KEYUP : Nat := 0x0101

/-- The Win32 message `WM_CHAR`. -/
def WM_CHAR : Nat := 0x0102

/-- The Win32 message `WM_SYSKEYDOWN`. -/
def WM_SYSKEYDOWN : Nat := 0x0104

/-- The Win32 message `WM_SYSKEYUP`. -/
def WM_SYSKEYUP : Nat := 0x0105

/-- The Win32 message `WM_MOUSEMOVE`. -/
def WM_MOUSEMOVE : Nat := 0x0200

/-- The Win32 message `WM_LBUTTONDOWN`. -/
def WM_LBUTTONDOWN : Nat := 0x0201

/-- The Win32 message `WM_LBUTTONUP`. -/
def WM_LBUTTONUP : Nat := 0x0202

/-- The Win32 message `WM_LBUTTONDBLCLK`. -/
def WM_LBUTTONDBLCLK : Nat := 0x0203

/-- The Win32 message `WM_RBUTTONDOWN`. -/
def WM_RBUTTONDOWN : Nat := 0x0204

/-- The Win32 message `WM_RBUTTONUP`. -/
def WM_RBUTTONUP : Nat := 0x0205

/-- The Win32 message `WM_RBUTTONDBLCLK`. -/
def WM_RBUTTONDBLCLK : Nat := 0x0206

/-- The Win32 message `WM_MBUTTONDOWN`. -/
def WM_MBUTTONDOWN : Nat := 0x0207

/-- The Win32 message `WM_MBUTTONUP`. -/
def WM_MBUTTONUP : Nat := 0x0208

/-- The Win32 message `WM_MBUTTONDBLCLK`. -/
def WM_MBUTTONDBLCLK : Nat := 0x0209

/-- The Win32 message `WM_MOUSEWHEEL`. -/
def WM_MOUSEWHEEL : Nat := 0x020A

/-- The Win32 message `WM_MOUSEHWHEEL`. -/
def WM_MOUSEHWHEEL : Nat := 0x020E

/-- The Win32 message `WM_MOUSELEAVE`. -/
def WM_MOUSELEAVE : Nat := 0x02A3

/-- The virtual-key code `VK_TAB`, which is also the character `L'\t'`. -/
def VK_TAB : Nat := 0x09

/-- The virtual-key code `VK_RETURN`. -/
def VK_RETURN : Nat := 0x0D

/-- The virtual-key code `VK_SHIFT`. -/
def VK_SHIFT : Nat := 0x10

/-- The virtual-key code `VK_CONTROL`. -/
def VK_CONTROL : Nat := 0x11

/-- The virtual-key code `VK_LSHIFT`. -/
def VK_LSHIFT : Nat := 0xA0

/-- The virtual-key code `VK_RSHIFT`. -/
def VK_RSHIFT : Nat := 0xA1

/-- The virtual-key code `VK_LCONTROL`. -/
def VK_LCONTROL : Nat := 0xA2

/-- The virtual-key code `VK_RCONTROL`. -/
def VK_RCONTROL : Nat := 0xA3

/-- The virtual-key code `VK_PACKET`. -/
def VK_PACKET : Nat := 0xE7

/-- The key-flag `KF_REPEAT` of the high word of a key message's `lparam`. -/
def KF_REPEAT : Nat := 0x4000

/-- The hit-test code `HTBOTTOMLEFT`. -/
def HTBOTTOMLEFT : Nat := 16

/-- The hit-test code `HTBOTTOMRIGHT`. -/
def HTBOTTOMRIGHT : Nat := 17

/-- The flag `TME_LEAVE` of `TrackMouseEvent`. -/
def TME_LEAVE : Nat := 0x00000002

/-- The flag `TME_CANCEL` of `TrackMouseEvent`. -/
def TME_CANCEL : Nat := 0x80000000

/-- The flags `OnCancelMode` passes to `SetWindowPos`: `SWP_HIDEWINDOW |
SWP_NOACTIVATE | SWP_NOMOVE | SWP_NOREPOSITION | SWP_NOSIZE | SWP_NOZORDER`. -/
def kCancelModeFlags : Nat := 0x0080 ||| 0x0010 ||| 0x0002 ||| 0x0200 ||| 0x0001 ||| 0x0004

/-- The Win32 macro `LOWORD`. -/
def LOWORD (l : Nat) : Nat := l % 65536

/-- The Win32 macro `HIWORD`. -/
def HIWORD (l : Nat) : Nat := (l / 65536) % 65536

/-- The C cast `(int)(short)` of a 16-bit word. -/
def toShort (w : Nat) : Int := if w < 32768 then (w : Int) else (w : Int) - 65536

/-- The Win32 macro `GET_X_LPARAM`. -/
def GET_X_LPARAM (lparam : Nat) : Int := toShort (LOWORD lparam)

/-- The Win32 macro `GET_Y_LPARAM`. -/
def GET_Y_LPARAM (lparam : Nat) : Int := toShort (HIWORD lparam)

/-- The array `uint8_t keystate[256]` that `GetKeyboardState` fills, by
virtual-key code. -/
abbrev KeyState := Nat → Nat

/-- The constant `kKeyDownMask` of `GetNewTextDirection`. -/
def kKeyDownMask : Nat := 0x80

/-- The test `keystate[vk] & kKeyDownMask`. -/
def keyDown (keystate : KeyState) (vk : Nat) : Bool := keystate vk &&& kKeyDownMask != 0

/-- The assignment `keystate[vk] = 0`. -/
def clearKey (keystate : KeyState) (vk : Nat) : KeyState :=
  fun i => if i = vk then 0 else keystate i

/-- The loop `for (int i = 0; i <= VK_PACKET; ++i)` of `GetNewTextDirection`:
whether it meets a pressed key. -/
def scanPressed (keystate : KeyState) : Bool :=
  (List.range (VK_PACKET + 1)).any (keyDown keystate)

/-- The function `GetNewTextDirection`.  The argument is what `GetKeyboardState`
gives, `none` when it fails; the result is `some direction` when the source
returns true with `*direction` set, and `none` when it returns false. -/
def GetNewTextDirection (keyboard : Option KeyState) : Option WebTextDirection :=
  match keyboard with
  | none => none
  | some keystate =>
    if !keyDown keystate VK_CONTROL then none
    else
      let chosen : Option (KeyState × WebTextDirection) :=
        if keyDown keystate VK_RSHIFT then
          some (clearKey keystate VK_RSHIFT, WebTextDirection.WebTextDirectionRightToLeft)
        else if keyDown keystate VK_LSHIFT then
          some (clearKey keystate VK_LSHIFT, WebTextDirection.WebTextDirectionLeftToRight)
        else none
      match chosen with
      | none => none
      | some (keystate1, direction) =>
        let keystate2 :=
          clearKey (clearKey (clearKey (clearKey keystate1 VK_SHIFT) VK_CONTROL) VK_RCONTROL)
            VK_LCONTROL
        if scanPressed keystate2 then none else some direction

/-- The static `layout` of `IsRTLKeyboardLayoutInstalled`. -/
inductive RtlKeyboardLayout where
  | RTL_KEYBOARD_LAYOUT_NOT_INITIALIZED
  | RTL_KEYBOARD_LAYOUT_INSTALLED
  | RTL_KEYBOARD_LAYOUT_NOT_INSTALLED
  | RTL_KEYBOARD_LAYOUT_ERROR
deriving DecidableEq, Repr

/-- The Win32 macro `PRIMARYLANGID`, applied to a keyboard layout handle. -/
def PRIMARYLANGID (lgid : Nat) : Nat := (lgid % 65536) &&& 0x3ff

/-- The language identifier `LANG_ARABIC`. -/
def LANG_ARABIC : Nat := 0x01

/-- The language identifier `LANG_HEBREW`. -/
def LANG_HEBREW : Nat := 0x0d

/-- The language identifier `LANG_PERSIAN`. -/
def LANG_PERSIAN : Nat := 0x29

/-- The function `IsRTLKeyboardLayoutInstalled`: from the static `layout` and
the layouts `GetKeyboardLayoutList` reports (none when it fails), the value
returned and the new static. -/
def IsRTLKeyboardLayoutInstalled (layout : RtlKeyboardLayout) (layouts : List Nat) :
    Bool × RtlKeyboardLayout :=
  if layout ≠ RtlKeyboardLayout.RTL_KEYBOARD_LAYOUT_NOT_INITIALIZED then
    (layout == RtlKeyboardLayout.RTL_KEYBOARD_LAYOUT_INSTALLED, layout)
  else if layouts.length = 0 then (false, RtlKeyboardLayout.RTL_KEYBOARD_LAYOUT_ERROR)
  else if layouts.any (fun l => PRIMARYLANGID l == LANG_ARABIC ||
      PRIMARYLANGID l == LANG_HEBREW || PRIMARYLANGID l == LANG_PERSIAN) then
    (true, RtlKeyboardLayout.RTL_KEYBOARD_LAYOUT_INSTALLED)
  else (false, RtlKeyboardLayout.RTL_KEYBOARD_LAYOUT_NOT_INSTALLED)

/-- What the outside world answers during one `OnKeyEvent`, with the message. -/
structure KeyEnv where
  message : Nat
  wparam : Nat
  lparam : Nat
  /-- What `GetKeyboardLayoutList` reports. -/
  keyboard_layouts : List Nat
  /-- What `GetKeyboardState` fills in; `none` when it fails. -/
  keystate : Option KeyState
  /-- The result of `::SendMessage(parent_hwnd_, message, wparam, lparam)`. -/
  parent_result : Int

/-- The outcome of `OnKeyEvent`: the view, the calls, the `LRESULT` and the
static `layout` of `IsRTLKeyboardLayoutInstalled`. -/
structure KeyResult where
  view : View
  calls : List Call
  result : Int
  layout : RtlKeyboardLayout

/-- The outcome of `OnMouseEvent` and of `OnWheelEvent`: the view, the calls
and the `LRESULT`. -/
structure InputResult where
  view : View
  calls : List Call
  result : Int

/-- The member `type` of `WebInputEvent`, as far as the view reads it. -/
inductive WebInputEventType where
  | Undefined
  | MouseDown
  | MouseUp
  | MouseMove
  | MouseLeave
deriving DecidableEq, Repr

/-- Modelled from the spec: the kind of pointer event (down, up, move, leave)
that `WebInputEventFactory::mouseEvent` builds from a window message.  The
factory is WebKit code and is not under src/. -/
def mouseEventType (message : Nat) : WebInputEventType :=
  if message = WM_MOUSEMOVE then WebInputEventType.MouseMove
  else if message = WM_MOUSELEAVE then WebInputEventType.MouseLeave
  else if message = WM_LBUTTONDOWN ∨ message = WM_LBUTTONDBLCLK ∨ message = WM_MBUTTONDOWN ∨
      message = WM_MBUTTONDBLCLK ∨ message = WM_RBUTTONDOWN ∨ message = WM_RBUTTONDBLCLK then
    WebInputEventType.MouseDown
  else if message = WM_LBUTTONUP ∨ message = WM_MBUTTONUP ∨ message = WM_RBUTTONUP then
    WebInputEventType.MouseUp
  else WebInputEventType.Undefined

/-- What the outside world answers during one `OnMouseEvent`, with the message. -/
structure MouseEnv where
  message : Nat
  wparam : Nat
  lparam : Nat
  /-- What `render_widget_host_->GetRootWindowResizerRect()` gives. -/
  resizer_rect : gfx.Rect
  /-- Whether `l10n_util::GetTextDirection()` is `RIGHT_TO_LEFT`. -/
  rtl_ui : Bool
  /-- What `::GetAncestor(m_hWnd, GA_ROOT)` gives. -/
  root_hwnd : HWND
  /-- The result of `SendMessage(root_hwnd, WM_NCLBUTTONDOWN, ...)`. -/
  root_result : Int
  /-- The value `MAKELPARAM(cursor_pos.x, cursor_pos.y)` after `ClientToScreen`
  and the parent's `ScreenToClient`. -/
  parent_msg_lparam : Nat
  /-- The result of `SendMessage(GetParent(), message, ...)`. -/
  parent_result : Int
  /-- What `GetCapture()` gives. -/
  capture : HWND

/-- A window of the thread, as `EnumThreadWindows` hands it to
`DismissOwnedPopups`. -/
structure ThreadWindow where
  hwnd : HWND
  /-- What `::IsWindowVisible(window)` gives. -/
  visible : Bool
  /-- What `::GetWindow(window, GW_OWNER)` gives. -/
  owner : HWND

/-- What the outside world answers during one `OnWheelEvent`, with the message. -/
structure WheelEnv where
  message : Nat
  wparam : Nat
  lparam : Nat
  /-- What `views::RerouteMouseWheel(m_hWnd, wparam, lparam)` returns when it
  is called. -/
  reroute : Bool
  /-- What `GetForegroundWindow()` gives. -/
  foreground : HWND
  /-- What `::GetAncestor(m_hWnd, GA_ROOT)` gives. -/
  root_hwnd : HWND
  /-- The windows `EnumThreadWindows` enumerates. -/
  thread_windows : List ThreadWindow
  /-- The result of `::SendMessage(GetParent(), views::kReflectedMessage, ...)`. -/
  reflected_result : Int

/-- The callback `DismissOwnedPopups`, for one window. -/
def DismissOwnedPopups (window : ThreadWindow) (toplevel_hwnd : HWND) : List Call :=
  if window.visible then
    if toplevel_hwnd = window.owner then [Call.PostMessage window.hwnd WM_CANCELMODE 0 0]
    else []
  else []

namespace RenderWidgetHostViewWin

/-- The method `WillDestroyRenderWidget(rwh)`; `same` says whether `rwh` is
`render_widget_host_`. -/
def WillDestroyRenderWidget (v : View) (same : Bool) : View :=
  if same then { v with render_widget_host_ := false } else v

/-- The method `OnCancelMode`. -/
def OnCancelMode (v : View) : View × List Call :=
  let lost := if v.render_widget_host_ then [Call.LostCapture] else []
  if v.close_on_deactivate_ && v.shutdown_factory_ == 0 then
    ({ v with
        shutdown_factory_ := v.shutdown_factory_ + 1,
        os := v.os.ShowWindow v.m_hWnd false },
      lost ++ [Call.SetWindowPos v.m_hWnd kCancelModeFlags, Call.PostShutdownHost])
  else (v, lost)

/-- The condition under which `OnKeyEvent` takes a message for a Tab key event:
`WM_KEYDOWN` or `WM_KEYUP` of `VK_TAB`, or `WM_CHAR` of a tab character. -/
def isTabMessage (message wparam : Nat) : Bool :=
  ((message == WM_KEYDOWN || message == WM_KEYUP) && wparam == VK_TAB) ||
    (message == WM_CHAR && wparam == VK_TAB)

/-- The body of `if (IsRTLKeyboardLayoutInstalled())` in `OnKeyEvent`. -/
def textDirectionShortcut (env : KeyEnv) : List Call :=
  if env.message = WM_KEYDOWN then
    if env.wparam = VK_SHIFT then
      match GetNewTextDirection env.keystate with
      | some direction => [Call.UpdateTextDirection direction]
      | none => []
    else if env.wparam ≠ VK_CONTROL then [Call.CancelUpdateTextDirection]
    else []
  else if env.message = WM_KEYUP ∧ (env.wparam = VK_SHIFT ∨ env.wparam = VK_CONTROL) then
    [Call.NotifyTextDirection]
  else []

/-- The special processing for the Enter key in `OnKeyEvent`: from
`capture_enter_key_`, the value of `ignore_keyboard_event` and the new
`capture_enter_key_`. -/
def enterFilter (capture_enter_key_ : Bool) (message wparam lparam : Nat) : Bool × Bool :=
  if wparam = VK_RETURN then
    if message = WM_KEYDOWN ∨ message = WM_SYSKEYDOWN then
      if KF_REPEAT &&& HIWORD lparam != 0 then (!capture_enter_key_, capture_enter_key_)
      else (false, true)
    else if message = WM_KEYUP ∨ message = WM_SYSKEYUP then (!capture_enter_key_, false)
    else (!capture_enter_key_, capture_enter_key_)
  else (false, capture_enter_key_)

/-- The method `OnKeyEvent`, from the static `layout` of
`IsRTLKeyboardLayoutInstalled`.  `SendMessage(WM_CANCELMODE)` runs
`OnCancelMode` before it returns. -/
def OnKeyEvent (v : View) (layout : RtlKeyboardLayout) (env : KeyEnv) : KeyResult :=
  if v.close_on_deactivate_ && isTabMessage env.message env.wparam then
    let dcheck := if v.parent_hwnd_ = 0 then [Call.NotReached] else []
    let c := OnCancelMode v
    { view := c.1,
      calls := dcheck ++ [Call.SendMessage v.m_hWnd WM_CANCELMODE 0 0] ++ c.2 ++
        [Call.SendMessage v.parent_hwnd_ env.message env.wparam env.lparam],
      result := env.parent_result,
      layout := layout }
  else if !v.render_widget_host_ then { view := v, calls := [], result := 0, layout := layout }
  else
    let i := IsRTLKeyboardLayoutInstalled layout env.keyboard_layouts
    let direction := if i.1 then textDirectionShortcut env else []
    let f := enterFilter v.capture_enter_key_ env.message env.wparam env.lparam
    let forward :=
      if v.render_widget_host_ && !f.1 then
        [Call.ForwardKeyboardEvent env.message env.wparam env.lparam]
      else []
    { view := { v with capture_enter_key_ := f.2 },
      calls := direction ++ forward,
      result := 0,
      layout := i.2 }

/-- The calls of `OnKeyEvent` over a sequence of key messages, one list for
each message; the view and the static `layout` pass from one to the next. -/
def OnKeyEvents (v : View) (layout : RtlKeyboardLayout) : List KeyEnv → List (List Call)
  | [] => []
  | env :: envs =>
    (OnKeyEvent v layout env).calls ::
      OnKeyEvents (OnKeyEvent v layout env).view (OnKeyEvent v layout env).layout envs

/-- The method `TrackMouseLeave`. -/
def TrackMouseLeave (v : View) (track : Bool) : View × List Call :=
  if track = v.track_mouse_leave_ then (v, [])
  else
    let dcheck := if v.m_hWnd = 0 then [Call.NotReached] else []
    let flags := if !track then TME_LEAVE ||| TME_CANCEL else TME_LEAVE
    ({ v with track_mouse_leave_ := track }, dcheck ++ [Call.TrackMouseEvent v.m_hWnd flags])

/-- The method `ForwardMouseEventToRenderer`. -/
def ForwardMouseEventToRenderer (v : View) (env : MouseEnv) : View × List Call :=
  if !v.render_widget_host_ then (v, [])
  else
    let forward := [Call.ForwardMouseEvent env.message env.wparam env.lparam]
    let s : View × List Call :=
      match mouseEventType env.message with
      | WebInputEventType.MouseMove => TrackMouseLeave v true
      | WebInputEventType.MouseLeave => TrackMouseLeave v false
      | WebInputEventType.MouseDown => (v, [Call.SetCapture v.m_hWnd])
      | WebInputEventType.MouseUp =>
        (v, if env.capture = v.m_hWnd then [Call.ReleaseCapture] else [])
      | WebInputEventType.Undefined => (v, [])
    if v.activatable_ && mouseEventType env.message == WebInputEventType.MouseDown then
      ({ s.1 with os := { s.1.os with focus := v.m_hWnd } },
        forward ++ s.2 ++ [Call.SetFocus v.m_hWnd])
    else (s.1, forward ++ s.2)

/-- The test of `OnMouseEvent` for a click on the resize corner. -/
def onResizeCorner (v : View) (env : MouseEnv) : Bool :=
  env.message == WM_LBUTTONDOWN && (v.render_widget_host_ &&
    decide (env.resizer_rect.Contains (GET_X_LPARAM env.lparam) (GET_Y_LPARAM env.lparam)))

/-- The message `OnMouseEvent` sends to the root window for a click on the
resize corner. -/
def resizeMessage (env : MouseEnv) : Call :=
  Call.SendMessage env.root_hwnd WM_NCLBUTTONDOWN
    (if env.rtl_ui then HTBOTTOMLEFT else HTBOTTOMRIGHT) env.lparam

/-- The labels of the `switch (message)` of `OnMouseEvent`. -/
def offeredToParent (message : Nat) : Bool :=
  message == WM_LBUTTONDOWN || message == WM_MBUTTONDOWN || message == WM_MOUSEMOVE ||
    message == WM_MOUSELEAVE || message == WM_RBUTTONDOWN

/-- The message `OnMouseEvent` sends to the parent window first. -/
def parentMessage (v : View) (env : MouseEnv) : Call :=
  Call.SendMessage (v.os.GetParent v.m_hWnd) env.message env.wparam
    (if env.message ≠ WM_MOUSELEAVE then env.parent_msg_lparam else env.lparam)

/-- The relay of a pointer message to the tooltip window in `OnMouseEvent`. -/
def tooltipRelay (v : View) (env : MouseEnv) : List Call :=
  if v.os.IsWindow v.tooltip_hwnd_ then
    [Call.TooltipRelayEvent v.tooltip_hwnd_ env.message env.wparam env.lparam]
  else []

/-- The method `OnMouseEvent`. -/
def OnMouseEvent (v : View) (env : MouseEnv) : InputResult :=
  let relay := tooltipRelay v env
  if !v.close_on_deactivate_ then
    let toRoot := if onResizeCorner v env then [resizeMessage env] else []
    if onResizeCorner v env && env.root_result == 0 then
      { view := v, calls := relay ++ toRoot, result := 0 }
    else
      let toParent := if offeredToParent env.message then [parentMessage v env] else []
      if offeredToParent env.message && env.parent_result != 0 then
        { view := v, calls := relay ++ toRoot ++ toParent, result := 1 }
      else
        let ime := if env.message = WM_LBUTTONDOWN then [Call.CleanupComposition] else []
        let f := ForwardMouseEventToRenderer v env
        { view := f.1, calls := relay ++ toRoot ++ toParent ++ ime ++ f.2, result := 0 }
  else
    let f := ForwardMouseEventToRenderer v env
    { view := f.1, calls := relay ++ f.2, result := 0 }

/-- The dismissal of owned popups in `OnWheelEvent`. -/
def dismissOwnedPopups (v : View) (env : WheelEnv) : List Call :=
  if v.m_hWnd ≠ env.foreground then
    (env.thread_windows.map (fun w => DismissOwnedPopups w env.root_hwnd)).flatten
  else []

/-- The method `OnWheelEvent`. -/
def OnWheelEvent (v : View) (env : WheelEnv) : InputResult :=
  if env.message == WM_MOUSEWHEEL && env.reroute then
    { view := v, calls := [Call.RerouteMouseWheel v.m_hWnd env.wparam env.lparam], result := 0 }
  else
    let parent := v.os.GetParent v.m_hWnd
    let reflected :=
      if parent ≠ 0 then [Call.ReflectedMessage parent env.message env.wparam env.lparam]
      else []
    let handled_by_TabContents := parent != 0 && env.reflected_result != 0
    let forward :=
      if !handled_by_TabContents && v.render_widget_host_ then
        [Call.ForwardWheelEvent env.message env.wparam env.lparam]
      else []
    { view := v, calls := dismissOwnedPopups v env ++ reflected ++ forward, result := 0 }

end RenderWidgetHostViewWin

/-! ## The text direction in RenderWidgetHost -/

/-- Modelled from the spec: the members of `RenderWidgetHost` behind
`UpdateTextDirection`, `CancelUpdateTextDirection` and `NotifyTextDirection`.
The class is not under src/; the spec's shortcut rule and the comments at the
three calls in `OnKeyEvent` describe it. -/
structure RenderWidgetHost where
  text_direction_updated_ : Bool
  text_direction_canceled_ : Bool
  text_direction_ : WebTextDirection
deriving DecidableEq, Repr

namespace RenderWidgetHost

/-- Modelled from the spec: what one call does to the pending text direction,
and the directions it sends to the renderer.  An update records the direction
as pending; a cancel marks a pending direction as cancelled; a notification
sends a pending direction unless it was cancelled, and clears both marks. -/
def step (h : RenderWidgetHost) : Call → RenderWidgetHost × List WebTextDirection
  | Call.UpdateTextDirection direction =>
    ({ h with text_direction_updated_ := true, text_direction_ := direction }, [])
  | Call.CancelUpdateTextDirection =>
    (if h.text_direction_updated_ then { h with text_direction_canceled_ := true } else h, [])
  | Call.NotifyTextDirection =>
    if h.text_direction_updated_ then
      ({ h with text_direction_updated_ := false, text_direction_canceled_ := false },
        if h.text_direction_canceled_ then [] else [h.text_direction_])
    else (h, [])
  | _ => (h, [])

/-- Modelled from the spec: the directions sent to the renderer over a list
of calls. -/
def sent (h : RenderWidgetHost) : List Call → List WebTextDirection
  | [] => []
  | c :: cs => (h.step c).2 ++ sent (h.step c).1 cs

end RenderWidgetHost

/-! ## Reading a list of calls -/

/-- The rectangles a list of calls copies from the backing store to the
screen, by `BitBlt` or through `DrawDeemphasized`. -/
def blits : List Call → List gfx.Rect
  | [] => []
  | Call.BitBlt r :: cs => r :: blits cs
  | Call.DrawDeemphasized r :: cs => r :: blits cs
  | _ :: cs => blits cs

/-- The rectangles a list of calls fills with background. -/
def backgroundFills : List Call → List RECT
  | [] => []
  | Call.FillRect r :: cs => r :: backgroundFills cs
  | Call.TileBackground r :: cs => r :: backgroundFills cs
  | _ :: cs => backgroundFills cs

/-- The samples a list of calls records into one histogram. -/
def samples (h : Histogram) : List Call → List TimeDelta
  | [] => []
  | Call.HistogramTimes k d :: cs => if k = h then d :: samples h cs else samples h cs
  | _ :: cs => samples h cs

/-- The placements a list of calls defers, in order. -/
def deferredCalls : List Call → List DeferredPos
  | [] => []
  | Call.DeferWindowPos d :: cs => d :: deferredCalls cs
  | _ :: cs => deferredCalls cs

/-- Whether a call forwards an input event to the renderer. -/
def forwardsInput : Call → Bool
  | Call.ForwardKeyboardEvent _ _ _ => true
  | Call.ForwardMouseEvent _ _ _ => true
  | Call.ForwardWheelEvent _ _ _ => true
  | _ => false

/-- The input events a list of calls forwards to the renderer. -/
def forwarded (calls : List Call) : List Call := calls.filter forwardsInput

/-- Whether a call goes through `render_widget_host_`. -/
def throughHost : Call → Bool
  | Call.Send _ => true
  | Call.GotFocus => true
  | Call.Blur => true
  | Call.SystemThemeChanged => true
  | Call.Shutdown => true
  | Call.GetBackingStore => true
  | Call.WasRestored => true
  | Call.WasHidden => true
  | Call.LostCapture => true
  | Call.UpdateTextDirection _ => true
  | Call.CancelUpdateTextDirection => true
  | Call.NotifyTextDirection => true
  | Call.ForwardKeyboardEvent _ _ _ => true
  | Call.ForwardMouseEvent _ _ _ => true
  | Call.ForwardWheelEvent _ _ _ => true
  | _ => false

/-- The calls of a list that do not go through `render_widget_host_`: what the
view does to its own side. -/
def localEffects (calls : List Call) : List Call := calls.filter (fun c => !throughHost c)

/-- The IPC messages a list of calls sends to the renderer. -/
def sentMessages : List Call → List ViewMsg
  | [] => []
  | Call.Send message :: cs => message :: sentMessages cs
  | _ :: cs => sentMessages cs

/-- Whether a call uses `render_widget_host_`: it goes through the pointer, or
dereferences it while it is null. -/
def usesHost (c : Call) : Bool := throughHost c || c == Call.NullDereference

/-- Whether no call of a list uses `render_widget_host_`. -/
def hostFree (calls : List Call) : Bool := calls.all (fun c => !usesHost c)

/-- Whether a call is one of the three text-direction calls. -/
def aboutTextDirection : Call → Bool
  | Call.UpdateTextDirection _ => true
  | Call.CancelUpdateTextDirection => true
  | Call.NotifyTextDirection => true
  | _ => false

/-- The text-direction calls of a list. -/
def textDirectionCalls (calls : List Call) : List Call := calls.filter aboutTextDirection

namespace RenderWidgetHostViewWin

/-- An entry `MovePluginWindows` must not act on: its window is gone, or (with
out-of-process plugins) neither its parent nor its grandparent is the view. -/
def stale (m_hWnd : HWND) (oop_plugins : Bool) (os : Os) (window : HWND) : Bool :=
  !os.IsWindow window ||
    (oop_plugins && os.GetParent window != m_hWnd &&
      os.GetParent (os.GetParent window) != m_hWnd)

end RenderWidgetHostViewWin

/-- A call that belongs to the body of a placement transaction: neither its
opening, nor its commit, nor a failed assertion. -/
def inTransaction (c : Call) : Prop :=
  c ≠ Call.EndDeferWindowPos ∧ c ≠ Call.NotReached ∧ ∀ n, c ≠ Call.BeginDeferWindowPos n

/-- A damage notification from the renderer. -/
inductive DamageNotification where
  | Paint (rects : List gfx.Rect)
  | Scroll (rect : gfx.Rect) (dx dy : Int) (invalidated : List RECT)

namespace RenderWidgetHostViewWin

/-- Deliver one damage notification to the view. -/
def notify (v : View) : DamageNotification → View × List Call
  | DamageNotification.Paint rects => DidPaintBackingStoreRects v rects
  | DamageNotification.Scroll rect dx dy inv => DidScrollBackingStoreRect v rect dx dy inv

/-- Deliver a sequence of damage notifications, first to last. -/
def notifyAll (v : View) : List DamageNotification → View × List Call
  | [] => (v, [])
  | n :: ns =>
    let a := notify v n
    let b := notifyAll a.1 ns
    (b.1, a.2 ++ b.2)

/-- Run `OnPaint` once per environment, first to last; the view at the end. -/
def paintAll (v : View) : List PaintEnv → View
  | [] => v
  | e :: es => paintAll (OnPaint v e).1 es

end RenderWidgetHostViewWin

namespace RenderWidgetHostViewWin

/-- The rectangles that reach the update region while the backing store is
fetched: none when the view is hidden. -/
def fetchedDamage (v : View) (env : PaintEnv) : List RECT :=
  if v.is_hidden_ then [] else (env.during_fetch.flatten).map gfx.Rect.ToRECT

/-- The view once `OnPaint` has fetched the backing store and `BeginPaint` has
cleared the update region. -/
def afterBeginPaint (v : View) : View :=
  { v with about_to_validate_and_paint_ := false, os := { v.os with update_rgn := [] } }

end RenderWidgetHostViewWin

/-! ## Tooltip text, teardown, focus and the input method -/

/-- The constant `kTooltipMaxWidthPixels`. -/
def kTooltipMaxWidthPixels : Nat := 300

/-- The constant `kMaxTooltipLength`. -/
def kMaxTooltipLength : Nat := 1024

/-- The tooltip message `TTM_SETMAXTIPWIDTH`. -/
def TTM_SETMAXTIPWIDTH : Nat := 0x0418

/-- The tooltip message `TTM_POP`. -/
def TTM_POP : Nat := 0x041C

/-- The tooltip message `TTM_POPUP`. -/
def TTM_POPUP : Nat := 0x0422

/-- The notification code `TTN_GETDISPINFO`, as a `UINT`. -/
def TTN_GETDISPINFO : Nat := 2 ^ 32 - 530

/-- The notification code `TTN_SHOW`, as a `UINT`. -/
def TTN_SHOW : Nat := 2 ^ 32 - 521

/-- The notification code `TTN_POP`, as a `UINT`. -/
def TTN_POP : Nat := 2 ^ 32 - 522

/-- The activation state `WA_INACTIVE`. -/
def WA_INACTIVE : Nat := 0

/-- The struct `ImeComposition`, as `GetResult` and `GetComposition` fill it. -/
structure ImeComposition where
  cursor_position : Int
  target_start : Int
  target_end : Int
  ime_string : String
deriving DecidableEq, Repr

/-- Modelled from the spec: the state of the member `ime_input_`; the class
`ImeInput` is not under src/.  `is_composing_` is the spec's Composing (true)
or Idle (false), and `has_ime_window` says whether the native composition
window exists. -/
structure ImeInput where
  is_composing_ : Bool
  has_ime_window : Bool
deriving DecidableEq, Repr

namespace ImeInput

/-- Modelled from the spec: `ImeInput::CreateImeWindow` creates the native
composition window. -/
def CreateImeWindow (i : ImeInput) : ImeInput := { i with has_ime_window := true }

/-- Modelled from the spec: `ImeInput::DestroyImeWindow` releases the native
composition window. -/
def DestroyImeWindow (i : ImeInput) : ImeInput := { i with has_ime_window := false }

/-- Modelled from the spec: `ImeInput::ResetComposition` clears the local
composition state. -/
def ResetComposition (i : ImeInput) : ImeInput := { i with is_composing_ := false }

/-- Modelled from the spec: `ImeInput::CleanupComposition` finishes an ongoing
composition. -/
def CleanupComposition (i : ImeInput) : ImeInput := { i with is_composing_ := false }

/-- Modelled from the spec: `ImeInput::GetComposition`, given what it
retrieved: a composition string that was read marks a composition as ongoing. -/
def GetComposition (i : ImeInput) (composition : Option ImeComposition) : ImeInput :=
  if composition.isSome then { i with is_composing_ := true } else i

end ImeInput

/-- The outcome of a handler that works with `ime_input_`: the view, the state
of `ime_input_` and the calls. -/
structure ImeResult where
  view : View
  ime_input_ : ImeInput
  calls : List Call

/-- What the outside world answers during one `OnImeComposition`. -/
structure ImeEnv where
  /-- What `ime_input_.GetResult` fills in; `none` when it returns false. -/
  result : Option ImeComposition
  /-- What `ime_input_.GetComposition` fills in; `none` when it returns false. -/
  composition : Option ImeComposition

namespace RenderWidgetHostViewWin

/-- The method `Send`; `sent` is what `render_widget_host_->Send` returns. -/
def Send (v : View) (sent : Bool) (message : ViewMsg) : Bool × List Call :=
  if !v.render_widget_host_ then (false, [])
  else (sent, [Call.Send message])

/-- The evaluation of `render_widget_host_->routing_id()`, which the source
makes without a null test of its own. -/
def routing_id (v : View) : List Call :=
  if v.render_widget_host_ then [] else [Call.NullDereference]

/-- The method `SetTooltipText`; `TruncateString` is
`l10n_util::TruncateString`, which is not under src/. -/
def SetTooltipText (v : View) (TruncateString : String → Nat → String) (tooltip_text : String) :
    View × List Call :=
  let new_tooltip_text := TruncateString tooltip_text kMaxTooltipLength
  if new_tooltip_text ≠ v.tooltip_text_ then
    ({ v with tooltip_text_ := new_tooltip_text },
      if v.os.IsWindow v.tooltip_hwnd_ && v.tooltip_showing_ then
        [Call.SendMessage v.tooltip_hwnd_ TTM_POP 0 0,
          Call.SendMessage v.tooltip_hwnd_ TTM_POPUP 0 0]
      else [])
  else
    (v,
      if !v.tooltip_showing_ then
        if v.os.IsWindow v.tooltip_hwnd_ then [Call.SendMessage v.tooltip_hwnd_ TTM_POP 0 0]
        else []
      else [])

/-- The method `OnNotify`, for the notification code `header->code`. -/
def OnNotify (v : View) (code : Nat) : View × List Call :=
  if v.tooltip_hwnd_ = 0 then (v, [])
  else if code = TTN_GETDISPINFO then
    (v, [Call.TooltipDispInfo v.tooltip_text_,
      Call.SendMessage v.tooltip_hwnd_ TTM_SETMAXTIPWIDTH 0 kTooltipMaxWidthPixels])
  else if code = TTN_POP then ({ v with tooltip_showing_ := false }, [])
  else if code = TTN_SHOW then ({ v with tooltip_showing_ := true }, [])
  else (v, [])

/-- The method `RenderViewGone`.  The messages `DestroyWindow` dispatches
before it returns are separate steps. -/
def RenderViewGone (v : View) : View × List Call :=
  ({ v with being_destroyed_ := true, os := v.os.DestroyWindow v.m_hWnd },
    [Call.UpdateCursorIfOverSelf, Call.DestroyWindow v.m_hWnd])

/-- The method `Destroy`.  The messages `DestroyWindow` dispatches before it
returns are separate steps. -/
def Destroy (v : View) : View × List Call :=
  ({ v with close_on_deactivate_ := false, being_destroyed_ := true,
            os := v.os.DestroyWindow v.m_hWnd },
    [Call.DestroyWindow v.m_hWnd])

/-- The method `OnActivate`.  `SendMessage(WM_CANCELMODE)` runs `OnCancelMode`
before it returns. -/
def OnActivate (v : View) (action : Nat) : View × List Call :=
  if v.close_on_deactivate_ && action == WA_INACTIVE then
    let c := OnCancelMode v
    (c.1, Call.SendMessage v.m_hWnd WM_CANCELMODE 0 0 :: c.2)
  else (v, [])

/-- The method `ShutdownHost`, the task `OnCancelMode` posts. -/
def ShutdownHost (v : View) : View × List Call :=
  ({ v with shutdown_factory_ := 0 },
    if v.render_widget_host_ then [Call.Shutdown] else [])

/-- A number of `OnCancelMode` calls in a row, with no task run in between. -/
def cancelModes (v : View) : Nat → View × List Call
  | 0 => (v, [])
  | n + 1 =>
    let c := OnCancelMode v
    let rest := cancelModes c.1 n
    (rest.1, c.2 ++ rest.2)

/-- The method `OnSetFocus`. -/
def OnSetFocus (v : View) (window : HWND) : View × List Call :=
  (v, Call.OnWidgetFocusEvent window v.m_hWnd ::
    (if v.render_widget_host_ then [Call.GotFocus] else []))

/-- The method `OnKillFocus`. -/
def OnKillFocus (v : View) (window : HWND) : View × List Call :=
  (v, Call.OnWidgetFocusEvent v.m_hWnd window ::
    (if v.render_widget_host_ then [Call.Blur] else []))

/-- The method `OnCaptureChanged`. -/
def OnCaptureChanged (v : View) : View × List Call :=
  (v, if v.render_widget_host_ then [Call.LostCapture] else [])

/-- The method `OnThemeChanged`. -/
def OnThemeChanged (v : View) : View × List Call :=
  (v, if v.render_widget_host_ then [Call.SystemThemeChanged] else [])

/-- The method `OnInputLangChange`; `ime_status` is what
`ime_input_.SetInputLanguage()` returns and `sent` what
`render_widget_host_->Send` returns. -/
def OnInputLangChange (v : View) (ime_status sent : Bool) : View × List Call :=
  if ime_status ≠ v.ime_notification_ then
    let s := Send v sent (ViewMsg.ImeSetInputMode ime_status)
    (if s.1 then { v with ime_notification_ := ime_status } else v,
      [Call.SetInputLanguage] ++ routing_id v ++ s.2)
  else (v, [Call.SetInputLanguage])

/-- The method `OnImeSetContext`; `sent` is what `render_widget_host_->Send`
returns. -/
def OnImeSetContext (v : View) (ime : ImeInput) (wparam : Nat) (sent : Bool) : ImeResult :=
  if !v.render_widget_host_ then { view := v, ime_input_ := ime, calls := [] }
  else
    let activated := wparam == 1
    let s := Send v sent (ViewMsg.ImeSetInputMode activated)
    let v1 := if s.1 then { v with ime_notification_ := activated } else v
    let create := if v1.ime_notification_ then [Call.CreateImeWindow] else []
    let ime1 := if v1.ime_notification_ then ime.CreateImeWindow else ime
    { view := v1,
      ime_input_ := ime1.CleanupComposition,
      calls := routing_id v ++ s.2 ++ create ++
        [Call.CleanupComposition, Call.SetImeWindowStyle] }

/-- The method `OnImeStartComposition`. -/
def OnImeStartComposition (v : View) (ime : ImeInput) : ImeResult :=
  if !v.render_widget_host_ then { view := v, ime_input_ := ime, calls := [] }
  else
    { view := v,
      ime_input_ := ime.CreateImeWindow.ResetComposition,
      calls := [Call.CreateImeWindow, Call.ResetComposition] }

/-- The message `OnImeComposition` and `OnImeEndComposition` send for a
composition. -/
def imeSetComposition (command : WebCompositionCommand) (composition : ImeComposition) :
    ViewMsg :=
  ViewMsg.ImeSetComposition command composition.cursor_position composition.target_start
    composition.target_end composition.ime_string

/-- The method `OnImeComposition`; `sent` is what `render_widget_host_->Send`
returns. -/
def OnImeComposition (v : View) (ime : ImeInput) (env : ImeEnv) (sent : Bool) : ImeResult :=
  if !v.render_widget_host_ then { view := v, ime_input_ := ime, calls := [] }
  else
    let confirm : ImeInput × List Call :=
      match env.result with
      | some composition =>
        (ime.ResetComposition,
          routing_id v ++
          (Send v sent (imeSetComposition WebCompositionCommand.WebCompositionCommandConfirm
            composition)).2 ++ [Call.ResetComposition])
      | none => (ime, [])
    let set : List Call :=
      match env.composition with
      | some composition =>
        routing_id v ++
        (Send v sent (imeSetComposition WebCompositionCommand.WebCompositionCommandSet
          composition)).2
      | none => []
    { view := v,
      ime_input_ := confirm.1.GetComposition env.composition,
      calls := [Call.UpdateImeWindow] ++ confirm.2 ++ set }

/-- The method `OnImeEndComposition`; `sent` is what
`render_widget_host_->Send` returns. -/
def OnImeEndComposition (v : View) (ime : ImeInput) (sent : Bool) : ImeResult :=
  if !v.render_widget_host_ then { view := v, ime_input_ := ime, calls := [] }
  else
    let discard : ImeInput × List Call :=
      if ime.is_composing_ then
        (ime.ResetComposition,
          routing_id v ++
          (Send v sent (ViewMsg.ImeSetComposition
            WebCompositionCommand.WebCompositionCommandDiscard (-1) (-1) (-1) "")).2 ++
          [Call.ResetComposition])
      else (ime, [])
    { view := v,
      ime_input_ := discard.1.DestroyImeWindow,
      calls := discard.2 ++ [Call.DestroyImeWindow] }

end RenderWidgetHostViewWin

/-! ## CleanUpDuplicates

Source: `chrome/browser/extensions/extension_dom_ui.cc`. -/

/-- Modelled from the spec: `Value` (base/values.h is not under src/), as far
as `CleanUpDuplicates` reads it: a string value, or a value of another type. -/
inductive Value where
  | string (s : String)
  | other (type : Nat)
deriving DecidableEq, Repr

/-- Modelled from the spec: `Value::GetAsString` (base/values.h is not under
src/): the string of a string value, and failure for any other value. -/
def Value.GetAsString : Value → Option String
  | Value.string s => some s
  | Value.other _ => none

/-- Modelled from the spec: `ListValue` (base/values.h is not under src/): a
list of values. -/
abbrev ListValue := List Value

/-- Modelled from the spec: `ListValue::GetString(index, &out)` (base/values.h
is not under src/): the string at an index, and failure when the index is out
of range or the item is not a string. -/
def ListValue.GetString (list : ListValue) (index : Nat) : Option String :=
  match list.get? index with
  | some value => value.GetAsString
  | none => none

/-- Modelled from the spec: `ListValue::Remove(index, NULL)` (base/values.h is
not under src/): the list without the item at an index. -/
def ListValue.Remove (list : ListValue) (index : Nat) : ListValue := list.eraseIdx index

/-- The loop of `CleanUpDuplicates`, from the index `i`, a `size_t` with
`modulus` values (`2 ^ 32` or `2 ^ 64`): `i + 1` and `--i` wrap around.  The
set `seen_values` is a list.  The result is the list and the number of
`NOTREACHED()` hits, or `none` when the fuel runs out. -/
def cleanUpLoop (modulus : Nat) :
    Nat → Nat → List String → ListValue → Nat → Option (ListValue × Nat)
  | 0, _, _, _, _ => none
  | fuel + 1, i, seen_values, list, notreached =>
    if (i + 1) % modulus > 0 then
      match ListValue.GetString list i with
      | none => cleanUpLoop modulus fuel ((i + modulus - 1) % modulus) seen_values list
          (notreached + 1)
      | some value =>
        if value ∈ seen_values then
          cleanUpLoop modulus fuel ((i + modulus - 1) % modulus) seen_values
            (ListValue.Remove list i) notreached
        else
          cleanUpLoop modulus fuel ((i + modulus - 1) % modulus) (value :: seen_values) list
            notreached
    else some (list, notreached)

/-- The function `CleanUpDuplicates`, with fuel for its loop; the index
starts at `list->GetSize() - 1` in `size_t`. -/
def CleanUpDuplicates (modulus fuel : Nat) (list : ListValue) : Option (ListValue × Nat) :=
  cleanUpLoop modulus fuel ((list.length % modulus + modulus - 1) % modulus) [] list 0

/-! ## Sample inputs -/

/-- A window system with the view's window `1` under the tab window `7`. -/
def sampleOs : Os :=
  { windows := fun h =>
      if h = 1 then
        some { parent := 7, visible := true, x := 0, y := 0, width := 100, height := 100,
               rgn := none, disabled := false }
      else none,
    next_hwnd := 10, desktop := 9, focus := 1, update_rgn := [] }

/-- A visible view on `sampleOs`. -/
def sampleView : View := { RenderWidgetHostViewWin.new sampleOs with m_hWnd := 1 }

/-- A hidden view on `sampleOs`. -/
def hiddenView : View := { sampleView with is_hidden_ := true }

/-- A paint with a 100 x 100 backing store, during whose fetch the renderer
reports the rectangle `(0, 0, 10, 10)` as painted. -/
def fetchEnv : PaintEnv :=
  { during_fetch := [[{ x := 0, y := 0, width := 10, height := 10 }]],
    backing_store := some { width := 100, height := 100 },
    rcPaint := { left := 0, top := 0, right := 10, bottom := 10 },
    manage_colors := false, now_whiteout := 50, now_tab_switch := 60, now_blank := 70 }

/-- A paint of `(0, 0, 10, 10)` for which no backing store is available. -/
def blankEnv : PaintEnv := { fetchEnv with during_fetch := [], backing_store := none }

/-- A paint with a backing store and an empty paint rectangle. -/
def emptyEnv : PaintEnv :=
  { fetchEnv with during_fetch := [], rcPaint := { left := 0, top := 0, right := 0, bottom := 0 } }

/-- The view `sampleView` with the rectangle `(0, 0, 120, 130)` damaged. -/
def damagedView : View :=
  { sampleView with
    os := { sampleOs with update_rgn := [{ left := 0, top := 0, right := 120, bottom := 130 }] } }

/-- A paint of `(0, 0, 120, 130)` from a 100 x 100 backing store, as after a
resize race. -/
def resizeEnv : PaintEnv :=
  { fetchEnv with
    during_fetch := [], rcPaint := { left := 0, top := 0, right := 120, bottom := 130 } }

/-- A window system with the view's window `1` under the tab window `7`, the
plugin window `2` a direct child of the view, and the plugin window `4` inside
the intermediate window `3`. -/
def pluginOs : Os :=
  { windows := fun h =>
      if h = 1 then
        some { parent := 7, visible := true, x := 0, y := 0, width := 100, height := 100,
               rgn := none, disabled := false }
      else if h = 2 then
        some { parent := 1, visible := false, x := 0, y := 0, width := 20, height := 20,
               rgn := none, disabled := false }
      else if h = 3 then
        some { parent := 1, visible := true, x := 5, y := 5, width := 30, height := 30,
               rgn := none, disabled := false }
      else if h = 4 then
        some { parent := 3, visible := true, x := 0, y := 0, width := 30, height := 30,
               rgn := none, disabled := false }
      else none,
    next_hwnd := 10, desktop := 9, focus := 1, update_rgn := [] }

/-- A visible view on `pluginOs`. -/
def pluginView : View := { RenderWidgetHostViewWin.new pluginOs with m_hWnd := 1 }

/-- Out-of-process plugins, every window-system call succeeding. -/
def oopEnv : MoveEnv :=
  { single_process := false, in_process_plugins := false, begin_defer_ok := true,
    defer_ok := fun _ => true }

/-- A geometry update for `window` with valid rectangles. -/
def sampleMove (window : HWND) (visible : Bool) : WebPluginGeometry :=
  { window := window, window_rect := { x := 10, y := 20, width := 30, height := 40 },
    clip_rect := { x := 0, y := 0, width := 30, height := 40 },
    cutout_rects := [{ x := 0, y := 0, width := 5, height := 5 }],
    rects_valid := true, visible := visible }

/-- A view on `sampleOs` that is an auto-dismiss popup of the window `7`. -/
def popupView : View := { sampleView with close_on_deactivate_ := true, parent_hwnd_ := 7 }

/-- A key message, with no keyboard layout reported and no key held. -/
def keyEnv (message wparam lparam : Nat) : KeyEnv :=
  { message := message, wparam := wparam, lparam := lparam, keyboard_layouts := [],
    keystate := some (fun _ => 0), parent_result := 0 }

/-- The `lparam` of a repeated key: bit 30 set, repeat count 1. -/
def repeatLparam : Nat := 0x40000001

/-- The keyboard with the left Control key and the right Shift key held:
`VK_SHIFT`, `VK_CONTROL`, `VK_RSHIFT` and `VK_LCONTROL` are down. -/
def ctrlRightShift : KeyState :=
  fun i => if i = VK_SHIFT ∨ i = VK_CONTROL ∨ i = VK_RSHIFT ∨ i = VK_LCONTROL then 0x80 else 0

/-- The virtual-key code `VK_PLAY`. -/
def VK_PLAY : Nat := 0xFA

/-- The keyboard `ctrlRightShift` with the Play key held as well. -/
def ctrlRightShiftPlay : KeyState :=
  fun i => if i = VK_PLAY then 0x80 else ctrlRightShift i

/-- A key message while Control and right Shift are held. -/
def shortcutEnv (message wparam : Nat) : KeyEnv :=
  { keyEnv message wparam 1 with keystate := some ctrlRightShift }

/-- A render widget host with no text direction pending. -/
def idleHost : RenderWidgetHost :=
  { text_direction_updated_ := false, text_direction_canceled_ := false,
    text_direction_ := WebTextDirection.WebTextDirectionDefault }

/-- The `lparam` of a pointer message at the client position `(x, y)`. -/
def pointAt (x y : Nat) : Nat := x + 65536 * y

/-- A pointer message at `(5, 5)`: the resize corner is the square from
`(90, 90)` to `(100, 100)`, the root window is `8`, the root window and the
parent answer `0`, and no window holds the capture. -/
def mouseEnv (message : Nat) : MouseEnv :=
  { message := message, wparam := 0, lparam := pointAt 5 5,
    resizer_rect := { x := 90, y := 90, width := 10, height := 10 },
    rtl_ui := false, root_hwnd := 8, root_result := 0,
    parent_msg_lparam := pointAt 5 5, parent_result := 0, capture := 0 }

/-- A pointer message at `(95, 95)`, on the resize corner of `mouseEnv`. -/
def cornerEnv (message : Nat) : MouseEnv :=
  { mouseEnv message with lparam := pointAt 95 95, parent_msg_lparam := pointAt 95 95 }

/-- A wheel message that is not rerouted, with the view in the foreground and
a parent that answers `0`. -/
def wheelEnv (message : Nat) : WheelEnv :=
  { message := message, wparam := 120, lparam := pointAt 5 5, reroute := false,
    foreground := 1, root_hwnd := 8, thread_windows := [], reflected_result := 0 }

/-- A paint of `(50, 150, 150, 200)` from a 100 x 100 backing store: the
damaged rectangle lies below the backing store and reaches past its right
edge. -/
def belowEnv : PaintEnv :=
  { fetchEnv with
    during_fetch := [], rcPaint := { left := 50, top := 150, right := 150, bottom := 200 } }

/-- The view `sampleView` with the rectangle `(50, 150, 150, 200)` damaged. -/
def damagedBelowView : View :=
  { sampleView with
    os := { sampleOs with
      update_rgn := [{ left := 50, top := 150, right := 150, bottom := 200 }] } }

/-- The function `l10n_util::TruncateString` on texts that are not longer than
the limit: they stay as they are. -/
def keepShort : String → Nat → String := fun text _ => text

/-- The view `sampleView` with its tooltip window `10` created, the text `A`
set and the tooltip on screen. -/
def tooltipView : View :=
  { (RenderWidgetHostViewWin.EnsureTooltip sampleView).1 with
    tooltip_text_ := "A", tooltip_showing_ := true }

/-- An input method with no composition and no composition window. -/
def idleIme : ImeInput := { is_composing_ := false, has_ime_window := false }

/-- The composition `ab` with the cursor after its two characters. -/
def updateAb : ImeComposition :=
  { cursor_position := 2, target_start := -1, target_end := -1, ime_string := "ab" }

/-- The result string `ab`, which has no cursor and no target span. -/
def resultAb : ImeComposition :=
  { cursor_position := -1, target_start := -1, target_end := -1, ime_string := "ab" }

/-- The view `sampleView` after `WillDestroyRenderWidget` took its render
widget host away. -/
def goneView : View := RenderWidgetHostViewWin.WillDestroyRenderWidget sampleView true

/-! ## Theorems -/

namespace RenderWidgetHostViewWin

theorem invalidateRects_eq (os : Os) (rects : List gfx.Rect) :
    invalidateRects os rects =
      ({ os with update_rgn := os.update_rgn ++ rects.map gfx.Rect.ToRECT },
       (rects.map gfx.Rect.ToRECT).map Call.InvalidateRect) := by
  induction rects generalizing os with
  | nil => simp [invalidateRects]
  | cons r rs ih => simp [invalidateRects, ih, Os.InvalidateRect]

theorem deliverDuringFetch_eq (v : View) (h : v.about_to_validate_and_paint_ = true)
    (ns : List (List gfx.Rect)) :
    deliverDuringFetch v ns =
      ({ v with os := { v.os with update_rgn := v.os.update_rgn ++
            (if v.is_hidden_ then [] else (ns.flatten).map gfx.Rect.ToRECT) } },
       (if v.is_hidden_ then [] else (ns.flatten).map gfx.Rect.ToRECT).map
          Call.InvalidateRect) := by
  induction ns generalizing v with
  | nil =>
    obtain ⟨_, _, _, _, _, hid, _, _, _, _, _, _, _, _, _, _, _, _, _, _, _, ⟨_, _, _, _, _⟩⟩ := v
    cases hid <;> simp [deliverDuringFetch]
  | cons r rs ih =>
    have h1 : (DidPaintBackingStoreRects v r).1.about_to_validate_and_paint_ = true := by
      cases hh : v.is_hidden_ <;> simp [DidPaintBackingStoreRects, hh, h]
    rw [deliverDuringFetch, ih _ h1]
    obtain ⟨_, _, _, _, _, hid, _, _, _, _, _, _, _, _, _, _, _, _, _, _, _, ⟨_, _, _, _, _⟩⟩ := v
    simp only at h
    cases hid <;> simp [DidPaintBackingStoreRects, h, invalidateRects_eq]

end RenderWidgetHostViewWin

namespace RenderWidgetHostViewWin

theorem OnPaint_eq (v : View) (env : PaintEnv) (hgpu : v.gpu_view_host_ = false) :
    OnPaint v env =
      if (gfx.Rect.ofRECT env.rcPaint).IsEmpty then
        (afterBeginPaint v,
         Call.GetBackingStore :: (fetchedDamage v env).map Call.InvalidateRect ++
           [Call.GetUpdateRgn (v.os.update_rgn ++ fetchedDamage v env),
            Call.BeginPaint env.rcPaint] ++ [Call.EndPaint])
      else
        match env.backing_store with
        | some size =>
          ((paintFromBackingStore (afterBeginPaint v) env size
              (v.os.update_rgn ++ fetchedDamage v env) (gfx.Rect.ofRECT env.rcPaint)).1,
           Call.GetBackingStore :: (fetchedDamage v env).map Call.InvalidateRect ++
             [Call.GetUpdateRgn (v.os.update_rgn ++ fetchedDamage v env),
              Call.BeginPaint env.rcPaint] ++
             (paintFromBackingStore (afterBeginPaint v) env size
              (v.os.update_rgn ++ fetchedDamage v env) (gfx.Rect.ofRECT env.rcPaint)).2 ++
             [Call.EndPaint])
        | none =>
          ((paintBlank (afterBeginPaint v) env).1,
           Call.GetBackingStore :: (fetchedDamage v env).map Call.InvalidateRect ++
             [Call.GetUpdateRgn (v.os.update_rgn ++ fetchedDamage v env),
              Call.BeginPaint env.rcPaint] ++
             (paintBlank (afterBeginPaint v) env).2 ++ [Call.EndPaint]) := by
  obtain ⟨_, _, _, _, _, hid, _, _, _, _, _, _, _, _, _, gpu, _, _, _, _, _, ⟨_, _, _, _, _⟩⟩ := v
  simp only at hgpu
  subst hgpu
  unfold OnPaint
  simp only [Bool.false_eq_true, if_false]
  rw [deliverDuringFetch_eq _ rfl]
  cases hid <;> simp [fetchedDamage, afterBeginPaint]

theorem paintFromBackingStore_os (v : View) (env : PaintEnv) (size : gfx.Size)
    (rgn : List RECT) (d : gfx.Rect) : (paintFromBackingStore v env size rgn d).1.os = v.os := by
  simp only [paintFromBackingStore, recordTabSwitch, recordWhiteout]
  split <;> split <;> rfl

theorem paintBlank_os (v : View) (env : PaintEnv) : (paintBlank v env).1.os = v.os := by
  simp only [paintBlank]
  split <;> rfl

theorem OnPaint_update_rgn (v : View) (env : PaintEnv) :
    (OnPaint v env).1.os.update_rgn = [] := by
  cases hgpu : v.gpu_view_host_
  · rw [OnPaint_eq v env hgpu]
    split
    · rfl
    · split
      · simp [paintFromBackingStore_os, afterBeginPaint]
      · simp [paintBlank_os, afterBeginPaint]
  · simp [OnPaint, hgpu]

/-- C1 (counterexample): on a visible view, with the rectangle `(0, 0, 10, 10)`
reported while the backing store is fetched, `OnPaint` requests the backing
store first (position 0), captures the damage region after it (position 2) and
clears it after that (position 3); the rectangle that arrived during the fetch
is in the captured region and is no longer pending when `OnPaint` returns. -/
theorem OnPaint_capture_precedes_fetch_counterexample :
    (OnPaint sampleView fetchEnv).2.indexOf Call.GetBackingStore = 0 ∧
    (OnPaint sampleView fetchEnv).2.indexOf
        (Call.GetUpdateRgn [{ left := 0, top := 0, right := 10, bottom := 10 }]) = 2 ∧
    (OnPaint sampleView fetchEnv).2.indexOf
        (Call.BeginPaint { left := 0, top := 0, right := 10, bottom := 10 }) = 3 ∧
    (OnPaint sampleView fetchEnv).1.os.update_rgn = [] := by
  decide

/-- C1 (amended): without a GPU proxy, `OnPaint` requests the backing store
first, then captures the damage region with `GetUpdateRgn`, then clears it with
`BeginPaint`.  The rectangles reported while the backing store is fetched are
invalidated before the capture, so the captured region is the region pending
at entry followed by them, and nothing is pending when `OnPaint` returns. -/
theorem OnPaint_captures_after_fetch (v : View) (env : PaintEnv)
    (hgpu : v.gpu_view_host_ = false) :
    ∃ rest, (OnPaint v env).2 =
        Call.GetBackingStore :: (fetchedDamage v env).map Call.InvalidateRect ++
          Call.GetUpdateRgn (v.os.update_rgn ++ fetchedDamage v env) ::
          Call.BeginPaint env.rcPaint :: rest ∧
      (OnPaint v env).1.os.update_rgn = [] := by
  have hu := OnPaint_update_rgn v env
  have he := OnPaint_eq v env hgpu
  by_cases h1 : (gfx.Rect.ofRECT env.rcPaint).IsEmpty = true
  · rw [if_pos h1] at he
    exact ⟨[Call.EndPaint], by rw [he]; simp, hu⟩
  · rw [if_neg h1] at he
    cases hb : env.backing_store with
    | none =>
      rw [hb] at he
      exact ⟨(paintBlank (afterBeginPaint v) env).2 ++ [Call.EndPaint], by rw [he]; simp, hu⟩
    | some size =>
      rw [hb] at he
      exact ⟨(paintFromBackingStore (afterBeginPaint v) env size
        (v.os.update_rgn ++ fetchedDamage v env) (gfx.Rect.ofRECT env.rcPaint)).2 ++
        [Call.EndPaint], by rw [he]; simp, hu⟩

/-- C1 (witness): the amended statement at `sampleView` and `fetchEnv`. -/
theorem OnPaint_captures_after_fetch_witness :
    sampleView.gpu_view_host_ = false ∧
    ∃ rest, (OnPaint sampleView fetchEnv).2 =
        Call.GetBackingStore :: (fetchedDamage sampleView fetchEnv).map Call.InvalidateRect ++
          Call.GetUpdateRgn (sampleView.os.update_rgn ++ fetchedDamage sampleView fetchEnv) ::
          Call.BeginPaint fetchEnv.rcPaint :: rest ∧
      (OnPaint sampleView fetchEnv).1.os.update_rgn = [] :=
  ⟨rfl, OnPaint_captures_after_fetch sampleView fetchEnv rfl⟩

/-- C2: for every sequence of `DidPaintBackingStoreRects` and
`DidScrollBackingStoreRect` notifications delivered to a hidden view, no call
is issued at all (so no invalidate, scroll or redraw) and the view is
unchanged. -/
theorem notifyAll_hidden (v : View) (ns : List DamageNotification)
    (h : v.is_hidden_ = true) : notifyAll v ns = (v, []) := by
  induction ns with
  | nil => rfl
  | cons n ns ih =>
    have h1 : notify v n = (v, []) := by
      cases n <;> simp [notify, DidPaintBackingStoreRects, DidScrollBackingStoreRect, h]
    simp [notifyAll, h1, ih]

/-- C2 (witness): a paint and a scroll notification on `hiddenView`. -/
theorem notifyAll_hidden_witness :
    hiddenView.is_hidden_ = true ∧
    notifyAll hiddenView
      [DamageNotification.Paint [{ x := 0, y := 0, width := 10, height := 10 }],
       DamageNotification.Scroll { x := 0, y := 0, width := 10, height := 10 } 0 (-3)
         [{ left := 0, top := 7, right := 10, bottom := 10 }]] = (hiddenView, []) :=
  ⟨rfl, notifyAll_hidden hiddenView _ rfl⟩

theorem samples_append (h : Histogram) (a b : List Call) :
    samples h (a ++ b) = samples h a ++ samples h b := by
  induction a with
  | nil => rfl
  | cons c cs ih =>
    cases c <;> simp [samples, ih]
    split <;> simp

theorem samples_map_InvalidateRect (h : Histogram) (l : List RECT) :
    samples h (l.map Call.InvalidateRect) = [] := by
  induction l with
  | nil => rfl
  | cons c cs ih => simpa [samples] using ih

theorem samples_blitLoop (h : Histogram) (v : View) (b : gfx.Rect) (l : List RECT) :
    samples h (blitLoop v b l) = [] := by
  induction l with
  | nil => rfl
  | cons c cs ih =>
    simp only [blitLoop, samples_append, ih, List.append_nil, blitRect]
    split
    · split <;> rfl
    · rfl

theorem samples_fillStrip (h : Histogram) (v : View) (r : Option RECT) :
    samples h (fillStrip v r) = [] := by
  cases r with
  | none => rfl
  | some r => simp only [fillStrip, DrawBackground]; split <;> rfl

/-- The samples one `OnPaint` records, and the two timestamps after it. -/
theorem OnPaint_samples (h : Histogram) (v : View) (env : PaintEnv)
    (hgpu : v.gpu_view_host_ = false) (size : gfx.Size)
    (hb : env.backing_store = some size)
    (hne : (gfx.Rect.ofRECT env.rcPaint).IsEmpty = false) :
    samples h (OnPaint v env).2 =
      (if v.whiteout_start_time_ = 0 then []
       else samples h [Call.HistogramTimes Histogram.RWHH_WhiteoutDuration
          (env.now_whiteout - v.whiteout_start_time_)]) ++
      (if v.tab_switch_paint_time_ = 0 then []
       else samples h [Call.HistogramTimes Histogram.RWH_TabSwitchPaintDuration
          (env.now_tab_switch - v.tab_switch_paint_time_)]) ∧
    (OnPaint v env).1.whiteout_start_time_ = 0 ∧
    (OnPaint v env).1.tab_switch_paint_time_ = 0 ∧
    (OnPaint v env).1.gpu_view_host_ = false := by
  rw [OnPaint_eq v env hgpu, hb]
  simp only [hne, Bool.false_eq_true, if_false]
  simp only [paintFromBackingStore, recordWhiteout, recordTabSwitch, afterBeginPaint,
    TimeTicks.is_null]
  by_cases hw : v.whiteout_start_time_ = 0 <;> by_cases ht : v.tab_switch_paint_time_ = 0 <;>
    simp [hw, ht, hgpu, samples_append, samples_map_InvalidateRect, samples_blitLoop,
      samples_fillStrip, samples] <;>
    cases env.manage_colors <;> cases h <;> simp [samples]

/-- A paint that starts with a null timestamp records no sample for it. -/
theorem OnPaint_no_sample_of_null (v : View) (env : PaintEnv) :
    (v.tab_switch_paint_time_ = 0 →
      samples Histogram.RWH_TabSwitchPaintDuration (OnPaint v env).2 = []) ∧
    (v.whiteout_start_time_ = 0 →
      samples Histogram.RWHH_WhiteoutDuration (OnPaint v env).2 = []) := by
  cases hgpu : v.gpu_view_host_
  · by_cases hne : (gfx.Rect.ofRECT env.rcPaint).IsEmpty = true
    · rw [OnPaint_eq v env hgpu]
      simp [hne, samples_append, samples_map_InvalidateRect, samples]
    · cases hb : env.backing_store with
      | none =>
        rw [OnPaint_eq v env hgpu, hb]
        simp only [hne, if_false, paintBlank, DrawBackground]
        cases (afterBeginPaint v).background_empty <;>
          simp [samples_append, samples_map_InvalidateRect, samples]
      | some size =>
        have hs := fun h => (OnPaint_samples h v env hgpu size hb (by simpa using hne)).1
        constructor
        · intro h0
          rw [hs, h0]
          simp only [if_true, List.nil_append]
          split <;> simp [samples]
        · intro h0
          rw [hs, h0]
          simp only [if_true, List.nil_append]
          split <;> simp [samples]
  · simp [OnPaint, hgpu, samples]

theorem paintFromBackingStore_gpu (v : View) (env : PaintEnv) (size : gfx.Size)
    (rgn : List RECT) (d : gfx.Rect) :
    (paintFromBackingStore v env size rgn d).1.gpu_view_host_ = v.gpu_view_host_ := by
  simp only [paintFromBackingStore, recordTabSwitch, recordWhiteout]
  split <;> split <;> rfl

theorem OnPaint_gpu (v : View) (env : PaintEnv) :
    (OnPaint v env).1.gpu_view_host_ = v.gpu_view_host_ := by
  cases hgpu : v.gpu_view_host_
  · rw [OnPaint_eq v env hgpu]
    split
    · exact hgpu
    · split
      · rw [paintFromBackingStore_gpu]; exact hgpu
      · simp only [paintBlank]; split <;> exact hgpu
  · simp [OnPaint, hgpu]

/-- A paint that has no backing store or an empty paint rectangle records no
tab-switch sample and leaves the tab-switch timestamp as it is. -/
theorem OnPaint_keeps_tab_switch (v : View) (env : PaintEnv)
    (h : env.backing_store = none ∨ (gfx.Rect.ofRECT env.rcPaint).IsEmpty = true) :
    samples Histogram.RWH_TabSwitchPaintDuration (OnPaint v env).2 = [] ∧
    (OnPaint v env).1.tab_switch_paint_time_ = v.tab_switch_paint_time_ := by
  cases hgpu : v.gpu_view_host_
  · by_cases hne : (gfx.Rect.ofRECT env.rcPaint).IsEmpty = true
    · rw [OnPaint_eq v env hgpu]
      simp [hne, samples_append, samples_map_InvalidateRect, samples, afterBeginPaint]
    · rcases h with hb | he
      · rw [OnPaint_eq v env hgpu, hb]
        simp only [hne, if_false, paintBlank, DrawBackground]
        constructor
        · cases (afterBeginPaint v).background_empty <;>
            simp [samples_append, samples_map_InvalidateRect, samples]
        · by_cases hw : v.whiteout_start_time_ = 0 <;>
            simp [afterBeginPaint, TimeTicks.is_null, hw]
      · exact absurd he hne
  · simp [OnPaint, hgpu, samples]

/-- Paints that have no backing store or an empty paint rectangle, one after
the other, leave the tab-switch timestamp as it is. -/
theorem paintAll_keeps_tab_switch (v : View) (envs : List PaintEnv)
    (h : ∀ e ∈ envs, e.backing_store = none ∨ (gfx.Rect.ofRECT e.rcPaint).IsEmpty = true) :
    (paintAll v envs).tab_switch_paint_time_ = v.tab_switch_paint_time_ ∧
    (paintAll v envs).gpu_view_host_ = v.gpu_view_host_ := by
  induction envs generalizing v with
  | nil => exact ⟨rfl, rfl⟩
  | cons e es ih =>
    have h1 := OnPaint_keeps_tab_switch v e (h e (List.mem_cons_self _ _))
    have h2 := ih (OnPaint v e).1 (fun x hx => h x (List.mem_cons_of_mem _ hx))
    exact ⟨h2.1.trans h1.2, h2.2.trans (OnPaint_gpu v e)⟩

theorem DidBecomeSelected_fields (v : View) (now : TimeTicks) (hh : v.is_hidden_ = true) :
    (DidBecomeSelected v now).1.tab_switch_paint_time_ =
      (if v.tab_switch_paint_time_ = 0 then now else v.tab_switch_paint_time_) ∧
    (DidBecomeSelected v now).1.gpu_view_host_ = v.gpu_view_host_ ∧
    (DidBecomeSelected v now).1.is_hidden_ = false := by
  simp only [DidBecomeSelected, hh, EnsureTooltip, TimeTicks.is_null]
  by_cases h0 : v.tab_switch_paint_time_ = 0 <;> simp [h0] <;> split <;> simp [h0]

/-- C3 (counterexample): `hiddenView` is restored at tick 40; the next
`OnPaint` finds no backing store and records no tab-switch sample, and the
`OnPaint` after that, which has a backing store, records one. -/
theorem tab_switch_sample_next_paint_counterexample :
    hiddenView.is_hidden_ = true ∧
    samples Histogram.RWH_TabSwitchPaintDuration
      (OnPaint (DidBecomeSelected hiddenView 40).1 blankEnv).2 = [] ∧
    samples Histogram.RWH_TabSwitchPaintDuration
      (OnPaint (OnPaint (DidBecomeSelected hiddenView 40).1 blankEnv).1 fetchEnv).2 = [20] := by
  decide

/-- C3 (amended): for every hidden view without a GPU proxy, `DidBecomeSelected`
(with a non-null clock reading) leaves a tab-switch timestamp pending: the one
already pending, or the restore time when none was.  Every `OnPaint` after it
that has no backing store or an empty paint rectangle records no tab-switch
sample and leaves that timestamp pending; after any number of such paints the
next `OnPaint` that has a backing store and a non-empty paint rectangle records
exactly one tab-switch latency sample, measured from the pending timestamp, and
clears the timestamp, and the `OnPaint` after that records none.  On any view
at all, an `OnPaint` without a backing store or with an empty paint rectangle
records no tab-switch sample and leaves the timestamp as it is. -/
theorem tab_switch_sample_once (v : View) (now : TimeTicks) (mids : List PaintEnv)
    (env1 env2 : PaintEnv) (size : gfx.Size)
    (hh : v.is_hidden_ = true) (hgpu : v.gpu_view_host_ = false) (hnow : now ≠ 0)
    (hmids : ∀ e ∈ mids,
      e.backing_store = none ∨ (gfx.Rect.ofRECT e.rcPaint).IsEmpty = true)
    (hb : env1.backing_store = some size)
    (hne : (gfx.Rect.ofRECT env1.rcPaint).IsEmpty = false) :
    (DidBecomeSelected v now).1.tab_switch_paint_time_ =
      (if v.tab_switch_paint_time_ = 0 then now else v.tab_switch_paint_time_) ∧
    (DidBecomeSelected v now).1.tab_switch_paint_time_ ≠ 0 ∧
    (∀ pre e post, mids = pre ++ e :: post →
      samples Histogram.RWH_TabSwitchPaintDuration
          (OnPaint (paintAll (DidBecomeSelected v now).1 pre) e).2 = [] ∧
      (OnPaint (paintAll (DidBecomeSelected v now).1 pre) e).1.tab_switch_paint_time_ =
        (DidBecomeSelected v now).1.tab_switch_paint_time_) ∧
    samples Histogram.RWH_TabSwitchPaintDuration
        (OnPaint (paintAll (DidBecomeSelected v now).1 mids) env1).2 =
      [env1.now_tab_switch -
        (if v.tab_switch_paint_time_ = 0 then now else v.tab_switch_paint_time_)] ∧
    (OnPaint (paintAll (DidBecomeSelected v now).1 mids) env1).1.tab_switch_paint_time_ = 0 ∧
    samples Histogram.RWH_TabSwitchPaintDuration
        (OnPaint (OnPaint (paintAll (DidBecomeSelected v now).1 mids) env1).1 env2).2 = [] ∧
    (∀ (w : View) (e : PaintEnv),
      e.backing_store = none ∨ (gfx.Rect.ofRECT e.rcPaint).IsEmpty = true →
      samples Histogram.RWH_TabSwitchPaintDuration (OnPaint w e).2 = [] ∧
      (OnPaint w e).1.tab_switch_paint_time_ = w.tab_switch_paint_time_) := by
  obtain ⟨ht, hg, _⟩ := DidBecomeSelected_fields v now hh
  have hne0 : (DidBecomeSelected v now).1.tab_switch_paint_time_ ≠ 0 := by
    rw [ht]; split <;> assumption
  obtain ⟨hk, hkg⟩ := paintAll_keeps_tab_switch (DidBecomeSelected v now).1 mids hmids
  have hs := OnPaint_samples Histogram.RWH_TabSwitchPaintDuration
    (paintAll (DidBecomeSelected v now).1 mids) env1 (hkg.trans (hg.trans hgpu)) size hb hne
  refine ⟨ht, hne0, ?_, ?_, hs.2.2.1, (OnPaint_no_sample_of_null _ env2).1 hs.2.2.1,
    fun w e h => OnPaint_keeps_tab_switch w e h⟩
  · intro pre e post hsplit
    have hpre : ∀ x ∈ pre,
        x.backing_store = none ∨ (gfx.Rect.ofRECT x.rcPaint).IsEmpty = true := by
      intro x hx
      exact hmids x (by rw [hsplit]; exact List.mem_append_left _ hx)
    have he : e.backing_store = none ∨ (gfx.Rect.ofRECT e.rcPaint).IsEmpty = true :=
      hmids e (by rw [hsplit]; simp)
    have h1 := OnPaint_keeps_tab_switch (paintAll (DidBecomeSelected v now).1 pre) e he
    exact ⟨h1.1, h1.2.trans (paintAll_keeps_tab_switch _ pre hpre).1⟩
  · rw [hs.1, hk, ← ht]
    simp only [hne0, if_false]
    split <;> simp [samples]

/-- C3 (witness): `hiddenView` restored at tick 40, painted without a backing
store, then with an empty paint rectangle, then from a backing store, then once
more. -/
theorem tab_switch_sample_once_witness :
    (DidBecomeSelected hiddenView 40).1.tab_switch_paint_time_ =
      (if hiddenView.tab_switch_paint_time_ = 0 then 40
       else hiddenView.tab_switch_paint_time_) ∧
    (DidBecomeSelected hiddenView 40).1.tab_switch_paint_time_ ≠ 0 ∧
    (∀ pre e post, [blankEnv, emptyEnv] = pre ++ e :: post →
      samples Histogram.RWH_TabSwitchPaintDuration
          (OnPaint (paintAll (DidBecomeSelected hiddenView 40).1 pre) e).2 = [] ∧
      (OnPaint (paintAll (DidBecomeSelected hiddenView 40).1 pre) e).1.tab_switch_paint_time_ =
        (DidBecomeSelected hiddenView 40).1.tab_switch_paint_time_) ∧
    samples Histogram.RWH_TabSwitchPaintDuration
        (OnPaint (paintAll (DidBecomeSelected hiddenView 40).1 [blankEnv, emptyEnv])
          fetchEnv).2 =
      [fetchEnv.now_tab_switch -
        (if hiddenView.tab_switch_paint_time_ = 0 then 40
         else hiddenView.tab_switch_paint_time_)] ∧
    (OnPaint (paintAll (DidBecomeSelected hiddenView 40).1 [blankEnv, emptyEnv])
        fetchEnv).1.tab_switch_paint_time_ = 0 ∧
    samples Histogram.RWH_TabSwitchPaintDuration
        (OnPaint (OnPaint (paintAll (DidBecomeSelected hiddenView 40).1 [blankEnv, emptyEnv])
          fetchEnv).1 fetchEnv).2 = [] ∧
    (∀ (w : View) (e : PaintEnv),
      e.backing_store = none ∨ (gfx.Rect.ofRECT e.rcPaint).IsEmpty = true →
      samples Histogram.RWH_TabSwitchPaintDuration (OnPaint w e).2 = [] ∧
      (OnPaint w e).1.tab_switch_paint_time_ = w.tab_switch_paint_time_) :=
  tab_switch_sample_once hiddenView 40 [blankEnv, emptyEnv] fetchEnv fetchEnv
    { width := 100, height := 100 } rfl rfl (by decide) (by decide) rfl (by decide)

theorem blits_append (a b : List Call) : blits (a ++ b) = blits a ++ blits b := by
  induction a with
  | nil => rfl
  | cons c cs ih => cases c <;> simp [blits, ih]

theorem backgroundFills_append (a b : List Call) :
    backgroundFills (a ++ b) = backgroundFills a ++ backgroundFills b := by
  induction a with
  | nil => rfl
  | cons c cs ih => cases c <;> simp [backgroundFills, ih]

theorem blits_map_InvalidateRect (l : List RECT) : blits (l.map Call.InvalidateRect) = [] := by
  induction l with
  | nil => rfl
  | cons c cs ih => simpa [blits] using ih

theorem backgroundFills_map_InvalidateRect (l : List RECT) :
    backgroundFills (l.map Call.InvalidateRect) = [] := by
  induction l with
  | nil => rfl
  | cons c cs ih => simpa [backgroundFills] using ih

theorem blits_blitLoop (v : View) (b : gfx.Rect) (l : List RECT) :
    blits (blitLoop v b l) =
      (l.map (fun r => b.Intersect (gfx.Rect.ofRECT r))).filter (fun p => !p.IsEmpty) := by
  induction l with
  | nil => rfl
  | cons c cs ih =>
    simp only [blitLoop, blits_append, ih, blitRect, List.map_cons, List.filter_cons]
    cases (b.Intersect (gfx.Rect.ofRECT c)).IsEmpty <;>
      cases v.visually_deemphasized_ <;> simp [blits]

theorem backgroundFills_blitLoop (v : View) (b : gfx.Rect) (l : List RECT) :
    backgroundFills (blitLoop v b l) = [] := by
  induction l with
  | nil => rfl
  | cons c cs ih =>
    simp only [blitLoop, backgroundFills_append, ih, blitRect]
    cases (b.Intersect (gfx.Rect.ofRECT c)).IsEmpty <;>
      cases v.visually_deemphasized_ <;> simp [backgroundFills]

theorem blits_fillStrip (v : View) (r : Option RECT) : blits (fillStrip v r) = [] := by
  cases r with
  | none => rfl
  | some r => simp only [fillStrip, DrawBackground]; split <;> rfl

theorem backgroundFills_fillStrip (v : View) (r : Option RECT) :
    backgroundFills (fillStrip v r) = r.toList := by
  cases r with
  | none => rfl
  | some r => simp only [fillStrip, DrawBackground]; split <;> rfl

theorem blits_record (v : View) (n : TimeTicks) :
    blits (recordWhiteout v n).2 = [] ∧ blits (recordTabSwitch v n).2 = [] ∧
    backgroundFills (recordWhiteout v n).2 = [] ∧
    backgroundFills (recordTabSwitch v n).2 = [] := by
  simp only [recordWhiteout, recordTabSwitch]
  refine ⟨?_, ?_, ?_, ?_⟩ <;> split <;> rfl

/-- What `OnPaint` copies from a backing store and what it fills. -/
theorem OnPaint_blits_fills (v : View) (env : PaintEnv) (size : gfx.Size)
    (hgpu : v.gpu_view_host_ = false) (hb : env.backing_store = some size)
    (hne : (gfx.Rect.ofRECT env.rcPaint).IsEmpty = false) :
    blits (OnPaint v env).2 =
      ((v.os.update_rgn ++ fetchedDamage v env).map
        (fun r => (gfx.Rect.ofSize size).Intersect (gfx.Rect.ofRECT r))).filter
          (fun p => !p.IsEmpty) ∧
    backgroundFills (OnPaint v env).2 =
      (rightStrip (gfx.Rect.ofSize size) (gfx.Rect.ofRECT env.rcPaint)).toList ++
      (bottomStrip (gfx.Rect.ofSize size) (gfx.Rect.ofRECT env.rcPaint)).toList := by
  rw [OnPaint_eq v env hgpu, hb]
  simp only [hne, Bool.false_eq_true, if_false]
  simp only [paintFromBackingStore]
  constructor
  · cases env.manage_colors <;>
      simp [blits_append, blits, blits_map_InvalidateRect, blits_blitLoop, blits_fillStrip,
        blits_record]
  · cases env.manage_colors <;>
      simp [backgroundFills_append, backgroundFills, backgroundFills_map_InvalidateRect,
        backgroundFills_blitLoop, backgroundFills_fillStrip, blits_record]

theorem Intersect_Contains (a b : gfx.Rect) (px py : Int) :
    (a.Intersect b).Contains px py ↔ a.Contains px py ∧ b.Contains px py := by
  simp only [gfx.Rect.Intersect, gfx.Rect.Contains, gfx.Rect.right, gfx.Rect.bottom]
  split
  · simp only [Nat.cast_zero, add_zero]
    omega
  · simp only []
    omega

theorem mem_blits_iff (b : gfx.Rect) (l : List RECT) (px py : Int) :
    (∃ p ∈ (l.map (fun r => b.Intersect (gfx.Rect.ofRECT r))).filter (fun p => !p.IsEmpty),
        p.Contains px py) ↔
      b.Contains px py ∧ ∃ r ∈ l, (gfx.Rect.ofRECT r).Contains px py := by
  constructor
  · rintro ⟨p, hp, hc⟩
    simp only [List.mem_filter, List.mem_map] at hp
    obtain ⟨⟨r, hr, rfl⟩, _⟩ := hp
    rw [Intersect_Contains] at hc
    exact ⟨hc.1, r, hr, hc.2⟩
  · rintro ⟨hb, r, hr, hc⟩
    refine ⟨b.Intersect (gfx.Rect.ofRECT r), ?_, (Intersect_Contains _ _ _ _).2 ⟨hb, hc⟩⟩
    simp only [List.mem_filter, List.mem_map]
    refine ⟨⟨r, hr, rfl⟩, ?_⟩
    have hi := (Intersect_Contains b (gfx.Rect.ofRECT r) px py).2 ⟨hb, hc⟩
    simp only [gfx.Rect.Contains, gfx.Rect.right, gfx.Rect.bottom] at hi
    simp only [gfx.Rect.IsEmpty, Bool.not_eq_true', Bool.or_eq_false_iff, beq_eq_false_iff_ne]
    omega

/-- C4: when `OnPaint` has a backing store with bounds `B = [0,w) x [0,h)` and
a non-empty damaged rectangle `D` with non-negative origin, it blits exactly
the non-empty intersections of the damage-region rectangles with `B` (so a
point is blitted exactly when it is in `B` and in the damage region), the
background strips cover every point of `D` outside `B`, and no background
strip contains a point of `B`. -/
theorem OnPaint_blits_intersections_fills_remainder (v : View) (env : PaintEnv)
    (size : gfx.Size) (hgpu : v.gpu_view_host_ = false)
    (hb : env.backing_store = some size)
    (hne : (gfx.Rect.ofRECT env.rcPaint).IsEmpty = false)
    (hx : 0 ≤ (gfx.Rect.ofRECT env.rcPaint).x) (hy : 0 ≤ (gfx.Rect.ofRECT env.rcPaint).y) :
    blits (OnPaint v env).2 =
      ((v.os.update_rgn ++ fetchedDamage v env).map
        (fun r => (gfx.Rect.ofSize size).Intersect (gfx.Rect.ofRECT r))).filter
          (fun p => !p.IsEmpty) ∧
    (∀ px py, (∃ p ∈ blits (OnPaint v env).2, p.Contains px py) ↔
      ((gfx.Rect.ofSize size).Contains px py ∧
        ∃ r ∈ v.os.update_rgn ++ fetchedDamage v env, (gfx.Rect.ofRECT r).Contains px py)) ∧
    (∀ px py, (gfx.Rect.ofRECT env.rcPaint).Contains px py →
      ¬ (gfx.Rect.ofSize size).Contains px py →
      ∃ r ∈ backgroundFills (OnPaint v env).2, r.Contains px py) ∧
    (∀ r ∈ backgroundFills (OnPaint v env).2, ∀ px py, r.Contains px py →
      ¬ (gfx.Rect.ofSize size).Contains px py) := by
  obtain ⟨h1, h2⟩ := OnPaint_blits_fills v env size hgpu hb hne
  refine ⟨h1, ?_, ?_, ?_⟩
  · intro px py
    rw [h1]
    exact mem_blits_iff _ _ px py
  · intro px py hd hnb
    rw [h2]
    simp only [gfx.Rect.Contains, gfx.Rect.right, gfx.Rect.bottom, gfx.Rect.ofSize] at hd hnb hx hy
    by_cases hbot : (size.height : Int) ≤ py
    · refine ⟨{ left := (gfx.Rect.ofRECT env.rcPaint).x,
                right := (gfx.Rect.ofRECT env.rcPaint).right,
                top := max (gfx.Rect.ofSize size).bottom (gfx.Rect.ofRECT env.rcPaint).y,
                bottom := (gfx.Rect.ofRECT env.rcPaint).bottom }, ?_, ?_⟩
      · have : bottomStrip (gfx.Rect.ofSize size) (gfx.Rect.ofRECT env.rcPaint) = some _ :=
          if_pos (by simp only [gfx.Rect.bottom, gfx.Rect.ofSize]; omega)
        simp [this]
      · simp only [RECT.Contains, gfx.Rect.right, gfx.Rect.bottom, gfx.Rect.ofSize]
        omega
    · refine ⟨{ left := max (gfx.Rect.ofSize size).right (gfx.Rect.ofRECT env.rcPaint).x,
                right := (gfx.Rect.ofRECT env.rcPaint).right,
                top := (gfx.Rect.ofRECT env.rcPaint).y,
                bottom := min (gfx.Rect.ofSize size).bottom
                  (gfx.Rect.ofRECT env.rcPaint).bottom }, ?_, ?_⟩
      · have : rightStrip (gfx.Rect.ofSize size) (gfx.Rect.ofRECT env.rcPaint) = some _ :=
          if_pos (by simp only [gfx.Rect.right, gfx.Rect.ofSize]; omega)
        simp [this]
      · simp only [RECT.Contains, gfx.Rect.right, gfx.Rect.bottom, gfx.Rect.ofSize]
        omega
  · intro r hr px py hc
    rw [h2] at hr
    simp only [List.mem_append, Option.mem_toList] at hr
    simp only [gfx.Rect.Contains, gfx.Rect.right, gfx.Rect.bottom, gfx.Rect.ofSize]
    rcases hr with hr | hr
    · simp only [rightStrip, Option.mem_def] at hr
      split at hr
      · cases hr
        simp only [RECT.Contains, gfx.Rect.right, gfx.Rect.bottom, gfx.Rect.ofSize] at hc
        omega
      · cases hr
    · simp only [bottomStrip, Option.mem_def] at hr
      split at hr
      · cases hr
        simp only [RECT.Contains, gfx.Rect.right, gfx.Rect.bottom, gfx.Rect.ofSize] at hc
        omega
      · cases hr

/-- C4 (witness): `damagedView` painted from a 100 x 100 backing store over the
damaged rectangle `(0, 0, 120, 130)`. -/
theorem OnPaint_blits_intersections_fills_remainder_witness :
    (damagedView.gpu_view_host_ = false ∧
      resizeEnv.backing_store = some { width := 100, height := 100 } ∧
      (gfx.Rect.ofRECT resizeEnv.rcPaint).IsEmpty = false) ∧
    (blits (OnPaint damagedView resizeEnv).2 =
      ((damagedView.os.update_rgn ++ fetchedDamage damagedView resizeEnv).map
        (fun r => (gfx.Rect.ofSize { width := 100, height := 100 }).Intersect
          (gfx.Rect.ofRECT r))).filter (fun p => !p.IsEmpty) ∧
    (∀ px py, (∃ p ∈ blits (OnPaint damagedView resizeEnv).2, p.Contains px py) ↔
      ((gfx.Rect.ofSize { width := 100, height := 100 }).Contains px py ∧
        ∃ r ∈ damagedView.os.update_rgn ++ fetchedDamage damagedView resizeEnv,
          (gfx.Rect.ofRECT r).Contains px py)) ∧
    (∀ px py, (gfx.Rect.ofRECT resizeEnv.rcPaint).Contains px py →
      ¬ (gfx.Rect.ofSize { width := 100, height := 100 }).Contains px py →
      ∃ r ∈ backgroundFills (OnPaint damagedView resizeEnv).2, r.Contains px py) ∧
    (∀ r ∈ backgroundFills (OnPaint damagedView resizeEnv).2, ∀ px py, r.Contains px py →
      ¬ (gfx.Rect.ofSize { width := 100, height := 100 }).Contains px py)) :=
  ⟨⟨rfl, rfl, by decide⟩,
   OnPaint_blits_intersections_fills_remainder damagedView resizeEnv
     { width := 100, height := 100 } rfl rfl (by decide) (by decide) (by decide)⟩

theorem OnPaint_resize_example :
    blits (OnPaint damagedView resizeEnv).2 = [{ x := 0, y := 0, width := 100, height := 100 }] ∧
    backgroundFills (OnPaint damagedView resizeEnv).2 =
      [{ left := 100, top := 0, right := 120, bottom := 100 },
       { left := 0, top := 100, right := 120, bottom := 130 }] := by
  decide

/-- A paint without a backing store: the fill and the blank timer. -/
theorem OnPaint_blank (v : View) (env : PaintEnv) (hgpu : v.gpu_view_host_ = false)
    (hb : env.backing_store = none)
    (hne : (gfx.Rect.ofRECT env.rcPaint).IsEmpty = false) :
    backgroundFills (OnPaint v env).2 = [env.rcPaint] ∧
    (OnPaint v env).1.whiteout_start_time_ =
      (if v.whiteout_start_time_ = 0 then env.now_blank else v.whiteout_start_time_) := by
  rw [OnPaint_eq v env hgpu, hb]
  simp only [hne, Bool.false_eq_true, if_false, paintBlank, DrawBackground, afterBeginPaint,
    TimeTicks.is_null]
  constructor
  · by_cases hbg : v.background_empty = true <;>
      simp [hbg, backgroundFills_append, backgroundFills_map_InvalidateRect, backgroundFills]
  · by_cases h0 : v.whiteout_start_time_ = 0 <;> simp [h0]

/-- A paint that has no backing store or an empty paint rectangle leaves a
running blank timer as it is. -/
theorem OnPaint_keeps_timer (v : View) (env : PaintEnv) (hgpu : v.gpu_view_host_ = false)
    (h : env.backing_store = none ∨ (gfx.Rect.ofRECT env.rcPaint).IsEmpty = true)
    (hw : v.whiteout_start_time_ ≠ 0) :
    (OnPaint v env).1.whiteout_start_time_ = v.whiteout_start_time_ := by
  by_cases hne : (gfx.Rect.ofRECT env.rcPaint).IsEmpty = true
  · rw [OnPaint_eq v env hgpu]
    simp [hne, afterBeginPaint]
  · rcases h with hb | he
    · rw [(OnPaint_blank v env hgpu hb (by simpa using hne)).2]
      simp [hw]
    · exact absurd he hne

theorem paintAll_keeps_timer (v : View) (envs : List PaintEnv)
    (hgpu : v.gpu_view_host_ = false)
    (h : ∀ e ∈ envs, e.backing_store = none ∨ (gfx.Rect.ofRECT e.rcPaint).IsEmpty = true)
    (hw : v.whiteout_start_time_ ≠ 0) :
    (paintAll v envs).whiteout_start_time_ = v.whiteout_start_time_ ∧
    (paintAll v envs).gpu_view_host_ = false := by
  induction envs generalizing v with
  | nil => exact ⟨rfl, hgpu⟩
  | cons e es ih =>
    have h1 := OnPaint_keeps_timer v e hgpu (h e (List.mem_cons_self _ _)) hw
    have h2 := ih (OnPaint v e).1 ((OnPaint_gpu v e).trans hgpu)
      (fun x hx => h x (List.mem_cons_of_mem _ hx)) (by rw [h1]; exact hw)
    exact ⟨h2.1.trans h1, h2.2⟩

/-- C5 (counterexample): after a blank paint of `sampleView` the next `OnPaint`
has a backing store but an empty paint rectangle; it records no whiteout sample
and the blank timer keeps running (still 70). -/
theorem blank_timer_first_store_paint_counterexample :
    emptyEnv.backing_store = some { width := 100, height := 100 } ∧
    samples Histogram.RWHH_WhiteoutDuration
      (OnPaint (OnPaint sampleView blankEnv).1 emptyEnv).2 = [] ∧
    (OnPaint (OnPaint sampleView blankEnv).1 emptyEnv).1.whiteout_start_time_ = 70 := by
  decide

/-- C5 (amended): without a GPU proxy, an `OnPaint` with no backing store and a
non-empty paint rectangle fills the whole paint rectangle with background and
starts the blank timer only if it is not already running.  After any number of
further paints that have no backing store or an empty paint rectangle, the
first `OnPaint` that has a backing store and a non-empty paint rectangle
records exactly one whiteout sample, measured from the start of the timer, and
clears the timer; the paint after it records no whiteout sample. -/
theorem blank_timer_sample_once (v : View) (env0 : PaintEnv) (mids : List PaintEnv)
    (envS envAfter : PaintEnv) (size : gfx.Size)
    (hgpu : v.gpu_view_host_ = false)
    (h0b : env0.backing_store = none)
    (h0ne : (gfx.Rect.ofRECT env0.rcPaint).IsEmpty = false)
    (hclock : env0.now_blank ≠ 0)
    (hmids : ∀ e ∈ mids,
      e.backing_store = none ∨ (gfx.Rect.ofRECT e.rcPaint).IsEmpty = true)
    (hSb : envS.backing_store = some size)
    (hSne : (gfx.Rect.ofRECT envS.rcPaint).IsEmpty = false) :
    backgroundFills (OnPaint v env0).2 = [env0.rcPaint] ∧
    (OnPaint v env0).1.whiteout_start_time_ =
      (if v.whiteout_start_time_ = 0 then env0.now_blank else v.whiteout_start_time_) ∧
    samples Histogram.RWHH_WhiteoutDuration
        (OnPaint (paintAll (OnPaint v env0).1 mids) envS).2 =
      [envS.now_whiteout -
        (if v.whiteout_start_time_ = 0 then env0.now_blank else v.whiteout_start_time_)] ∧
    (OnPaint (paintAll (OnPaint v env0).1 mids) envS).1.whiteout_start_time_ = 0 ∧
    samples Histogram.RWHH_WhiteoutDuration
        (OnPaint (OnPaint (paintAll (OnPaint v env0).1 mids) envS).1 envAfter).2 = [] := by
  obtain ⟨hf, ht⟩ := OnPaint_blank v env0 hgpu h0b h0ne
  have hrun : (OnPaint v env0).1.whiteout_start_time_ ≠ 0 := by
    rw [ht]; split <;> assumption
  obtain ⟨hk, hg⟩ := paintAll_keeps_timer (OnPaint v env0).1 mids
    ((OnPaint_gpu v env0).trans hgpu) hmids hrun
  have hs := OnPaint_samples Histogram.RWHH_WhiteoutDuration
    (paintAll (OnPaint v env0).1 mids) envS hg size hSb hSne
  refine ⟨hf, ht, ?_, hs.2.1, (OnPaint_no_sample_of_null _ envAfter).2 hs.2.1⟩
  rw [hs.1, hk, ← ht]
  simp only [hrun, if_false]
  split <;> simp [samples]

/-- C5 (witness): `sampleView` painted blank twice, then with an empty paint
rectangle, then from a backing store, then once more. -/
theorem blank_timer_sample_once_witness :
    backgroundFills (OnPaint sampleView blankEnv).2 = [blankEnv.rcPaint] ∧
    (OnPaint sampleView blankEnv).1.whiteout_start_time_ =
      (if sampleView.whiteout_start_time_ = 0 then blankEnv.now_blank
       else sampleView.whiteout_start_time_) ∧
    samples Histogram.RWHH_WhiteoutDuration
        (OnPaint (paintAll (OnPaint sampleView blankEnv).1 [blankEnv, emptyEnv]) fetchEnv).2 =
      [fetchEnv.now_whiteout -
        (if sampleView.whiteout_start_time_ = 0 then blankEnv.now_blank
         else sampleView.whiteout_start_time_)] ∧
    (OnPaint (paintAll (OnPaint sampleView blankEnv).1 [blankEnv, emptyEnv])
        fetchEnv).1.whiteout_start_time_ = 0 ∧
    samples Histogram.RWHH_WhiteoutDuration
        (OnPaint (OnPaint (paintAll (OnPaint sampleView blankEnv).1 [blankEnv, emptyEnv])
          fetchEnv).1 fetchEnv).2 = [] :=
  blank_timer_sample_once sampleView blankEnv [blankEnv, emptyEnv] fetchEnv fetchEnv
    { width := 100, height := 100 } rfl rfl (by decide) (by decide) (by decide) rfl (by decide)

end RenderWidgetHostViewWin

namespace RenderWidgetHostViewWin

theorem WasHidden_twice (v : View) : WasHidden (WasHidden v).1 = ((WasHidden v).1, []) := by
  have h : (WasHidden v).1.is_hidden_ = true := by
    simp only [WasHidden, ResetTooltip]
    cases hh : v.is_hidden_
    · simp only [Bool.false_eq_true, if_false]; split <;> rfl
    · simp [hh]
  rw [WasHidden, if_pos h]

theorem WasHidden_frame (v : View) :
    (WasHidden v).1.m_hWnd = v.m_hWnd ∧ (WasHidden v).1.os.desktop = v.os.desktop ∧
    (WasHidden v).1.os.focus = v.os.focus ∧ (WasHidden v).1.parent_hwnd_ = v.parent_hwnd_ ∧
    (∀ h, h ≠ v.tooltip_hwnd_ → (WasHidden v).1.os.windows h = v.os.windows h) ∧
    (∀ h, v.os.windows h = none → (WasHidden v).1.os.windows h = none) := by
  simp only [WasHidden, ResetTooltip]
  cases hh : v.is_hidden_
  · simp only [Bool.false_eq_true, if_false]
    split
    · simp only [Os.DestroyWindow, Os.setWindow, true_and]
      refine ⟨fun h hn => ?_, fun h hn => ?_⟩
      · simp [hn]
      · split <;> simp [hn]
    · simp
  · simp

end RenderWidgetHostViewWin

namespace RenderWidgetHostViewWin

theorem dropFocus_frame (v : View) :
    (dropFocus v).1.windows = v.os.windows ∧ (dropFocus v).1.desktop = v.os.desktop ∧
    (dropFocus v).1.focus = (if v.os.focus = v.m_hWnd then 0 else v.os.focus) := by
  simp only [dropFocus]
  split <;> simp [*]

theorem Os.ShowWindow_none (os : Os) (h : HWND) (b : Bool) (hn : os.windows h = none) :
    os.ShowWindow h b = os := by
  simp [Os.ShowWindow, hn]

theorem Os.SetParent_none (os : Os) (h p : HWND) (hn : os.windows h = none) :
    os.SetParent h p = os := by
  simp [Os.SetParent, hn]

theorem Os.ShowWindow_some (os : Os) (h : HWND) (b : Bool) (i : WindowInfo)
    (hs : os.windows h = some i) :
    (os.ShowWindow h b).windows h = some { i with visible := b } ∧
    (os.ShowWindow h b).desktop = os.desktop := by
  simp [Os.ShowWindow, hs, Os.setWindow]

theorem Os.SetParent_some (os : Os) (h : HWND) (i : WindowInfo)
    (hs : os.windows h = some i) :
    (os.SetParent h 0).windows h = some { i with parent := os.desktop } ∧
    (os.SetParent h 0).desktop = os.desktop := by
  simp [Os.SetParent, hs, Os.setWindow]

theorem WasHidden_hidden (v : View) : (WasHidden v).1.is_hidden_ = true := by
  simp only [WasHidden, ResetTooltip]
  cases hh : v.is_hidden_
  · simp only [Bool.false_eq_true, if_false]; split <;> rfl
  · simp [hh]

theorem hideStage_fixed (w : View) (hn : w.os.windows w.m_hWnd = none)
    (hp : w.parent_hwnd_ = 0) (hf : w.os.focus = w.m_hWnd → w.os.focus = 0) :
    hideStage w = w := by
  have h1 : (dropFocus w).1 = w.os := by
    simp only [dropFocus]
    split
    · rename_i h
      have h0 := hf h
      obtain ⟨_, _, _, _, _, _, _, _, _, _, _, _, _, _, _, _, _, _, _, _, _, ⟨_, _, _, _, _⟩⟩ := w
      simp only at h0
      simp [h0]
    · rfl
  simp only [hideStage, h1]
  rw [Os.ShowWindow_none _ _ _ hn, Os.SetParent_none _ _ _ hn]
  simp only [Os.GetParent, hn]
  obtain ⟨_, _, _, _, _, _, _, _, _, _, _, _, _, _, _, _, _, _, _, _, _, _⟩ := w
  simp only at hp
  simp [hp]

theorem Hide_twice (v : View)
    (ht : v.tooltip_hwnd_ = v.m_hWnd → v.os.IsWindow v.m_hWnd = false) :
    (Hide (Hide v).1).1 = (Hide v).1 ∧ Call.WasHidden ∉ (Hide (Hide v).1).2 ∧
    ∀ h, Call.DestroyWindow h ∉ (Hide (Hide v).1).2 := by
  by_cases hg : v.os.GetParent v.m_hWnd = v.os.desktop
  · have h1 : Hide v = (v, [Call.LogWarning]) := by simp [Hide, hg]
    simp [h1]
  · obtain ⟨fm, fd, ff, fp, fw, fn⟩ := WasHidden_frame (hideStage v)
    obtain ⟨dw, dd, df⟩ := dropFocus_frame v
    have hm : (hideStage v).m_hWnd = v.m_hWnd := rfl
    have htt : (hideStage v).tooltip_hwnd_ = v.tooltip_hwnd_ := rfl
    have he : (Hide v).1 = (WasHidden (hideStage v)).1 := by simp [Hide, hg]
    cases hw : v.os.windows v.m_hWnd with
    | some i =>
      have ht : v.tooltip_hwnd_ ≠ v.m_hWnd := by
        intro h
        have := ht h
        simp [Os.IsWindow, hw] at this
      obtain ⟨s1, s2⟩ := Os.ShowWindow_some (dropFocus v).1 v.m_hWnd false i (by rw [dw, hw])
      obtain ⟨p1, p2⟩ := Os.SetParent_some _ v.m_hWnd _ s1
      have key : (Hide v).1.os.GetParent (Hide v).1.m_hWnd = (Hide v).1.os.desktop := by
        rw [he]
        simp only [fm, fd, hm, Os.GetParent]
        rw [fw v.m_hWnd (by rw [htt]; exact fun h => ht h.symm)]
        simp only [hideStage, p1, p2]
      have h2 : Hide (Hide v).1 = ((Hide v).1, [Call.LogWarning]) := by
        generalize Hide v = r at key ⊢
        simp [Hide, key]
      simp [h2]
    | none =>
      have hsn : (hideStage v).os.windows v.m_hWnd = none := by
        simp only [hideStage]
        rw [Os.ShowWindow_none _ _ _ (by rw [dw, hw]), Os.SetParent_none _ _ _ (by rw [dw, hw]),
          dw, hw]
      have hsp : (hideStage v).parent_hwnd_ = 0 := by
        simp only [hideStage]
        rw [Os.ShowWindow_none _ _ _ (by rw [dw, hw])]
        simp [Os.GetParent, dw, hw]
      have hsf : (hideStage v).os.focus = (if v.os.focus = v.m_hWnd then 0 else v.os.focus) := by
        simp only [hideStage]
        rw [Os.ShowWindow_none _ _ _ (by rw [dw, hw]), Os.SetParent_none _ _ _ (by rw [dw, hw]),
          df]
      have hsd : (hideStage v).os.desktop = v.os.desktop := by
        simp only [hideStage]
        rw [Os.ShowWindow_none _ _ _ (by rw [dw, hw]), Os.SetParent_none _ _ _ (by rw [dw, hw]),
          dd]
      have hg0 : (0 : HWND) ≠ v.os.desktop := by
        simpa [Os.GetParent, hw] using hg
      have hfix : hideStage (Hide v).1 = (Hide v).1 := by
        apply hideStage_fixed
        · rw [he, fm, hm]; exact fn _ hsn
        · rw [he, fp, hsp]
        · rw [he, ff, fm, hm, hsf]
          split
          · intro _; rfl
          · intro h; exact absurd h ‹_›
      have hgw : (Hide v).1.os.GetParent (Hide v).1.m_hWnd ≠ (Hide v).1.os.desktop := by
        rw [he, fm, fd, hm, hsd]
        simp only [Os.GetParent, fn _ hsn]
        exact hg0
      have hhid : (Hide v).1.is_hidden_ = true := by rw [he]; exact WasHidden_hidden _
      have h2 : Hide (Hide v).1 = ((Hide v).1,
          (dropFocus (Hide v).1).2 ++
            [Call.ShowWindow (Hide v).1.m_hWnd false, Call.SetParent (Hide v).1.m_hWnd 0]) := by
        generalize Hide v = r at hfix hgw hhid ⊢
        simp [Hide, hgw, hfix, WasHidden, hhid]
      rw [h2]
      refine ⟨rfl, ?_, ?_⟩
      · simp only [dropFocus]
        split <;> simp
      · intro h
        simp only [dropFocus]
        split <;> simp

/-- C6: hiding is idempotent.  For every view, `WasHidden` called twice in a
row yields the state of one call and the second call makes no call at all.  For
every view whose tooltip handle is not the view's own live window, `Hide`
called twice in a row yields the state of one call, and the second call sends
no `WasHidden` to the remote widget and destroys no tooltip. -/
theorem hide_idempotent (v : View)
    (ht : v.tooltip_hwnd_ = v.m_hWnd → v.os.IsWindow v.m_hWnd = false) :
    WasHidden (WasHidden v).1 = ((WasHidden v).1, []) ∧
    (Hide (Hide v).1).1 = (Hide v).1 ∧
    Call.WasHidden ∉ (Hide (Hide v).1).2 ∧
    ∀ h, Call.DestroyWindow h ∉ (Hide (Hide v).1).2 :=
  ⟨WasHidden_twice v, Hide_twice v ht⟩

/-- C6 (witness): `sampleView`, whose window `1` is live and whose tooltip
handle is `NULL`. -/
theorem hide_idempotent_witness :
    WasHidden (WasHidden sampleView).1 = ((WasHidden sampleView).1, []) ∧
    (Hide (Hide sampleView).1).1 = (Hide sampleView).1 ∧
    Call.WasHidden ∉ (Hide (Hide sampleView).1).2 ∧
    ∀ h, Call.DestroyWindow h ∉ (Hide (Hide sampleView).1).2 :=
  hide_idempotent sampleView (by decide)

theorem Hide_sampleView_calls :
    (Hide sampleView).2 =
      [Call.SetFocus 0, Call.ShowWindow 1 false, Call.SetParent 1 0, Call.WasHidden] ∧
    (Hide (Hide sampleView).1).2 = [Call.LogWarning] := by
  decide

end RenderWidgetHostViewWin

namespace RenderWidgetHostViewWin

theorem deferredCalls_append (a b : List Call) :
    deferredCalls (a ++ b) = deferredCalls a ++ deferredCalls b := by
  induction a with
  | nil => rfl
  | cons c cs ih => cases c <;> simp [deferredCalls, ih]

theorem moveTarget_none_iff (m : HWND) (oop : Bool) (os : Os) (w : HWND) :
    moveTarget m oop os w = none ↔ stale m oop os w = true := by
  simp only [moveTarget, stale]
  cases os.IsWindow w <;> cases oop <;> simp
  by_cases h1 : os.GetParent w = m <;> by_cases h2 : os.GetParent (os.GetParent w) = m <;>
    simp [h1, h2]

theorem deferredCalls_moveTarget (m : HWND) (oop : Bool) (os : Os) (w : HWND)
    (r : HWND × Os × List Call) (h : moveTarget m oop os w = some r) :
    deferredCalls r.2.2 = [] := by
  simp only [moveTarget] at h
  split at h
  · cases h
  · split at h
    · split at h
      · cases h; rfl
      · split at h
        · cases h
        · cases h; rfl
    · cases h; rfl

theorem deferredCalls_moveWindow (os : Os) (w : HWND) (e : WebPluginGeometry) :
    deferredCalls (moveWindow os w e).2 = [moveDeferred w e] := by
  simp only [moveWindow]
  split <;> rfl

theorem moveLoop_cons_none (m : HWND) (env : MoveEnv) (i : Nat) (e : WebPluginGeometry)
    (es : List WebPluginGeometry) (os : Os) (D : List DeferredPos)
    (ht : moveTarget m env.oop_plugins os e.window = none) :
    moveLoop m env i (e :: es) os D = moveLoop m env (i + 1) es os D := by
  simp only [moveLoop, ht]

theorem moveLoop_cons_some (m : HWND) (env : MoveEnv) (i : Nat) (e : WebPluginGeometry)
    (es : List WebPluginGeometry) (os : Os) (D : List DeferredPos) (w : HWND) (os1 : Os)
    (c1 : List Call) (ht : moveTarget m env.oop_plugins os e.window = some (w, os1, c1))
    (hd : env.defer_ok i = true) :
    moveLoop m env i (e :: es) os D =
      (moveLoop m env (i + 1) es (moveWindow os1 w e).1 (D ++ [moveDeferred w e])).after
        (c1 ++ (moveWindow os1 w e).2) := by
  simp only [moveLoop, ht, hd, Bool.not_true, Bool.false_eq_true, if_false]

/-- With every `DeferWindowPos` succeeding the loop does not fail, does not
depend on the pass number, and holds exactly the placements it deferred. -/
theorem moveLoop_ok (m : HWND) (env : MoveEnv) (hd : ∀ i, env.defer_ok i = true)
    (moves : List WebPluginGeometry) (i : Nat) (os : Os) (D : List DeferredPos) :
    (moveLoop m env i moves os D).failed = false ∧
    (moveLoop m env i moves os D).deferred =
      D ++ deferredCalls (moveLoop m env i moves os D).calls ∧
    moveLoop m env i moves os D = moveLoop m env 0 moves os D := by
  induction moves generalizing i os D with
  | nil => simp [moveLoop, deferredCalls]
  | cons e es ih =>
    cases ht : moveTarget m env.oop_plugins os e.window with
    | none =>
      rw [moveLoop_cons_none _ _ _ _ _ _ _ ht, moveLoop_cons_none _ _ _ _ _ _ _ ht]
      exact ⟨(ih _ _ _).1, (ih _ _ _).2.1, (ih (i + 1) _ _).2.2.trans (ih 1 _ _).2.2.symm⟩
    | some r =>
      obtain ⟨w, os1, c1⟩ := r
      rw [moveLoop_cons_some _ _ _ _ _ _ _ _ _ _ ht (hd _),
        moveLoop_cons_some _ _ _ _ _ _ _ _ _ _ ht (hd _)]
      refine ⟨(ih _ _ _).1, ?_, ?_⟩
      · simp only [MoveLoop.after]
        rw [(ih _ _ _).2.1]
        simp [deferredCalls_append, deferredCalls_moveTarget m _ os e.window _ ht,
          deferredCalls_moveWindow]
      · rw [(ih (i + 1) _ _).2.2, (ih (0 + 1) _ _).2.2]

theorem moveLoop_append (m : HWND) (env : MoveEnv) (hd : ∀ i, env.defer_ok i = true)
    (pre post : List WebPluginGeometry) (i : Nat) (os : Os) (D : List DeferredPos) :
    moveLoop m env i (pre ++ post) os D =
      (moveLoop m env 0 post (moveLoop m env 0 pre os D).os
          (moveLoop m env 0 pre os D).deferred).after (moveLoop m env 0 pre os D).calls := by
  induction pre generalizing i os D with
  | nil =>
    simp only [List.nil_append, moveLoop, MoveLoop.after]
    exact (moveLoop_ok m env hd post i os D).2.2
  | cons e es ih =>
    rw [List.cons_append]
    cases ht : moveTarget m env.oop_plugins os e.window with
    | none =>
      rw [moveLoop_cons_none _ _ _ _ _ _ _ ht, moveLoop_cons_none _ _ _ _ _ _ _ ht, ih,
        (moveLoop_ok m env hd es (0 + 1) os D).2.2]
    | some r =>
      obtain ⟨w, os1, c1⟩ := r
      rw [moveLoop_cons_some _ _ _ _ _ _ _ _ _ _ ht (hd _),
        moveLoop_cons_some _ _ _ _ _ _ _ _ _ _ ht (hd _), ih,
        (moveLoop_ok m env hd es (0 + 1) _ _).2.2]
      simp [MoveLoop.after]

theorem moveTarget_calls (m : HWND) (oop : Bool) (os : Os) (w : HWND)
    (r : HWND × Os × List Call) (h : moveTarget m oop os w = some r) :
    ∀ c ∈ r.2.2, inTransaction c := by
  simp only [moveTarget] at h
  split at h
  · cases h
  · split at h
    · split at h
      · cases h
        intro c hc
        simp only [ReparentWindow, List.cons_append, List.nil_append, List.mem_cons,
          List.mem_singleton, List.not_mem_nil, or_false] at hc
        rcases hc with rfl | rfl | rfl | rfl <;> simp [inTransaction]
      · split at h
        · cases h
        · cases h; simp
    · cases h; simp

theorem moveWindow_calls (os : Os) (w : HWND) (e : WebPluginGeometry) :
    ∀ c ∈ (moveWindow os w e).2, inTransaction c := by
  intro c hc
  simp only [moveWindow] at hc
  split at hc
  · simp only [List.mem_cons, List.mem_singleton, List.not_mem_nil, or_false] at hc
    rcases hc with rfl | rfl <;> simp [inTransaction]
  · simp only [List.mem_singleton] at hc
    subst hc
    simp [inTransaction]

theorem moveLoop_calls (m : HWND) (env : MoveEnv) (hd : ∀ i, env.defer_ok i = true)
    (moves : List WebPluginGeometry) (i : Nat) (os : Os) (D : List DeferredPos) :
    ∀ c ∈ (moveLoop m env i moves os D).calls, inTransaction c := by
  induction moves generalizing i os D with
  | nil => simp [moveLoop]
  | cons e es ih =>
    cases ht : moveTarget m env.oop_plugins os e.window with
    | none =>
      rw [moveLoop_cons_none _ _ _ _ _ _ _ ht]
      exact ih _ _ _
    | some r =>
      obtain ⟨w, os1, c1⟩ := r
      rw [moveLoop_cons_some _ _ _ _ _ _ _ _ _ _ ht (hd _)]
      intro c hc
      simp only [MoveLoop.after, List.mem_append] at hc
      rcases hc with (hc | hc) | hc
      · exact moveTarget_calls m _ os e.window _ ht c hc
      · exact moveWindow_calls _ _ _ c hc
      · exact ih _ _ _ c hc

theorem MovePluginWindows_eq (v : View) (env : MoveEnv) (moves : List WebPluginGeometry)
    (hb : env.begin_defer_ok = true) (hd : ∀ i, env.defer_ok i = true)
    (hne : moves ≠ []) :
    MovePluginWindows v env moves =
      ({ v with
          os := Os.EndDeferWindowPos (moveLoop v.m_hWnd env 0 moves v.os []).os
            (deferredCalls (moveLoop v.m_hWnd env 0 moves v.os []).calls) },
       Call.BeginDeferWindowPos moves.length :: (moveLoop v.m_hWnd env 0 moves v.os []).calls ++
         [Call.EndDeferWindowPos]) := by
  obtain ⟨h1, h2, _⟩ := moveLoop_ok v.m_hWnd env hd moves 0 v.os []
  have : moves.isEmpty = false := by
    cases moves with
    | nil => exact absurd rfl hne
    | cons _ _ => rfl
  simp only [MovePluginWindows, this, hb, h1, Bool.false_eq_true, if_false, Bool.not_true, h2,
    List.nil_append]

/-- C7: for every batch `pre ++ e :: post` passed to `MovePluginWindows` (the
window-system calls succeeding), the calls are one transaction: a single
`BeginDeferWindowPos`, a body, and a single `EndDeferWindowPos` that commits
exactly the placements deferred in the body.  If `e` is stale when the loop
reaches it (its window is gone, or with out-of-process plugins neither its
parent nor its grandparent is the view), it is skipped without error: the view
and the deferred placements are those of the batch without `e`.  Otherwise `e`
contributes exactly one deferred placement, carrying its own rectangle and
flags, after the placements of `pre` and before those of `post`. -/
theorem MovePluginWindows_skips_stale (v : View) (env : MoveEnv)
    (pre post : List WebPluginGeometry) (e : WebPluginGeometry)
    (hb : env.begin_defer_ok = true) (hd : ∀ i, env.defer_ok i = true) :
    (∃ body, (MovePluginWindows v env (pre ++ e :: post)).2 =
        Call.BeginDeferWindowPos (pre ++ e :: post).length :: body ++
          [Call.EndDeferWindowPos] ∧
      (∀ c ∈ body, inTransaction c) ∧
      (MovePluginWindows v env (pre ++ e :: post)).1.os =
        Os.EndDeferWindowPos (moveLoop v.m_hWnd env 0 (pre ++ e :: post) v.os []).os
          (deferredCalls body)) ∧
    (stale v.m_hWnd env.oop_plugins (moveLoop v.m_hWnd env 0 pre v.os []).os e.window = true →
      (MovePluginWindows v env (pre ++ e :: post)).1 =
        (MovePluginWindows v env (pre ++ post)).1 ∧
      deferredCalls (MovePluginWindows v env (pre ++ e :: post)).2 =
        deferredCalls (MovePluginWindows v env (pre ++ post)).2) ∧
    (stale v.m_hWnd env.oop_plugins (moveLoop v.m_hWnd env 0 pre v.os []).os e.window = false →
      ∃ target os1 calls1,
        moveTarget v.m_hWnd env.oop_plugins (moveLoop v.m_hWnd env 0 pre v.os []).os e.window =
          some (target, os1, calls1) ∧
        deferredCalls (MovePluginWindows v env (pre ++ e :: post)).2 =
          deferredCalls (moveLoop v.m_hWnd env 0 pre v.os []).calls ++
            moveDeferred target e ::
              deferredCalls (moveLoop v.m_hWnd env 0 post (moveWindow os1 target e).1
                ((moveLoop v.m_hWnd env 0 pre v.os []).deferred ++
                  [moveDeferred target e])).calls) := by
  have hne : pre ++ e :: post ≠ [] := by simp
  have hE := MovePluginWindows_eq v env (pre ++ e :: post) hb hd hne
  have hA := moveLoop_append v.m_hWnd env hd pre (e :: post) 0 v.os []
  refine ⟨⟨_, by rw [hE], moveLoop_calls _ env hd _ _ _ _, by rw [hE]⟩, ?_, ?_⟩
  · intro hs
    have ht := (moveTarget_none_iff _ _ _ _).2 hs
    have hskip : moveLoop v.m_hWnd env 0 (pre ++ e :: post) v.os [] =
        moveLoop v.m_hWnd env 0 (pre ++ post) v.os [] := by
      rw [hA, moveLoop_cons_none _ _ _ _ _ _ _ ht, (moveLoop_ok _ env hd post (0 + 1) _ _).2.2,
        ← moveLoop_append v.m_hWnd env hd pre post 0 v.os []]
    by_cases hne2 : pre ++ post = []
    · have hp : pre = [] := (List.append_eq_nil.1 hne2).1
      have hq : post = [] := (List.append_eq_nil.1 hne2).2
      subst hp hq
      rw [hE, hskip]
      simp [MovePluginWindows, moveLoop, deferredCalls, Os.EndDeferWindowPos]
    · rw [hE, MovePluginWindows_eq v env (pre ++ post) hb hd hne2, hskip]
      simp [deferredCalls_append, deferredCalls]
  · intro hs
    cases ht : moveTarget v.m_hWnd env.oop_plugins (moveLoop v.m_hWnd env 0 pre v.os []).os
        e.window with
    | none =>
      rw [(moveTarget_none_iff _ _ _ _).1 ht] at hs
      cases hs
    | some r =>
      obtain ⟨target, os1, calls1⟩ := r
      refine ⟨target, os1, calls1, rfl, ?_⟩
      rw [hE, hA, moveLoop_cons_some _ _ _ _ _ _ _ _ _ _ ht (hd _),
        (moveLoop_ok _ env hd post (0 + 1) _ _).2.2]
      simp [MoveLoop.after, deferredCalls_append, deferredCalls,
        deferredCalls_moveTarget _ _ _ _ _ ht, deferredCalls_moveWindow]

/-- C7 (witness): on `pluginView` the batch for the windows `2`, `99`, `4`,
where no window `99` exists, is applied as the batch for `2`, `4`. -/
theorem MovePluginWindows_skips_stale_witness :
    oopEnv.begin_defer_ok = true ∧
    stale pluginView.m_hWnd oopEnv.oop_plugins
      (moveLoop pluginView.m_hWnd oopEnv 0 [sampleMove 2 true] pluginView.os []).os
      (sampleMove 99 true).window = true ∧
    (MovePluginWindows pluginView oopEnv
        ([sampleMove 2 true] ++ sampleMove 99 true :: [sampleMove 4 false])).1 =
      (MovePluginWindows pluginView oopEnv ([sampleMove 2 true] ++ [sampleMove 4 false])).1 ∧
    deferredCalls (MovePluginWindows pluginView oopEnv
        ([sampleMove 2 true] ++ sampleMove 99 true :: [sampleMove 4 false])).2 =
      deferredCalls (MovePluginWindows pluginView oopEnv
        ([sampleMove 2 true] ++ [sampleMove 4 false])).2 :=
  ⟨rfl, by decide,
   (MovePluginWindows_skips_stale pluginView oopEnv [sampleMove 2 true] [sampleMove 4 false]
      (sampleMove 99 true) rfl (fun _ => rfl)).2.1 (by decide)⟩

theorem MovePluginWindows_example :
    (MovePluginWindows pluginView oopEnv
        [sampleMove 2 true, sampleMove 99 true, sampleMove 4 false]).2 =
      [Call.BeginDeferWindowPos 3,
       Call.CreateWindowEx 10, Call.SetParent 2 10, Call.PostNotifyPluginProcessHostTask 2 10,
       Call.ShowWindow 2 true,
       Call.SetWindowRgn 10 (moveRegion (sampleMove 2 true)) true,
       Call.DeferWindowPos { hwnd := 10, x := 10, y := 20, cx := 30, cy := 40, flags := 0x40 },
       Call.SetWindowRgn 3 (moveRegion (sampleMove 4 false)) true,
       Call.DeferWindowPos { hwnd := 3, x := 10, y := 20, cx := 30, cy := 40, flags := 0x80 },
       Call.EndDeferWindowPos] := by
  decide

theorem moveFlags_hasFlag (move : WebPluginGeometry) :
    hasFlag (moveFlags move) SWP_SHOWWINDOW = move.visible ∧
    hasFlag (moveFlags move) SWP_HIDEWINDOW = !move.visible ∧
    hasFlag (moveFlags move) SWP_NOMOVE = !move.rects_valid ∧
    hasFlag (moveFlags move) SWP_NOSIZE = !move.rects_valid := by
  obtain ⟨w, wr, cr, cut, valid, vis⟩ := move
  cases valid <;> cases vis <;>
    simp only [moveFlags, Bool.false_eq_true, if_true, if_false] <;> decide

/-- C9: for every applied geometry update the placement flags contain exactly
one of show-window and hide-window, chosen by the visibility flag, and the
placement when carried out sets the visibility to it.  With valid rectangles
the window region is set to the clip rectangle minus all cutout rectangles,
neither no-move nor no-size is set, and the placement carries the position and
size of the window rectangle.  Otherwise both no-move and no-size are set, no
region is set, and the placement leaves position and size alone. -/
theorem moveWindow_flags_and_region (os : Os) (window : HWND) (move : WebPluginGeometry) :
    hasFlag (moveFlags move) SWP_SHOWWINDOW = move.visible ∧
    hasFlag (moveFlags move) SWP_HIDEWINDOW = !move.visible ∧
    (∀ i, (Os.placeWindow (moveDeferred window move) i).visible = move.visible) ∧
    (move.rects_valid = true →
      hasFlag (moveFlags move) SWP_NOMOVE = false ∧
      hasFlag (moveFlags move) SWP_NOSIZE = false ∧
      (moveWindow os window move).2 =
        [Call.SetWindowRgn window (moveRegion move) (!move.clip_rect.IsEmpty),
         Call.DeferWindowPos
           { hwnd := window, x := move.window_rect.x, y := move.window_rect.y,
             cx := move.window_rect.width, cy := move.window_rect.height,
             flags := moveFlags move }] ∧
      (∀ i, os.windows window = some i →
        (moveWindow os window move).1.windows window =
          some { i with rgn := some (moveRegion move) }) ∧
      (∀ px py, (moveRegion move).Contains px py ↔
        (move.clip_rect.Contains px py ∧ ∀ c ∈ move.cutout_rects, ¬ c.Contains px py)) ∧
      (∀ i, Os.placeWindow (moveDeferred window move) i =
        { i with x := move.window_rect.x, y := move.window_rect.y,
                 width := move.window_rect.width, height := move.window_rect.height,
                 visible := move.visible })) ∧
    (move.rects_valid = false →
      hasFlag (moveFlags move) SWP_NOMOVE = true ∧
      hasFlag (moveFlags move) SWP_NOSIZE = true ∧
      (moveWindow os window move).1 = os ∧
      (moveWindow os window move).2 =
        [Call.DeferWindowPos
           { hwnd := window, x := move.window_rect.x, y := move.window_rect.y,
             cx := move.window_rect.width, cy := move.window_rect.height,
             flags := moveFlags move }] ∧
      (∀ i, Os.placeWindow (moveDeferred window move) i = { i with visible := move.visible })) := by
  obtain ⟨f1, f2, f3, f4⟩ := moveFlags_hasFlag move
  have hp : ∀ i, Os.placeWindow (moveDeferred window move) i =
      if move.rects_valid then
        { i with x := move.window_rect.x, y := move.window_rect.y,
                 width := move.window_rect.width, height := move.window_rect.height,
                 visible := move.visible }
      else { i with visible := move.visible } := by
    intro i
    simp only [Os.placeWindow, moveDeferred, f1, f2, f3, f4]
    cases move.rects_valid <;> cases move.visible <;> simp
  refine ⟨f1, f2, ?_, ?_, ?_⟩
  · intro i
    rw [hp]
    split <;> rfl
  · intro hv
    refine ⟨by rw [f3, hv]; rfl, by rw [f4, hv]; rfl, ?_, ?_, ?_, ?_⟩
    · simp [moveWindow, hv, moveDeferred]
    · intro i hi
      simp [moveWindow, hv, Os.SetWindowRgn, hi, Os.setWindow]
    · intro px py
      simp [moveRegion, Region.Contains, RECT.Contains, gfx.Rect.Contains]
    · intro i
      rw [hp, if_pos hv]
  · intro hv
    refine ⟨by rw [f3, hv]; rfl, by rw [f4, hv]; rfl, ?_, ?_, ?_⟩
    · simp [moveWindow, hv]
    · simp [moveWindow, hv, moveDeferred]
    · intro i
      rw [hp]
      simp [hv]

/-- C9 (witness): an update with valid rectangles and the same update with
its rectangles not valid. -/
theorem moveWindow_flags_and_region_witness :
    ((sampleMove 4 true).rects_valid = true ∧
      hasFlag (moveFlags (sampleMove 4 true)) SWP_NOMOVE = false ∧
      hasFlag (moveFlags (sampleMove 4 true)) SWP_NOSIZE = false) ∧
    (({ sampleMove 4 true with rects_valid := false } : WebPluginGeometry).rects_valid = false ∧
      hasFlag (moveFlags { sampleMove 4 true with rects_valid := false }) SWP_NOMOVE = true ∧
      hasFlag (moveFlags { sampleMove 4 true with rects_valid := false }) SWP_NOSIZE = true) :=
  ⟨⟨rfl, ((moveWindow_flags_and_region pluginOs 3 (sampleMove 4 true)).2.2.2.1 rfl).1,
     ((moveWindow_flags_and_region pluginOs 3 (sampleMove 4 true)).2.2.2.1 rfl).2.1⟩,
   ⟨rfl,
     ((moveWindow_flags_and_region pluginOs 3
        { sampleMove 4 true with rects_valid := false }).2.2.2.2 rfl).1,
     ((moveWindow_flags_and_region pluginOs 3
        { sampleMove 4 true with rects_valid := false }).2.2.2.2 rfl).2.1⟩⟩

end RenderWidgetHostViewWin

namespace NotifyPluginProcessHostTask

/-- A run either registers the pairing, or posts the task again, or asks for
the intermediate window to be closed; it posts the task again only if a
starting plugin process was seen, none matched and `tries_` was not zero, and
then `tries_` has gone down by one. -/
theorem Run_cases (t : NotifyPluginProcessHostTask) (reg : RegistryView) :
    (∃ k, (findHost reg.plugin_process_id reg.hosts 0 false).1 = some k ∧
      Run t reg = (t, [TaskCall.AddWindow k t.parent_])) ∨
    ((findHost reg.plugin_process_id reg.hosts 0 false) = (none, true) ∧ t.tries_ ≠ 0 ∧
      Run t reg = ({ t with tries_ := t.tries_ - 1 }, [TaskCall.PostDelayedTask kTryDelayMs])) ∨
    ((findHost reg.plugin_process_id reg.hosts 0 false).1 = none ∧
      (Run t reg).2 = [TaskCall.PostWmClose t.parent_]) := by
  unfold Run
  rcases hf : findHost reg.plugin_process_id reg.hosts 0 false with ⟨_ | k, found⟩
  · cases found
    · right; right; simp
    · by_cases h0 : t.tries_ = 0
      · right; right; simp [h0]
      · right; left; simp [h0]
  · left; exact ⟨k, rfl, rfl⟩

theorem runs_repost (fuel n : Nat) (t : NotifyPluginProcessHostTask)
    (registry : Nat → RegistryView)
    (hr : (Run t (registry n)).2 = [TaskCall.PostDelayedTask kTryDelayMs]) :
    runs (fuel + 1) n t registry =
      [TaskCall.PostDelayedTask kTryDelayMs] :: runs fuel (n + 1) (Run t (registry n)).1 registry := by
  simp only [runs, hr, if_true]

/-- The chain of runs ends: with `fuel` above the remaining tries it does not
depend on the fuel, it has at most `tries_ + 1` runs, every run but the last
only posts the task again with a 200 ms delay, and the last run either
registers the pairing or posts exactly one `WM_CLOSE` to the intermediate
window. -/
theorem runs_terminate (k : Nat) :
    ∀ (fuel n : Nat) (t : NotifyPluginProcessHostTask) (registry : Nat → RegistryView),
      t.tries_ = k → k < fuel →
      runs fuel n t registry = runs (k + 1) n t registry ∧
      (runs fuel n t registry).length ≤ k + 1 ∧
      ∃ earlier last, runs fuel n t registry = earlier ++ [last] ∧
        (∀ c ∈ earlier, c = [TaskCall.PostDelayedTask kTryDelayMs]) ∧
        ((∃ h, last = [TaskCall.AddWindow h t.parent_]) ∨
          last = [TaskCall.PostWmClose t.parent_]) := by
  induction k with
  | zero =>
    intro fuel n t registry ht hf
    obtain ⟨f, rfl⟩ : ∃ f, fuel = f + 1 := ⟨fuel - 1, by omega⟩
    have ht0 : t.tries_ = 0 := by simpa using ht
    rcases Run_cases t (registry n) with ⟨h, _, hr⟩ | ⟨_, hne, _⟩ | ⟨_, hr⟩
    · simp only [runs, hr]
      refine ⟨by simp, by simp, [], _, by simp, by simp, Or.inl ⟨h, rfl⟩⟩
    · exact absurd ht0 hne
    · simp only [runs, hr]
      refine ⟨by simp, by simp, [], _, by simp, by simp, Or.inr rfl⟩
  | succ k ih =>
    intro fuel n t registry ht hf
    obtain ⟨f, rfl⟩ : ∃ f, fuel = f + 1 := ⟨fuel - 1, by omega⟩
    rcases Run_cases t (registry n) with ⟨h, _, hr⟩ | ⟨_, hne, hr⟩ | ⟨_, hr⟩
    · simp only [runs, hr]
      refine ⟨by simp, by simp, [], _, by simp, by simp, Or.inl ⟨h, rfl⟩⟩
    · have ht1 : ({ t with tries_ := t.tries_ - 1 } : NotifyPluginProcessHostTask).tries_ =
          (k : Int) := by
        simp only [ht]; push_cast; ring
      obtain ⟨e1, e2, earlier, last, e3, e4, e5⟩ :=
        ih f (n + 1) { t with tries_ := t.tries_ - 1 } registry ht1 (by omega)
      have hr2 : (Run t (registry n)).2 = [TaskCall.PostDelayedTask kTryDelayMs] := by rw [hr]
      have hr1 : (Run t (registry n)).1 = { t with tries_ := t.tries_ - 1 } := by rw [hr]
      rw [runs_repost f n t registry hr2, runs_repost (k + 1) n t registry hr2, hr1]
      refine ⟨by rw [e1], by simp only [List.length_cons]; omega,
        [TaskCall.PostDelayedTask kTryDelayMs] :: earlier, last, by rw [e3]; rfl, ?_, e5⟩
      intro c hc
      rcases List.mem_cons.1 hc with rfl | hc
      · rfl
      · exact e4 c hc
    · simp only [runs, hr]
      refine ⟨by simp, by simp, [], _, by simp, by simp, Or.inr rfl⟩

/-- A task as constructed has at most six runs, whatever the registry does. -/
theorem runs_new_le_six (window parent : HWND) (registry : Nat → RegistryView) (fuel : Nat)
    (hf : 5 < fuel) :
    runs fuel 0 (new window parent) registry = runs 6 0 (new window parent) registry ∧
    (runs fuel 0 (new window parent) registry).length ≤ 6 :=
  ⟨(runs_terminate 5 fuel 0 (new window parent) registry rfl hf).1,
   (runs_terminate 5 fuel 0 (new window parent) registry rfl hf).2.1⟩

/-- C10 (failing input): with one plugin process starting and its handle never
known, the task for plugin window `2` and intermediate window `10` runs six
times, not five: five runs post it again after 200 ms and the sixth posts the
one `WM_CLOSE`; more fuel gives no further run. -/
theorem runs_startingRegistry :
    runs 6 0 (new 2 10) startingRegistry =
      [[TaskCall.PostDelayedTask 200], [TaskCall.PostDelayedTask 200],
       [TaskCall.PostDelayedTask 200], [TaskCall.PostDelayedTask 200],
       [TaskCall.PostDelayedTask 200], [TaskCall.PostWmClose 10]] ∧
    (runs 6 0 (new 2 10) startingRegistry).length = 6 ∧
    runs 100 0 (new 2 10) startingRegistry = runs 6 0 (new 2 10) startingRegistry := by
  decide

end NotifyPluginProcessHostTask

namespace RenderWidgetHostViewWin

theorem placeWindow_moveDeferred (h : HWND) (e : WebPluginGeometry) (i : WindowInfo) :
    Os.placeWindow (moveDeferred h e) i =
      if e.rects_valid then
        { i with x := e.window_rect.x, y := e.window_rect.y,
                 width := e.window_rect.width, height := e.window_rect.height,
                 visible := e.visible }
      else { i with visible := e.visible } := by
  obtain ⟨f1, f2, f3, f4⟩ := moveFlags_hasFlag e
  simp only [Os.placeWindow, moveDeferred, f1, f2, f3, f4]
  cases e.rects_valid <;> cases e.visible <;> simp

theorem placeFold_summary (h : HWND) (L : List WebPluginGeometry)
    (s : Option Bool × Option gfx.Rect) (i : WindowInfo) :
    placeFold h L (applyPlace s i) = applyPlace (placeSummary L s) i := by
  induction L generalizing s with
  | nil => rfl
  | cons e es ih =>
    have : Os.placeWindow (moveDeferred h e) (applyPlace s i) =
        applyPlace (some e.visible, if e.rects_valid then some e.window_rect else s.2) i := by
      rw [placeWindow_moveDeferred]
      obtain ⟨s1, s2⟩ := s
      cases e.rects_valid <;> cases s1 <;> cases s2 <;> simp [applyPlace]
    simp only [placeFold, List.foldl_cons, placeSummary] at ih ⊢
    rw [this, ih]

theorem applyPlace_none (i : WindowInfo) : applyPlace (none, none) i = i := rfl

theorem placeFold_eq (h : HWND) (L : List WebPluginGeometry) (i : WindowInfo) :
    placeFold h L i = applyPlace (placeSummary L (none, none)) i := by
  have := placeFold_summary h L (none, none) i
  rwa [applyPlace_none] at this

theorem rgnFold_summary (L : List WebPluginGeometry) (s : Option Region) (i : WindowInfo) :
    rgnFold L (applyRgn s i) = applyRgn (rgnSummary L s) i := by
  induction L generalizing s with
  | nil => rfl
  | cons e es ih =>
    have : (if e.rects_valid then { applyRgn s i with rgn := some (moveRegion e) }
        else applyRgn s i) =
        applyRgn (if e.rects_valid then some (moveRegion e) else s) i := by
      cases e.rects_valid <;> cases s <;> simp [applyRgn]
    simp only [rgnFold, List.foldl_cons, rgnSummary] at ih ⊢
    rw [this, ih]

theorem rgnFold_eq (L : List WebPluginGeometry) (i : WindowInfo) :
    rgnFold L i = applyRgn (rgnSummary L none) i :=
  rgnFold_summary L none i

/-- Carrying out the region calls and the placements of a list of entries on a
window that already has its regions and placements changes nothing. -/
theorem placeFold_rgnFold_fixed (h : HWND) (L : List WebPluginGeometry) (i : WindowInfo)
    (hr : rgnFold L i = i) :
    placeFold h L (rgnFold L (placeFold h L i)) = placeFold h L i := by
  rw [rgnFold_eq] at hr
  simp only [placeFold_eq, rgnFold_eq]
  generalize placeSummary L (none, none) = s at *
  generalize rgnSummary L none = g at *
  obtain ⟨s1, s2⟩ := s
  cases g with
  | none => cases s1 <;> cases s2 <;> simp [applyPlace, applyRgn]
  | some g =>
    have hg : i.rgn = some g := by
      have := congrArg WindowInfo.rgn hr
      simpa [applyRgn] using this.symm
    cases s1 <;> cases s2 <;> simp [applyPlace, applyRgn, hg]

theorem applyDeferred_windows (os : Os) (d : DeferredPos) (h : HWND) :
    (os.applyDeferred d).windows h =
      if h = d.hwnd then (os.windows h).map (Os.placeWindow d) else os.windows h := by
  simp only [Os.applyDeferred]
  cases hw : os.windows d.hwnd with
  | none =>
    by_cases hh : h = d.hwnd
    · simp [hh, hw]
    · simp [hh]
  | some i =>
    by_cases hh : h = d.hwnd
    · simp [hh, hw, Os.setWindow]
    · simp [hh, Os.setWindow]

theorem applyDeferred_frame (os : Os) (d : DeferredPos) :
    (os.applyDeferred d).next_hwnd = os.next_hwnd ∧ (os.applyDeferred d).desktop = os.desktop ∧
    (os.applyDeferred d).focus = os.focus ∧ (os.applyDeferred d).update_rgn = os.update_rgn := by
  simp only [Os.applyDeferred]
  cases os.windows d.hwnd <;> simp [Os.setWindow]

theorem EndDeferWindowPos_windows (os : Os) (D : List DeferredPos) (h : HWND) :
    (os.EndDeferWindowPos D).windows h =
      (os.windows h).map (fun i => (deferredFor h D).foldl (fun j d => Os.placeWindow d j) i) := by
  induction D generalizing os with
  | nil => simp [Os.EndDeferWindowPos, deferredFor]
  | cons d ds ih =>
    have ih' := ih (os.applyDeferred d)
    simp only [Os.EndDeferWindowPos, List.foldl_cons] at ih' ⊢
    rw [ih', applyDeferred_windows]
    by_cases hh : h = d.hwnd
    · subst hh
      simp [deferredFor, List.filter_cons, Option.map_map, Function.comp_def]
    · have : ¬ d.hwnd = h := fun h' => hh h'.symm
      simp [hh, deferredFor, List.filter_cons, this]

theorem EndDeferWindowPos_frame (os : Os) (D : List DeferredPos) :
    (os.EndDeferWindowPos D).next_hwnd = os.next_hwnd ∧
    (os.EndDeferWindowPos D).desktop = os.desktop ∧
    (os.EndDeferWindowPos D).focus = os.focus ∧
    (os.EndDeferWindowPos D).update_rgn = os.update_rgn := by
  induction D generalizing os with
  | nil => simp [Os.EndDeferWindowPos]
  | cons d ds ih =>
    have ih' := ih (os.applyDeferred d)
    obtain ⟨a, b, c, e⟩ := applyDeferred_frame os d
    simp only [Os.EndDeferWindowPos, List.foldl_cons] at ih' ⊢
    rw [ih'.1, ih'.2.1, ih'.2.2.1, ih'.2.2.2, a, b, c, e]
    exact ⟨rfl, rfl, rfl, rfl⟩

theorem SetWindowRgn_windows (os : Os) (t : HWND) (g : Region) (h : HWND) :
    (os.SetWindowRgn t g).windows h =
      if h = t then (os.windows h).map (fun i => { i with rgn := some g }) else os.windows h := by
  simp only [Os.SetWindowRgn]
  cases hw : os.windows t with
  | none =>
    by_cases hh : h = t
    · simp [hh, hw]
    · simp [hh]
  | some i =>
    by_cases hh : h = t
    · simp [hh, hw, Os.setWindow]
    · simp [hh, Os.setWindow]

theorem SetWindowRgn_frame (os : Os) (t : HWND) (g : Region) :
    (os.SetWindowRgn t g).next_hwnd = os.next_hwnd ∧ (os.SetWindowRgn t g).desktop = os.desktop ∧
    (os.SetWindowRgn t g).focus = os.focus ∧ (os.SetWindowRgn t g).update_rgn = os.update_rgn := by
  simp only [Os.SetWindowRgn]
  cases os.windows t <;> simp [Os.setWindow]

/-- Whether a handle is a window and what its parent is depend only on the
parents recorded for the windows. -/
theorem IsWindow_GetParent_congr (a b : Os)
    (hp : ∀ h, (a.windows h).map WindowInfo.parent = (b.windows h).map WindowInfo.parent)
    (h : HWND) : a.IsWindow h = b.IsWindow h ∧ a.GetParent h = b.GetParent h := by
  have := hp h
  simp only [Os.IsWindow, Os.GetParent]
  cases ha : a.windows h <;> cases hb : b.windows h <;> simp_all

theorem settledTarget_congr (m : HWND) (oop : Bool) (a b : Os)
    (hp : ∀ h, (a.windows h).map WindowInfo.parent = (b.windows h).map WindowInfo.parent)
    (w : HWND) : settledTarget m oop a w = settledTarget m oop b w := by
  simp only [settledTarget, (IsWindow_GetParent_congr a b hp w).1,
    (IsWindow_GetParent_congr a b hp w).2, (IsWindow_GetParent_congr a b hp _).2]

theorem moveTarget_settled (m : HWND) (oop : Bool) (os : Os) (w : HWND)
    (hs : os.IsWindow w = true → oop = true → os.GetParent w ≠ m) :
    moveTarget m oop os w = (settledTarget m oop os w).map (fun t => (t, os, [])) := by
  simp only [moveTarget, settledTarget]
  cases hw : os.IsWindow w
  · simp
  · cases oop
    · simp
    · have := hs hw rfl
      simp only [Bool.not_true, Bool.false_eq_true, if_false, if_true, this]
      by_cases hg : os.GetParent (os.GetParent w) = m <;> simp [hg]

theorem moveWindow_windows (os : Os) (t : HWND) (e : WebPluginGeometry) (h : HWND) :
    (moveWindow os t e).1.windows h =
      if h = t then (os.windows h).map (fun i => rgnFold [e] i) else os.windows h := by
  simp only [moveWindow, rgnFold, List.foldl_cons, List.foldl_nil]
  cases e.rects_valid
  · simp
  · simp only [if_true, SetWindowRgn_windows]

theorem moveWindow_frame (os : Os) (t : HWND) (e : WebPluginGeometry) :
    (moveWindow os t e).1.next_hwnd = os.next_hwnd ∧
    (moveWindow os t e).1.desktop = os.desktop ∧
    (moveWindow os t e).1.focus = os.focus ∧
    (moveWindow os t e).1.update_rgn = os.update_rgn := by
  simp only [moveWindow]
  cases e.rects_valid
  · simp
  · simp only [if_true]
    exact SetWindowRgn_frame os t _

theorem moveWindow_parents (os : Os) (t : HWND) (e : WebPluginGeometry) (h : HWND) :
    ((moveWindow os t e).1.windows h).map WindowInfo.parent =
      (os.windows h).map WindowInfo.parent := by
  rw [moveWindow_windows]
  split
  · simp only [Option.map_map]
    cases os.windows h with
    | none => rfl
    | some i =>
      simp only [Option.map_some', Function.comp, rgnFold, List.foldl_cons, List.foldl_nil]
      split <;> rfl
  · rfl

/-- The loop of `MovePluginWindows` on a settled batch: it creates no window,
sets on each window the regions of the entries that move it, and defers their
placements. -/
theorem moveLoop_settled (m : HWND) (env : MoveEnv) (hd : ∀ i, env.defer_ok i = true)
    (moves : List WebPluginGeometry) (i : Nat) (os : Os) (D : List DeferredPos)
    (hs : Settled m env.oop_plugins os moves) :
    (∀ h, (moveLoop m env i moves os D).os.windows h =
      (os.windows h).map (rgnFold (movesFor m env.oop_plugins os h moves))) ∧
    (moveLoop m env i moves os D).deferred = D ++ settledDeferred m env.oop_plugins os moves ∧
    (moveLoop m env i moves os D).os.next_hwnd = os.next_hwnd ∧
    (moveLoop m env i moves os D).os.desktop = os.desktop ∧
    (moveLoop m env i moves os D).os.focus = os.focus ∧
    (moveLoop m env i moves os D).os.update_rgn = os.update_rgn := by
  induction moves generalizing i os D with
  | nil =>
    refine ⟨fun h => ?_, by simp [moveLoop, settledDeferred], rfl, rfl, rfl, rfl⟩
    cases hw : os.windows h <;> simp [moveLoop, movesFor, rgnFold, hw]
  | cons e es ih =>
    have hse : Settled m env.oop_plugins os es := fun x hx => hs x (List.mem_cons_of_mem _ hx)
    have hmt := moveTarget_settled m env.oop_plugins os e.window (hs e (List.mem_cons_self _ _))
    cases ht : settledTarget m env.oop_plugins os e.window with
    | none =>
      rw [ht] at hmt
      rw [moveLoop_cons_none _ _ _ _ _ _ _ hmt]
      obtain ⟨a, b, c⟩ := ih (i + 1) os D hse
      refine ⟨?_, ?_, c⟩
      · intro h
        rw [a h]
        simp [movesFor, List.filter_cons, ht]
      · rw [b]
        simp [settledDeferred, List.filterMap_cons, ht]
    | some t =>
      rw [ht] at hmt
      rw [moveLoop_cons_some _ _ _ _ _ _ _ _ _ _ hmt (hd _)]
      have hpar := moveWindow_parents os t e
      have hcongr := settledTarget_congr m env.oop_plugins (moveWindow os t e).1 os hpar
      have hs' : Settled m env.oop_plugins (moveWindow os t e).1 es := by
        intro x hx hw ho
        rw [(IsWindow_GetParent_congr _ _ hpar x.window).1] at hw
        rw [(IsWindow_GetParent_congr _ _ hpar x.window).2]
        exact hse x hx hw ho
      obtain ⟨a, b, c1, c2, c3, c4⟩ :=
        ih (i + 1) (moveWindow os t e).1 (D ++ [moveDeferred t e]) hs'
      obtain ⟨f1, f2, f3, f4⟩ := moveWindow_frame os t e
      have hmf : ∀ h, movesFor m env.oop_plugins (moveWindow os t e).1 h es =
          movesFor m env.oop_plugins os h es := by
        intro h
        simp only [movesFor, hcongr]
      refine ⟨?_, ?_, by simp only [MoveLoop.after]; rw [c1, f1],
        by simp only [MoveLoop.after]; rw [c2, f2], by simp only [MoveLoop.after]; rw [c3, f3],
        by simp only [MoveLoop.after]; rw [c4, f4]⟩
      · intro h
        simp only [MoveLoop.after]
        rw [a h, hmf h, moveWindow_windows]
        by_cases hh : h = t
        · subst hh
          simp only [if_true, Option.map_map, movesFor, List.filter_cons, ht, decide_True,
            if_true]
          congr 1
        · have : ¬ t = h := fun h' => hh h'.symm
          simp [hh, movesFor, List.filter_cons, ht, this]
      · simp only [MoveLoop.after]
        rw [b]
        simp only [settledDeferred, hcongr, List.filterMap_cons, ht, Option.map_some',
          List.append_assoc, List.singleton_append]

theorem deferredFor_settledDeferred (m : HWND) (oop : Bool) (os : Os) (h : HWND)
    (moves : List WebPluginGeometry) :
    deferredFor h (settledDeferred m oop os moves) =
      (movesFor m oop os h moves).map (moveDeferred h) := by
  induction moves with
  | nil => rfl
  | cons e es ih =>
    simp only [settledDeferred, deferredFor, movesFor, List.filterMap_cons, List.filter_cons] at ih ⊢
    cases ht : settledTarget m oop os e.window with
    | none => simpa using ih
    | some t =>
      have hw : (moveDeferred t e).hwnd = t := rfl
      by_cases hh : t = h
      · subst hh
        simp [hw, ih]
      · simp [hw, hh, ih]

theorem foldl_placeWindow_map (h : HWND) (L : List WebPluginGeometry) (i : WindowInfo) :
    (L.map (moveDeferred h)).foldl (fun j d => Os.placeWindow d j) i = placeFold h L i := by
  simp only [placeFold, List.foldl_map]

/-- The three ways the first half of the loop body ends: the entry is skipped,
or its window is moved as it stands, or its window is first reparented. -/
theorem moveTarget_cases (m : HWND) (oop : Bool) (os : Os) (w : HWND) :
    (moveTarget m oop os w = none ∧ settledTarget m oop os w = none ∧
      (os.IsWindow w = true → oop = true → os.GetParent w ≠ m)) ∨
    (∃ t, moveTarget m oop os w = some (t, os, []) ∧ settledTarget m oop os w = some t ∧
      (os.IsWindow w = true → oop = true → os.GetParent w ≠ m) ∧
      ((oop = false ∧ t = w) ∨ (oop = true ∧ t = os.GetParent w)) ∧ os.IsWindow w = true) ∨
    (oop = true ∧ os.IsWindow w = true ∧ os.GetParent w = m ∧
      moveTarget m oop os w =
        some ((ReparentWindow os w).1, (ReparentWindow os w).2.1.ShowWindow w true,
          (ReparentWindow os w).2.2 ++ [Call.ShowWindow w true])) := by
  simp only [moveTarget, settledTarget]
  cases hw : os.IsWindow w
  · left; simp
  · cases oop
    · right; left; exact ⟨w, by simp⟩
    · by_cases hp : os.GetParent w = m
      · right; right; simp [hp]
      · by_cases hg : os.GetParent (os.GetParent w) = m
        · right; left; exact ⟨os.GetParent w, by simp [hp, hg]⟩
        · left; simp [hp, hg]

theorem CreateWindowEx_windows (os : Os) (p : HWND) (dis : Bool) (h : HWND) :
    (os.CreateWindowEx p dis).2.windows h =
      if h = os.next_hwnd then
        some { parent := p, visible := false, x := 0, y := 0, width := 0, height := 0,
               rgn := none, disabled := dis }
      else os.windows h := by
  simp [Os.CreateWindowEx, Os.setWindow]

theorem SetParent_windows (os : Os) (w p : HWND) (hp : p ≠ 0) (h : HWND) :
    (os.SetParent w p).windows h =
      if h = w then (os.windows h).map (fun i => { i with parent := p }) else os.windows h := by
  simp only [Os.SetParent]
  cases hw : os.windows w with
  | none =>
    by_cases hh : h = w
    · simp [hh, hw]
    · simp [hh]
  | some i =>
    by_cases hh : h = w
    · simp [hh, hw, Os.setWindow, hp]
    · simp [hh, Os.setWindow]

theorem ShowWindow_windows (os : Os) (w : HWND) (b : Bool) (h : HWND) :
    (os.ShowWindow w b).windows h =
      if h = w then (os.windows h).map (fun i => { i with visible := b }) else os.windows h := by
  simp only [Os.ShowWindow]
  cases hw : os.windows w with
  | none =>
    by_cases hh : h = w
    · simp [hh, hw]
    · simp [hh]
  | some i =>
    by_cases hh : h = w
    · simp [hh, hw, Os.setWindow]
    · simp [hh, Os.setWindow]

theorem reparent_frame (os : Os) (w : HWND) :
    ((ReparentWindow os w).2.1.ShowWindow w true).next_hwnd = os.next_hwnd + 1 ∧
    ((ReparentWindow os w).2.1.ShowWindow w true).desktop = os.desktop ∧
    ((ReparentWindow os w).2.1.ShowWindow w true).focus = os.focus ∧
    ((ReparentWindow os w).2.1.ShowWindow w true).update_rgn = os.update_rgn := by
  simp only [ReparentWindow, Os.ShowWindow, Os.SetParent]
  split <;> split <;> simp [Os.setWindow, Os.CreateWindowEx]

/-- The window system after `ReparentWindow(window)` and `ShowWindow(window,
SW_SHOW)`. -/
theorem reparent_windows (m : HWND) (os : Os) (w : HWND) (iw : WindowInfo)
    (hwf : os.WellFormed m) (hw : os.windows w = some iw) :
    (ReparentWindow os w).1 = os.next_hwnd ∧
    ∀ h, ((ReparentWindow os w).2.1.ShowWindow w true).windows h =
      if h = w then some { iw with parent := os.next_hwnd, visible := true }
      else if h = os.next_hwnd then
        some { parent := iw.parent, visible := false, x := 0, y := 0, width := 0, height := 0,
               rgn := none, disabled := iw.disabled }
      else os.windows h := by
  have hlt : w < os.next_hwnd := by
    by_contra hc
    have := hwf.fresh w (Nat.le_of_not_lt hc)
    rw [hw] at this
    cases this
  have hne : w ≠ os.next_hwnd := Nat.ne_of_lt hlt
  have hP : os.next_hwnd ≠ 0 := Nat.not_eq_zero_of_lt hwf.view
  have hgp : os.GetParent w = iw.parent := by simp [Os.GetParent, hw]
  refine ⟨rfl, fun h => ?_⟩
  simp only [ReparentWindow, hw, hgp]
  have hc1 : (os.CreateWindowEx iw.parent iw.disabled).1 = os.next_hwnd := rfl
  rw [ShowWindow_windows, hc1, SetParent_windows _ _ _ hP, CreateWindowEx_windows]
  by_cases hh : h = w
  · subst hh
    simp [hne, hw]
  · simp [hh]

theorem rgnFold_append (L K : List WebPluginGeometry) (i : WindowInfo) :
    rgnFold (L ++ K) i = rgnFold K (rgnFold L i) := by
  simp only [rgnFold, List.foldl_append]

theorem deferredFor_append (h : HWND) (D E : List DeferredPos) :
    deferredFor h (D ++ E) = deferredFor h D ++ deferredFor h E := by
  simp only [deferredFor, List.filter_append]

theorem lt_next_of_window (m : HWND) (os : Os) (hwf : os.WellFormed m) (w : HWND)
    (hw : os.IsWindow w = true) : w < os.next_hwnd := by
  by_contra hc
  have := hwf.fresh w (Nat.le_of_not_lt hc)
  simp [Os.IsWindow, this] at hw

theorem WellFormed_congr (m : HWND) (a b : Os) (hwf : a.WellFormed m)
    (hn : b.next_hwnd = a.next_hwnd)
    (hp : ∀ h, (b.windows h).map WindowInfo.parent = (a.windows h).map WindowInfo.parent) :
    b.WellFormed m := by
  refine ⟨fun h hh => ?_, fun h i hi => ?_, by rw [hn]; exact hwf.view⟩
  · have h1 := hwf.fresh h (by rw [← hn]; exact hh)
    have h2 := hp h
    rw [h1] at h2
    cases hb : b.windows h with
    | none => rfl
    | some x => rw [hb] at h2; cases h2
  · have h2 := hp h
    rw [hi] at h2
    cases ha : a.windows h with
    | none => rw [ha] at h2; cases h2
    | some x =>
      rw [ha] at h2
      have h3 : i.parent = x.parent := by simpa using h2
      rw [hn, h3]
      exact hwf.parents h x ha

theorem MoveInv_skip (m : HWND) (oop : Bool) (pre : List WebPluginGeometry) (os : Os)
    (D : List DeferredPos) (e : WebPluginGeometry) (hinv : MoveInv m oop pre os D)
    (hk : e.window < os.next_hwnd) (ht : settledTarget m oop os e.window = none)
    (hs : os.IsWindow e.window = true → oop = true → os.GetParent e.window ≠ m) :
    MoveInv m oop (pre ++ [e]) os D := by
  refine ⟨hinv.wf, ?_, hinv.issued, ?_, ?_⟩
  · intro x hx
    rcases List.mem_append.1 hx with hx | hx
    · exact hinv.settled x hx
    · rw [List.mem_singleton.1 hx]; exact hs
  · intro x hx
    rcases List.mem_append.1 hx with hx | hx
    · exact hinv.known x hx
    · rw [List.mem_singleton.1 hx]; exact hk
  · intro h i hi hp
    have := hinv.placed h i hi hp
    simpa [List.filter_append, List.filter_cons, ht] using this

theorem MoveInv_plain (m : HWND) (oop : Bool) (pre : List WebPluginGeometry) (os : Os)
    (D : List DeferredPos) (e : WebPluginGeometry) (t : HWND) (hinv : MoveInv m oop pre os D)
    (hk : e.window < os.next_hwnd) (ht : settledTarget m oop os e.window = some t)
    (hs : os.IsWindow e.window = true → oop = true → os.GetParent e.window ≠ m)
    (htlt : t < os.next_hwnd) :
    MoveInv m oop (pre ++ [e]) (moveWindow os t e).1 (D ++ [moveDeferred t e]) := by
  have hpar := moveWindow_parents os t e
  have hcongr := settledTarget_congr m oop (moveWindow os t e).1 os hpar
  obtain ⟨f1, -, -, -⟩ := moveWindow_frame os t e
  refine ⟨WellFormed_congr m os _ hinv.wf f1 hpar, ?_, ?_, ?_, ?_⟩
  · intro x hx hw ho
    rw [(IsWindow_GetParent_congr _ _ hpar x.window).1] at hw
    rw [(IsWindow_GetParent_congr _ _ hpar x.window).2]
    rcases List.mem_append.1 hx with hx | hx
    · exact hinv.settled x hx hw ho
    · rw [List.mem_singleton.1 hx] at hw ⊢; exact hs hw ho
  · intro d hd
    rw [f1]
    rcases List.mem_append.1 hd with hd | hd
    · exact hinv.issued d hd
    · rw [List.mem_singleton.1 hd]; exact htlt
  · intro x hx
    rw [f1]
    rcases List.mem_append.1 hx with hx | hx
    · exact hinv.known x hx
    · rw [List.mem_singleton.1 hx]; exact hk
  · intro h i hi hp
    simp only [hcongr]
    rw [moveWindow_windows] at hi
    have hdw : (moveDeferred t e).hwnd = t := rfl
    by_cases hh : h = t
    · subst hh
      rw [if_pos rfl] at hi
      cases hw0 : os.windows h with
      | none => rw [hw0] at hi; cases hi
      | some i0 =>
        rw [hw0] at hi
        have hi' : i = rgnFold [e] i0 := by simpa using hi.symm
        have hpar0 : i.parent = i0.parent := by
          rw [hi']
          simp only [rgnFold, List.foldl_cons, List.foldl_nil]
          split <;> rfl
        obtain ⟨p1, p2⟩ := hinv.placed h i0 hw0 (fun ho => by rw [← hpar0]; exact hp ho)
        refine ⟨?_, ?_⟩
        · rw [deferredFor_append, p1]
          simp [List.filter_append, List.filter_cons, ht, deferredFor, hdw]
        · have hf : (pre ++ [e]).filter
              (fun x => decide (settledTarget m oop os x.window = some h)) =
              pre.filter (fun x => decide (settledTarget m oop os x.window = some h)) ++ [e] := by
            simp [List.filter_append, List.filter_cons, ht]
          rw [hf, rgnFold_append, hi']
          rw [rgnFold_eq] at p2
          simp only [rgnFold_eq]
          generalize rgnSummary (pre.filter
            (fun x => decide (settledTarget m oop os x.window = some h))) none = g at p2 ⊢
          have hg : ∀ r, g = some r → i0.rgn = some r := by
            intro r hr
            subst hr
            have := congrArg WindowInfo.rgn p2
            simpa [applyRgn] using this.symm
          cases hv : e.rects_valid
          · cases g with
            | none => simp [rgnSummary, hv, applyRgn]
            | some r => simpa [rgnSummary, hv, applyRgn] using p2
          · cases g with
            | none => simp [rgnSummary, hv, applyRgn]
            | some r => simp [rgnSummary, hv, applyRgn]
    · rw [if_neg hh] at hi
      obtain ⟨p1, p2⟩ := hinv.placed h i hi hp
      have hth : ¬ t = h := fun h' => hh h'.symm
      refine ⟨?_, ?_⟩
      · rw [deferredFor_append, p1]
        simp [List.filter_append, List.filter_cons, ht, deferredFor, hdw, hth]
      · simpa [List.filter_append, List.filter_cons, ht, hth] using p2

theorem settledTarget_eq_some (m : HWND) (os : Os) (w h : HWND) :
    settledTarget m true os w = some h ↔
      (os.IsWindow w = true ∧ os.GetParent w = h ∧ os.GetParent h = m) := by
  simp only [settledTarget]
  cases hw : os.IsWindow w
  · simp
  · by_cases hg : os.GetParent (os.GetParent w) = m
    · simp only [Bool.not_true, Bool.false_eq_true, if_false, if_true, hg, Option.some.injEq,
        true_and]
      constructor
      · intro h1; subst h1; exact ⟨rfl, hg⟩
      · intro h1; exact h1.1
    · simp only [Bool.not_true, Bool.false_eq_true, if_false, if_true, hg, true_and]
      constructor
      · intro h1; cases h1
      · intro h1; rw [h1.1] at hg; exact absurd h1.2 hg

theorem MoveInv_reparent (m : HWND) (pre : List WebPluginGeometry) (os : Os)
    (D : List DeferredPos) (e : WebPluginGeometry) (hinv : MoveInv m true pre os D)
    (hk : e.window < os.next_hwnd) (hw : os.IsWindow e.window = true)
    (hp : os.GetParent e.window = m) :
    MoveInv m true (pre ++ [e])
      (moveWindow ((ReparentWindow os e.window).2.1.ShowWindow e.window true)
        os.next_hwnd e).1
      (D ++ [moveDeferred os.next_hwnd e]) := by
  obtain ⟨iw, hiw⟩ : ∃ iw, os.windows e.window = some iw := by
    cases h : os.windows e.window with
    | none => simp [Os.IsWindow, h] at hw
    | some iw => exact ⟨iw, rfl⟩
  have hiwp : iw.parent = m := by simpa [Os.GetParent, hiw] using hp
  obtain ⟨-, hrw⟩ := reparent_windows m os e.window iw hinv.wf hiw
  obtain ⟨hrn, -, -, -⟩ := reparent_frame os e.window
  obtain ⟨f1, -, -, -⟩ :=
    moveWindow_frame ((ReparentWindow os e.window).2.1.ShowWindow e.window true) os.next_hwnd e
  have hmP : m < os.next_hwnd := hinv.wf.view
  have hwP : e.window ≠ os.next_hwnd := Nat.ne_of_lt hk
  have hmP' : os.next_hwnd ≠ m := fun h => absurd (h ▸ hmP) (Nat.lt_irrefl _)
  -- the windows after the step
  have hA : ∀ h,
      (moveWindow ((ReparentWindow os e.window).2.1.ShowWindow e.window true)
        os.next_hwnd e).1.windows h =
      if h = e.window then some { iw with parent := os.next_hwnd, visible := true }
      else if h = os.next_hwnd then
        some (rgnFold [e] { parent := m, visible := false, x := 0, y := 0, width := 0,
                            height := 0, rgn := none, disabled := iw.disabled })
      else os.windows h := by
    intro h
    rw [moveWindow_windows, hrw]
    by_cases h1 : h = e.window
    · subst h1; simp [hwP]
    · by_cases h2 : h = os.next_hwnd
      · subst h2; simp [h1, hiwp]
      · simp [h1, h2]
  have hnext : (moveWindow ((ReparentWindow os e.window).2.1.ShowWindow e.window true)
        os.next_hwnd e).1.next_hwnd = os.next_hwnd + 1 := by rw [f1, hrn]
  generalize (moveWindow ((ReparentWindow os e.window).2.1.ShowWindow e.window true)
        os.next_hwnd e).1 = A at hA hnext ⊢
  have hAw : A.windows e.window = some { iw with parent := os.next_hwnd, visible := true } := by
    rw [hA]; simp
  have hAP : A.windows os.next_hwnd =
      some (rgnFold [e] { parent := m, visible := false, x := 0, y := 0, width := 0,
                          height := 0, rgn := none, disabled := iw.disabled }) := by
    rw [hA]; simp [Ne.symm hwP]
  have hAo : ∀ h, h ≠ e.window → h ≠ os.next_hwnd → A.windows h = os.windows h := by
    intro h h1 h2; rw [hA]; simp [h1, h2]
  have hrp : ∀ j : WindowInfo, (rgnFold [e] j).parent = j.parent := by
    intro j
    simp only [rgnFold, List.foldl_cons, List.foldl_nil]
    split <;> rfl
  have hAPpar : A.GetParent os.next_hwnd = m := by
    simp [Os.GetParent, hAP, hrp]
  have hAwpar : A.GetParent e.window = os.next_hwnd := by
    simp [Os.GetParent, hAw]
  have hpre : ∀ x ∈ pre, x.window ≠ e.window ∧ x.window ≠ os.next_hwnd := by
    intro x hx
    refine ⟨fun h => ?_, Nat.ne_of_lt (hinv.known x hx)⟩
    exact hinv.settled x hx (by rw [h]; exact hw) rfl (by rw [h]; exact hp)
  refine ⟨⟨?_, ?_, by rw [hnext]; exact Nat.lt_succ_of_lt hmP⟩, ?_, ?_, ?_, ?_⟩
  · intro h hh
    rw [hnext] at hh
    have h1 : h ≠ e.window := fun h' => by
      rw [h'] at hh; exact absurd (Nat.lt_of_lt_of_le (Nat.lt_succ_of_lt hk) hh) (Nat.lt_irrefl _)
    have h2 : h ≠ os.next_hwnd := fun h' => by
      rw [h'] at hh; exact absurd hh (Nat.not_succ_le_self _)
    rw [hAo h h1 h2]
    exact hinv.wf.fresh h (Nat.le_of_succ_le hh)
  · intro h i hi
    rw [hnext]
    by_cases h1 : h = e.window
    · rw [h1, hAw] at hi
      cases hi
      exact Nat.lt_succ_self _
    · by_cases h2 : h = os.next_hwnd
      · rw [h2, hAP] at hi
        cases hi
        rw [hrp]
        exact Nat.lt_succ_of_lt hmP
      · rw [hAo h h1 h2] at hi
        exact Nat.lt_succ_of_lt (hinv.wf.parents h i hi)
  · intro x hx hxw _
    rcases List.mem_append.1 hx with hx | hx
    · obtain ⟨h1, h2⟩ := hpre x hx
      have hwx : os.IsWindow x.window = true := by
        simpa [Os.IsWindow, hAo _ h1 h2] using hxw
      have := hinv.settled x hx hwx rfl
      simpa [Os.GetParent, hAo _ h1 h2] using this
    · rw [List.mem_singleton.1 hx, hAwpar]
      exact hmP'
  · intro d hd
    rw [hnext]
    rcases List.mem_append.1 hd with hd | hd
    · exact Nat.lt_succ_of_lt (hinv.issued d hd)
    · rw [List.mem_singleton.1 hd]; exact Nat.lt_succ_self _
  · intro x hx
    rw [hnext]
    rcases List.mem_append.1 hx with hx | hx
    · exact Nat.lt_succ_of_lt (hinv.known x hx)
    · rw [List.mem_singleton.1 hx]; exact Nat.lt_succ_of_lt hk
  · intro h i hi hpi
    have hpi := hpi rfl
    have hdw : (moveDeferred os.next_hwnd e).hwnd = os.next_hwnd := rfl
    have hte : settledTarget m true A e.window = some os.next_hwnd :=
      (settledTarget_eq_some m A _ _).2 ⟨by simp [Os.IsWindow, hAw], hAwpar, hAPpar⟩
    by_cases h1 : h = e.window
    · rw [h1, hAw] at hi
      cases hi
      exact absurd hpi hmP'
    · by_cases h2 : h = os.next_hwnd
      · subst h2
        rw [hAP] at hi
        have hfil : (pre ++ [e]).filter
            (fun x => decide (settledTarget m true A x.window = some os.next_hwnd)) = [e] := by
          rw [List.filter_append]
          have : pre.filter
              (fun x => decide (settledTarget m true A x.window = some os.next_hwnd)) = [] := by
            rw [List.filter_eq_nil_iff]
            intro x hx
            obtain ⟨h1', h2'⟩ := hpre x hx
            simp only [decide_eq_true_eq, settledTarget_eq_some]
            rintro ⟨hxw, hxp, -⟩
            have hxw' : os.IsWindow x.window = true := by
              simpa [Os.IsWindow, hAo _ h1' h2'] using hxw
            cases hxi : os.windows x.window with
            | none => simp [Os.IsWindow, hxi] at hxw'
            | some xi =>
              have := hinv.wf.parents _ xi hxi
              have hxp' : xi.parent = os.next_hwnd := by
                simpa [Os.GetParent, hAo _ h1' h2', hxi] using hxp
              rw [hxp'] at this
              exact absurd this (Nat.lt_irrefl _)
          rw [this]
          simp [List.filter_cons, hte]
        have hdef : deferredFor os.next_hwnd D = [] := by
          simp only [deferredFor]
          rw [List.filter_eq_nil_iff]
          intro d hd
          have := hinv.issued d hd
          simp only [decide_eq_true_eq]
          exact Nat.ne_of_lt this
        rw [hfil]
        refine ⟨?_, ?_⟩
        · rw [deferredFor_append, hdef]
          simp [deferredFor, hdw]
        · cases hi
          simp only [rgnFold, List.foldl_cons, List.foldl_nil]
          split <;> simp
      · have hio := hAo h h1 h2 ▸ hi
        obtain ⟨p1, p2⟩ := hinv.placed h i hio (fun _ => hpi)
        have hfil : (pre ++ [e]).filter
            (fun x => decide (settledTarget m true A x.window = some h)) =
            pre.filter (fun x => decide (settledTarget m true os x.window = some h)) := by
          rw [List.filter_append]
          have h3 : [e].filter (fun x => decide (settledTarget m true A x.window = some h)) =
              [] := by
            simp [List.filter_cons, hte, Ne.symm h2]
          rw [h3, List.append_nil]
          apply List.filter_congr
          intro x hx
          obtain ⟨h1', h2'⟩ := hpre x hx
          have hAh : A.GetParent h = os.GetParent h := by
            simp [Os.GetParent, hAo h h1 h2]
          have hAx : A.GetParent x.window = os.GetParent x.window := by
            simp [Os.GetParent, hAo _ h1' h2']
          have hAxw : A.IsWindow x.window = os.IsWindow x.window := by
            simp [Os.IsWindow, hAo _ h1' h2']
          simp only [settledTarget_eq_some, hAh, hAx, hAxw]
        rw [hfil]
        refine ⟨?_, p2⟩
        rw [deferredFor_append, p1]
        simp [deferredFor, hdw, Ne.symm h2]

/-- The loop of `MovePluginWindows` keeps its invariant. -/
theorem moveLoop_inv (m : HWND) (env : MoveEnv) (hd : ∀ i, env.defer_ok i = true)
    (rest : List WebPluginGeometry) :
    ∀ (i : Nat) (pre : List WebPluginGeometry) (os : Os) (D : List DeferredPos),
      MoveInv m env.oop_plugins pre os D → (∀ e ∈ rest, e.window < os.next_hwnd) →
      MoveInv m env.oop_plugins (pre ++ rest) (moveLoop m env i rest os D).os
        (moveLoop m env i rest os D).deferred := by
  induction rest with
  | nil =>
    intro i pre os D hinv _
    simpa [moveLoop] using hinv
  | cons e es ih =>
    intro i pre os D hinv hk
    have hke := hk e (List.mem_cons_self _ _)
    have hkes : ∀ x ∈ es, x.window < os.next_hwnd := fun x hx => hk x (List.mem_cons_of_mem _ hx)
    have happ : pre ++ e :: es = (pre ++ [e]) ++ es := by simp
    rw [happ]
    rcases moveTarget_cases m env.oop_plugins os e.window with
      ⟨hmt, hst, hs⟩ | ⟨t, hmt, hst, hs, htc, hw⟩ | ⟨ho, hw, hp, hmt⟩
    · rw [moveLoop_cons_none _ _ _ _ _ _ _ hmt]
      exact ih _ _ _ _ (MoveInv_skip m _ pre os D e hinv hke hst hs) hkes
    · rw [moveLoop_cons_some _ _ _ _ _ _ _ _ _ _ hmt (hd _)]
      have htlt : t < os.next_hwnd := by
        rcases htc with ⟨-, rfl⟩ | ⟨-, rfl⟩
        · exact hke
        · cases hiw : os.windows e.window with
          | none => simp [Os.IsWindow, hiw] at hw
          | some iw =>
            have := hinv.wf.parents _ iw hiw
            simpa [Os.GetParent, hiw] using this
      have hstep := MoveInv_plain m _ pre os D e t hinv hke hst hs htlt
      obtain ⟨f1, -, -, -⟩ := moveWindow_frame os t e
      exact ih _ _ _ _ hstep (fun x hx => by rw [f1]; exact hkes x hx)
    · rw [moveLoop_cons_some _ _ _ _ _ _ _ _ _ _ hmt (hd _)]
      have hP : (ReparentWindow os e.window).1 = os.next_hwnd := rfl
      rw [ho] at hinv
      have hstep := MoveInv_reparent m pre os D e hinv hke hw hp
      have hstep' : MoveInv m env.oop_plugins (pre ++ [e])
          (moveWindow ((ReparentWindow os e.window).2.1.ShowWindow e.window true)
            os.next_hwnd e).1 (D ++ [moveDeferred os.next_hwnd e]) := by
        rw [ho]; exact hstep
      obtain ⟨hrn, -, -, -⟩ := reparent_frame os e.window
      obtain ⟨f1, -, -, -⟩ :=
        moveWindow_frame ((ReparentWindow os e.window).2.1.ShowWindow e.window true)
          os.next_hwnd e
      simp only [MoveLoop.after, hP]
      exact ih _ _ _ _ hstep'
        (fun x hx => by rw [f1, hrn]; exact Nat.lt_succ_of_lt (hkes x hx))

theorem MoveInv_init (m : HWND) (oop : Bool) (os : Os) (hwf : os.WellFormed m) :
    MoveInv m oop [] os [] := by
  refine ⟨hwf, fun e he => (by cases he), fun d hd => (by cases hd),
    fun e he => (by cases he), ?_⟩
  intro h i _ _
  exact ⟨rfl, rfl⟩

theorem placeWindow_parent (d : DeferredPos) (i : WindowInfo) :
    (Os.placeWindow d i).parent = i.parent := by
  simp only [Os.placeWindow]
  split <;> split <;> split <;> split <;> rfl

theorem foldl_placeWindow_parent (L : List DeferredPos) (i : WindowInfo) :
    (L.foldl (fun j d => Os.placeWindow d j) i).parent = i.parent := by
  induction L generalizing i with
  | nil => rfl
  | cons d ds ih => rw [List.foldl_cons, ih, placeWindow_parent]

theorem EndDeferWindowPos_parents (os : Os) (D : List DeferredPos) (h : HWND) :
    ((os.EndDeferWindowPos D).windows h).map WindowInfo.parent =
      (os.windows h).map WindowInfo.parent := by
  rw [EndDeferWindowPos_windows]
  cases os.windows h with
  | none => rfl
  | some i => simp [foldl_placeWindow_parent]

theorem Os_eq (a b : Os) (h1 : ∀ h, a.windows h = b.windows h)
    (h2 : a.next_hwnd = b.next_hwnd) (h3 : a.desktop = b.desktop) (h4 : a.focus = b.focus)
    (h5 : a.update_rgn = b.update_rgn) : a = b := by
  obtain ⟨aw, _, _, _, _⟩ := a
  obtain ⟨bw, _, _, _, _⟩ := b
  have : aw = bw := funext h1
  simp only at h2 h3 h4 h5
  subst this h2 h3 h4 h5
  rfl

/-- Applying the loop and the commit of `MovePluginWindows` to the window
system they produced gives that window system back. -/
theorem moveLoop_twice (m : HWND) (env : MoveEnv) (hd : ∀ i, env.defer_ok i = true)
    (moves : List WebPluginGeometry) (os : Os) (hwf : os.WellFormed m)
    (hk : ∀ e ∈ moves, e.window < os.next_hwnd) :
    Os.EndDeferWindowPos
        (moveLoop m env 0 moves
          (Os.EndDeferWindowPos (moveLoop m env 0 moves os []).os
            (moveLoop m env 0 moves os []).deferred) []).os
        (moveLoop m env 0 moves
          (Os.EndDeferWindowPos (moveLoop m env 0 moves os []).os
            (moveLoop m env 0 moves os []).deferred) []).deferred =
      Os.EndDeferWindowPos (moveLoop m env 0 moves os []).os
        (moveLoop m env 0 moves os []).deferred := by
  have hinv := moveLoop_inv m env hd moves 0 [] os [] (MoveInv_init m _ os hwf) hk
  rw [List.nil_append] at hinv
  generalize (moveLoop m env 0 moves os []).os = A at hinv ⊢
  generalize (moveLoop m env 0 moves os []).deferred = D at hinv ⊢
  have hpar := EndDeferWindowPos_parents A D
  have hcongr := settledTarget_congr m env.oop_plugins (A.EndDeferWindowPos D) A hpar
  have hset : Settled m env.oop_plugins (A.EndDeferWindowPos D) moves := by
    intro x hx hw ho
    rw [(IsWindow_GetParent_congr _ _ hpar x.window).1] at hw
    rw [(IsWindow_GetParent_congr _ _ hpar x.window).2]
    exact hinv.settled x hx hw ho
  obtain ⟨b1, b2, b3, b4, b5, b6⟩ :=
    moveLoop_settled m env hd moves 0 (A.EndDeferWindowPos D) [] hset
  obtain ⟨e1, e2, e3, e4⟩ := EndDeferWindowPos_frame
    (moveLoop m env 0 moves (A.EndDeferWindowPos D) []).os
    (moveLoop m env 0 moves (A.EndDeferWindowPos D) []).deferred
  refine Os_eq _ _ ?_ (e1.trans b3) (e2.trans b4) (e3.trans b5) (e4.trans b6)
  intro h
  rw [EndDeferWindowPos_windows, b1 h, b2, List.nil_append, deferredFor_settledDeferred,
    EndDeferWindowPos_windows]
  have hmf : movesFor m env.oop_plugins (A.EndDeferWindowPos D) h moves =
      movesFor m env.oop_plugins A h moves := by
    simp only [movesFor, hcongr]
  rw [hmf]
  cases hA : A.windows h with
  | none => rfl
  | some i =>
    simp only [Option.map_some', foldl_placeWindow_map]
    by_cases hpi : env.oop_plugins = true → i.parent = m
    · obtain ⟨p1, p2⟩ := hinv.placed h i hA hpi
      rw [p1, foldl_placeWindow_map]
      exact congrArg some (placeFold_rgnFold_fixed h _ i p2)
    · have ho : env.oop_plugins = true := by
        by_contra hc
        exact hpi (fun h' => absurd h' hc)
      have hne : i.parent ≠ m := fun h' => hpi (fun _ => h')
      have hnil : movesFor m env.oop_plugins A h moves = [] := by
        simp only [movesFor]
        rw [List.filter_eq_nil_iff]
        intro x _
        simp only [decide_eq_true_eq, ho, settledTarget_eq_some]
        rintro ⟨-, -, hph⟩
        simp [Os.GetParent, hA] at hph
        exact hne hph
      rw [hnil]
      rfl

theorem MovePluginWindows_view (v : View) (env : MoveEnv) (moves : List WebPluginGeometry)
    (hb : env.begin_defer_ok = true) (hd : ∀ i, env.defer_ok i = true) (hne : moves ≠ []) :
    (MovePluginWindows v env moves).1 =
      { v with
        os := (Os.EndDeferWindowPos (moveLoop v.m_hWnd env 0 moves v.os []).os
          (moveLoop v.m_hWnd env 0 moves v.os []).deferred) } := by
  have hD := (moveLoop_ok v.m_hWnd env hd moves 0 v.os []).2.1
  rw [List.nil_append] at hD
  rw [MovePluginWindows_eq v env moves hb hd hne, hD]

/-- C8: applying `MovePluginWindows` twice with the same batch leaves the view
as one application leaves it, and so every window has the placement (position,
size, visibility, clip region) of one application, also when the first
application reparents a directly owned plugin window under a newly created
intermediate window.  The window-system calls are taken to succeed, the window
system to be well formed, and the batch to name only handles already issued. -/
theorem MovePluginWindows_idempotent (v : View) (env : MoveEnv)
    (moves : List WebPluginGeometry) (hb : env.begin_defer_ok = true)
    (hd : ∀ i, env.defer_ok i = true) (hwf : v.os.WellFormed v.m_hWnd)
    (hk : ∀ e ∈ moves, e.window < v.os.next_hwnd) :
    (MovePluginWindows (MovePluginWindows v env moves).1 env moves).1 =
      (MovePluginWindows v env moves).1 := by
  by_cases hne : moves = []
  · subst hne
    simp [MovePluginWindows]
  · have h1 := MovePluginWindows_view v env moves hb hd hne
    have h2 := MovePluginWindows_view (MovePluginWindows v env moves).1 env moves hb hd hne
    have hm : (MovePluginWindows v env moves).1.m_hWnd = v.m_hWnd := by rw [h1]
    have ho : (MovePluginWindows v env moves).1.os =
        Os.EndDeferWindowPos (moveLoop v.m_hWnd env 0 moves v.os []).os
          (moveLoop v.m_hWnd env 0 moves v.os []).deferred := by rw [h1]
    rw [h2, hm, ho, moveLoop_twice v.m_hWnd env hd moves v.os hwf hk, ← ho, ← hm]

theorem pluginOs_WellFormed : pluginOs.WellFormed 1 := by
  refine ⟨fun h hh => ?_, fun h i hi => ?_, by decide⟩
  · have h10 : (10 : Nat) ≤ (h : Nat) := hh
    have h1 : h ≠ 1 := Nat.ne_of_gt (Nat.lt_of_lt_of_le (by decide) h10)
    have h2 : h ≠ 2 := Nat.ne_of_gt (Nat.lt_of_lt_of_le (by decide) h10)
    have h3 : h ≠ 3 := Nat.ne_of_gt (Nat.lt_of_lt_of_le (by decide) h10)
    have h4 : h ≠ 4 := Nat.ne_of_gt (Nat.lt_of_lt_of_le (by decide) h10)
    simp [pluginOs, h1, h2, h3, h4]
  · simp only [pluginOs] at hi ⊢
    split at hi
    · cases hi; decide
    · split at hi
      · cases hi; decide
      · split at hi
        · cases hi; decide
        · split at hi
          · cases hi; decide
          · cases hi

/-- C8 (witness): on `pluginView` the batch for the windows `2` and `4`; the
first application reparents the directly owned window `2` under the new
intermediate window `10`. -/
theorem MovePluginWindows_idempotent_witness :
    pluginView.os.WellFormed pluginView.m_hWnd ∧
    (MovePluginWindows (MovePluginWindows pluginView oopEnv
        [sampleMove 2 true, sampleMove 4 false]).1 oopEnv
        [sampleMove 2 true, sampleMove 4 false]).1 =
      (MovePluginWindows pluginView oopEnv [sampleMove 2 true, sampleMove 4 false]).1 :=
  ⟨pluginOs_WellFormed,
   MovePluginWindows_idempotent pluginView oopEnv [sampleMove 2 true, sampleMove 4 false] rfl
     (fun _ => rfl) pluginOs_WellFormed (by decide)⟩

theorem MovePluginWindows_twice_example :
    (MovePluginWindows pluginView oopEnv [sampleMove 2 true, sampleMove 4 false]).1.os.windows 10 =
      some { parent := 1, visible := true, x := 10, y := 20, width := 30, height := 40,
             rgn := some (moveRegion (sampleMove 2 true)), disabled := false } ∧
    (MovePluginWindows pluginView oopEnv [sampleMove 2 true, sampleMove 4 false]).1.os.windows 2 =
      some { parent := 10, visible := true, x := 0, y := 0, width := 20, height := 20,
             rgn := none, disabled := false } ∧
    (MovePluginWindows (MovePluginWindows pluginView oopEnv
        [sampleMove 2 true, sampleMove 4 false]).1 oopEnv
        [sampleMove 2 true, sampleMove 4 false]).2 =
      [Call.BeginDeferWindowPos 2,
       Call.SetWindowRgn 10 (moveRegion (sampleMove 2 true)) true,
       Call.DeferWindowPos { hwnd := 10, x := 10, y := 20, cx := 30, cy := 40, flags := 0x40 },
       Call.SetWindowRgn 3 (moveRegion (sampleMove 4 false)) true,
       Call.DeferWindowPos { hwnd := 3, x := 10, y := 20, cx := 30, cy := 40, flags := 0x80 },
       Call.EndDeferWindowPos] := by
  decide

end RenderWidgetHostViewWin

/-! ## The Enter key -/

namespace RenderWidgetHostViewWin

/-- A message whose `wparam` is not a tab is not a Tab key event. -/
theorem isTabMessage_of_ne (message wparam : Nat) (h : wparam ≠ VK_TAB) :
    isTabMessage message wparam = false := by
  simp [isTabMessage, h]

/-- The text-direction shortcut forwards no input event. -/
theorem forwarded_textDirectionShortcut (env : KeyEnv) :
    forwarded (textDirectionShortcut env) = [] := by
  unfold textDirectionShortcut
  split
  · split
    · split <;> simp [forwarded, forwardsInput]
    · split <;> simp [forwarded, forwardsInput]
  · split <;> simp [forwarded, forwardsInput]

/-- What `OnKeyEvent` does past the Tab branch and the null test. -/
theorem OnKeyEvent_plain (v : View) (layout : RtlKeyboardLayout) (env : KeyEnv)
    (htab : (v.close_on_deactivate_ && isTabMessage env.message env.wparam) = false)
    (hrwh : v.render_widget_host_ = true) :
    OnKeyEvent v layout env =
      { view := { v with capture_enter_key_ :=
            (enterFilter v.capture_enter_key_ env.message env.wparam env.lparam).2 },
        calls :=
          (if (IsRTLKeyboardLayoutInstalled layout env.keyboard_layouts).1 then
            textDirectionShortcut env else []) ++
          (if (enterFilter v.capture_enter_key_ env.message env.wparam env.lparam).1 then []
            else [Call.ForwardKeyboardEvent env.message env.wparam env.lparam]),
        result := 0,
        layout := (IsRTLKeyboardLayoutInstalled layout env.keyboard_layouts).2 } := by
  unfold OnKeyEvent
  rw [htab]
  simp only [hrwh]
  cases (enterFilter v.capture_enter_key_ env.message env.wparam env.lparam).1 <;> simp

/-- The input events `OnKeyEvent` forwards past the Tab branch. -/
theorem OnKeyEvent_plain_forwarded (v : View) (layout : RtlKeyboardLayout) (env : KeyEnv)
    (htab : (v.close_on_deactivate_ && isTabMessage env.message env.wparam) = false)
    (hrwh : v.render_widget_host_ = true) :
    forwarded (OnKeyEvent v layout env).calls =
      if (enterFilter v.capture_enter_key_ env.message env.wparam env.lparam).1 then []
      else [Call.ForwardKeyboardEvent env.message env.wparam env.lparam] := by
  rw [OnKeyEvent_plain v layout env htab hrwh]
  simp only [forwarded, List.filter_append]
  have h := forwarded_textDirectionShortcut env
  simp only [forwarded] at h
  split <;> split <;> simp [h, forwardsInput]

end RenderWidgetHostViewWin

namespace RenderWidgetHostViewWin

/-- `OnCancelMode` forwards no input event and keeps `capture_enter_key_`. -/
theorem OnCancelMode_forwarded (v : View) :
    forwarded (OnCancelMode v).2 = [] ∧
      (OnCancelMode v).1.capture_enter_key_ = v.capture_enter_key_ ∧
      (OnCancelMode v).1.render_widget_host_ = v.render_widget_host_ ∧
      (OnCancelMode v).1.close_on_deactivate_ = v.close_on_deactivate_ := by
  unfold OnCancelMode
  by_cases hr : v.render_widget_host_ = true <;>
    by_cases hc : (v.close_on_deactivate_ && v.shutdown_factory_ == 0) = true <;>
    simp [hr, hc, forwarded, forwardsInput]

/-- C11: an Enter key-down that carries the repeat bit, or an Enter key-up,
that arrives while `capture_enter_key_` is false is dropped: `OnKeyEvent`
forwards no input event to the renderer, and `capture_enter_key_` is false
afterwards. -/
theorem OnKeyEvent_enter_dropped (v : View) (layout : RtlKeyboardLayout) (env : KeyEnv)
    (hcap : v.capture_enter_key_ = false) (hret : env.wparam = VK_RETURN)
    (hmsg : ((env.message = WM_KEYDOWN ∨ env.message = WM_SYSKEYDOWN) ∧
        (KF_REPEAT &&& HIWORD env.lparam != 0) = true) ∨
      env.message = WM_KEYUP ∨ env.message = WM_SYSKEYUP) :
    forwarded (OnKeyEvent v layout env).calls = [] ∧
      (OnKeyEvent v layout env).view.capture_enter_key_ = false := by
  have htab : (v.close_on_deactivate_ && isTabMessage env.message env.wparam) = false := by
    rw [isTabMessage_of_ne _ _ (by rw [hret]; decide)]; simp
  by_cases hrwh : v.render_widget_host_ = true
  · have hf : enterFilter false env.message env.wparam env.lparam = (true, false) := by
      unfold enterFilter
      rw [if_pos hret]
      rcases hmsg with ⟨hd, hr⟩ | hu
      · rw [if_pos hd, if_pos hr]; rfl
      · have hnd : ¬ (env.message = WM_KEYDOWN ∨ env.message = WM_SYSKEYDOWN) := by
          rcases hu with hu | hu <;> rw [hu] <;> decide
        rw [if_neg hnd, if_pos hu]; rfl
    refine ⟨?_, ?_⟩
    · rw [OnKeyEvent_plain_forwarded v layout env htab hrwh, hcap, hf]; rfl
    · rw [OnKeyEvent_plain v layout env htab hrwh, hcap, hf]
  · have hn : v.render_widget_host_ = false := by simpa using hrwh
    unfold OnKeyEvent
    rw [htab]
    simp [hn, hcap, forwarded]

/-- C11 (witness): an Enter key-up on `sampleView`, which has not captured the
key. -/
theorem OnKeyEvent_enter_dropped_witness :
    forwarded (OnKeyEvent sampleView RtlKeyboardLayout.RTL_KEYBOARD_LAYOUT_INSTALLED
        (keyEnv WM_KEYUP VK_RETURN 0)).calls = [] ∧
      (OnKeyEvent sampleView RtlKeyboardLayout.RTL_KEYBOARD_LAYOUT_INSTALLED
        (keyEnv WM_KEYUP VK_RETURN 0)).view.capture_enter_key_ = false :=
  OnKeyEvent_enter_dropped sampleView RtlKeyboardLayout.RTL_KEYBOARD_LAYOUT_INSTALLED
    (keyEnv WM_KEYUP VK_RETURN 0) rfl rfl (Or.inr (Or.inl rfl))

/-- C12: from any view with a render widget host, the sequence Enter key-down
without the repeat bit, Enter key-down with the repeat bit, Enter key-up is
forwarded in full: each of the three `OnKeyEvent` calls forwards exactly one
input event, its own keyboard event, and `capture_enter_key_` is false after
the key-up. -/
theorem OnKeyEvent_enter_sequence (v : View) (layout : RtlKeyboardLayout)
    (down again up : KeyEnv) (hrwh : v.render_widget_host_ = true)
    (hdown : down.wparam = VK_RETURN ∧
      (down.message = WM_KEYDOWN ∨ down.message = WM_SYSKEYDOWN) ∧
      (KF_REPEAT &&& HIWORD down.lparam != 0) = false)
    (hagain : again.wparam = VK_RETURN ∧
      (again.message = WM_KEYDOWN ∨ again.message = WM_SYSKEYDOWN) ∧
      (KF_REPEAT &&& HIWORD again.lparam != 0) = true)
    (hup : up.wparam = VK_RETURN ∧ (up.message = WM_KEYUP ∨ up.message = WM_SYSKEYUP)) :
    forwarded (OnKeyEvent v layout down).calls =
        [Call.ForwardKeyboardEvent down.message down.wparam down.lparam] ∧
      forwarded (OnKeyEvent (OnKeyEvent v layout down).view
          (OnKeyEvent v layout down).layout again).calls =
        [Call.ForwardKeyboardEvent again.message again.wparam again.lparam] ∧
      forwarded (OnKeyEvent
          (OnKeyEvent (OnKeyEvent v layout down).view (OnKeyEvent v layout down).layout
            again).view
          (OnKeyEvent (OnKeyEvent v layout down).view (OnKeyEvent v layout down).layout
            again).layout up).calls =
        [Call.ForwardKeyboardEvent up.message up.wparam up.lparam] ∧
      (OnKeyEvent
          (OnKeyEvent (OnKeyEvent v layout down).view (OnKeyEvent v layout down).layout
            again).view
          (OnKeyEvent (OnKeyEvent v layout down).view (OnKeyEvent v layout down).layout
            again).layout up).view.capture_enter_key_ = false := by
  obtain ⟨hd1, hd2, hd3⟩ := hdown
  obtain ⟨ha1, ha2, ha3⟩ := hagain
  obtain ⟨hu1, hu2⟩ := hup
  have htab : ∀ (w : View) (e : KeyEnv), e.wparam = VK_RETURN →
      (w.close_on_deactivate_ && isTabMessage e.message e.wparam) = false := by
    intro w e he
    rw [isTabMessage_of_ne _ _ (by rw [he]; decide)]; simp
  have hf1 : enterFilter v.capture_enter_key_ down.message down.wparam down.lparam =
      (false, true) := by
    unfold enterFilter
    rw [if_pos hd1, if_pos hd2, hd3]; rfl
  have hf2 : enterFilter true again.message again.wparam again.lparam = (false, true) := by
    unfold enterFilter
    rw [if_pos ha1, if_pos ha2, if_pos ha3]; rfl
  have hf3 : enterFilter true up.message up.wparam up.lparam = (false, false) := by
    unfold enterFilter
    have hnd : ¬ (up.message = WM_KEYDOWN ∨ up.message = WM_SYSKEYDOWN) := by
      rcases hu2 with hu | hu <;> rw [hu] <;> decide
    rw [if_pos hu1, if_neg hnd, if_pos hu2]; rfl
  have e1 := OnKeyEvent_plain v layout down (htab v down hd1) hrwh
  rw [hf1] at e1
  have c1 := OnKeyEvent_plain_forwarded v layout down (htab v down hd1) hrwh
  rw [hf1] at c1
  have hr1 : (OnKeyEvent v layout down).view.render_widget_host_ = true := by rw [e1]; exact hrwh
  have hk1 : (OnKeyEvent v layout down).view.capture_enter_key_ = true := by rw [e1]
  have e2 := OnKeyEvent_plain (OnKeyEvent v layout down).view (OnKeyEvent v layout down).layout
    again (htab _ again ha1) hr1
  rw [hk1, hf2] at e2
  have c2 := OnKeyEvent_plain_forwarded (OnKeyEvent v layout down).view
    (OnKeyEvent v layout down).layout again (htab _ again ha1) hr1
  rw [hk1, hf2] at c2
  have hr2 : (OnKeyEvent (OnKeyEvent v layout down).view (OnKeyEvent v layout down).layout
      again).view.render_widget_host_ = true := by rw [e2]; exact hr1
  have hk2 : (OnKeyEvent (OnKeyEvent v layout down).view (OnKeyEvent v layout down).layout
      again).view.capture_enter_key_ = true := by rw [e2]
  have e3 := OnKeyEvent_plain _ (OnKeyEvent (OnKeyEvent v layout down).view
    (OnKeyEvent v layout down).layout again).layout up (htab _ up hu1) hr2
  rw [hk2, hf3] at e3
  have c3 := OnKeyEvent_plain_forwarded _ (OnKeyEvent (OnKeyEvent v layout down).view
    (OnKeyEvent v layout down).layout again).layout up (htab _ up hu1) hr2
  rw [hk2, hf3] at c3
  refine ⟨by simpa using c1, by simpa using c2, by simpa using c3, ?_⟩
  rw [e3]

/-- C12 (witness): an Enter key-down, its repeat and the key-up on
`sampleView`. -/
theorem OnKeyEvent_enter_sequence_witness :
    forwarded (OnKeyEvent sampleView RtlKeyboardLayout.RTL_KEYBOARD_LAYOUT_NOT_INITIALIZED
        (keyEnv WM_KEYDOWN VK_RETURN 1)).calls = [Call.ForwardKeyboardEvent WM_KEYDOWN VK_RETURN 1] ∧
      (OnKeyEvent
        (OnKeyEvent
          (OnKeyEvent sampleView RtlKeyboardLayout.RTL_KEYBOARD_LAYOUT_NOT_INITIALIZED
            (keyEnv WM_KEYDOWN VK_RETURN 1)).view
          (OnKeyEvent sampleView RtlKeyboardLayout.RTL_KEYBOARD_LAYOUT_NOT_INITIALIZED
            (keyEnv WM_KEYDOWN VK_RETURN 1)).layout
          (keyEnv WM_KEYDOWN VK_RETURN repeatLparam)).view
        (OnKeyEvent
          (OnKeyEvent sampleView RtlKeyboardLayout.RTL_KEYBOARD_LAYOUT_NOT_INITIALIZED
            (keyEnv WM_KEYDOWN VK_RETURN 1)).view
          (OnKeyEvent sampleView RtlKeyboardLayout.RTL_KEYBOARD_LAYOUT_NOT_INITIALIZED
            (keyEnv WM_KEYDOWN VK_RETURN 1)).layout
          (keyEnv WM_KEYDOWN VK_RETURN repeatLparam)).layout
        (keyEnv WM_KEYUP VK_RETURN 0)).view.capture_enter_key_ = false :=
  have h := OnKeyEvent_enter_sequence sampleView
    RtlKeyboardLayout.RTL_KEYBOARD_LAYOUT_NOT_INITIALIZED
    (keyEnv WM_KEYDOWN VK_RETURN 1) (keyEnv WM_KEYDOWN VK_RETURN repeatLparam)
    (keyEnv WM_KEYUP VK_RETURN 0) rfl ⟨rfl, Or.inl rfl, by decide⟩ ⟨rfl, Or.inl rfl, by decide⟩
    ⟨rfl, Or.inl rfl⟩
  ⟨h.1, h.2.2.2⟩

/-- C15: on an auto-dismiss popup, every Tab key event (`WM_KEYDOWN` or
`WM_KEYUP` of `VK_TAB`, or `WM_CHAR` of a tab character) sends
`WM_CANCELMODE` to the view, which runs `OnCancelMode`, then sends the message
on to `parent_hwnd_` and returns that window's result; no input event is
forwarded to the renderer and `capture_enter_key_` keeps its value. -/
theorem OnKeyEvent_tab_on_popup (v : View) (layout : RtlKeyboardLayout) (env : KeyEnv)
    (hpop : v.close_on_deactivate_ = true)
    (hmsg : ((env.message = WM_KEYDOWN ∨ env.message = WM_KEYUP) ∧ env.wparam = VK_TAB) ∨
      (env.message = WM_CHAR ∧ env.wparam = VK_TAB)) :
    (OnKeyEvent v layout env).calls =
        (if v.parent_hwnd_ = 0 then [Call.NotReached] else []) ++
          [Call.SendMessage v.m_hWnd WM_CANCELMODE 0 0] ++ (OnCancelMode v).2 ++
          [Call.SendMessage v.parent_hwnd_ env.message env.wparam env.lparam] ∧
      (OnKeyEvent v layout env).view = (OnCancelMode v).1 ∧
      (OnKeyEvent v layout env).result = env.parent_result ∧
      forwarded (OnKeyEvent v layout env).calls = [] ∧
      (OnKeyEvent v layout env).view.capture_enter_key_ = v.capture_enter_key_ := by
  have htab : isTabMessage env.message env.wparam = true := by
    unfold isTabMessage
    rcases hmsg with ⟨hm | hm, hw⟩ | ⟨hm, hw⟩ <;> simp [hm, hw]
  have hc := OnCancelMode_forwarded v
  have e : OnKeyEvent v layout env =
      { view := (OnCancelMode v).1,
        calls := (if v.parent_hwnd_ = 0 then [Call.NotReached] else []) ++
          [Call.SendMessage v.m_hWnd WM_CANCELMODE 0 0] ++ (OnCancelMode v).2 ++
          [Call.SendMessage v.parent_hwnd_ env.message env.wparam env.lparam],
        result := env.parent_result, layout := layout } := by
    unfold OnKeyEvent
    simp [hpop, htab]
  rw [e]
  refine ⟨rfl, rfl, rfl, ?_, hc.2.1⟩
  have h1 := hc.1
  simp only [forwarded] at h1
  simp only [forwarded, List.filter_append, h1]
  split <;> simp [forwardsInput]

/-- C15 (witness): a Tab key-down on `popupView`. -/
theorem OnKeyEvent_tab_on_popup_witness :
    (OnKeyEvent popupView RtlKeyboardLayout.RTL_KEYBOARD_LAYOUT_INSTALLED
        (keyEnv WM_KEYDOWN VK_TAB 1)).calls =
      [Call.SendMessage 1 WM_CANCELMODE 0 0, Call.LostCapture,
        Call.SetWindowPos 1 kCancelModeFlags, Call.PostShutdownHost,
        Call.SendMessage 7 WM_KEYDOWN VK_TAB 1] :=
  (OnKeyEvent_tab_on_popup popupView RtlKeyboardLayout.RTL_KEYBOARD_LAYOUT_INSTALLED
    (keyEnv WM_KEYDOWN VK_TAB 1) rfl (Or.inl ⟨Or.inl rfl, rfl⟩)).1.trans (by decide)

end RenderWidgetHostViewWin

/-! ## The text-direction shortcut -/

/-- A cleared key is up, and the other keys keep their state. -/
theorem keyDown_clearKey (keystate : KeyState) (vk i : Nat) :
    keyDown (clearKey keystate vk) i = if i = vk then false else keyDown keystate i := by
  unfold keyDown clearKey
  by_cases h : i = vk <;> simp [h]

/-- The scan finds no pressed key exactly when no code up to `VK_PACKET` is
down. -/
theorem scanPressed_eq_false (keystate : KeyState) :
    scanPressed keystate = false ↔ ∀ i, i ≤ VK_PACKET → keyDown keystate i = false := by
  unfold scanPressed
  rw [← Bool.not_eq_true]
  simp only [List.any_eq_true, List.mem_range, not_exists, not_and, Bool.not_eq_true]
  constructor
  · intro h i hi; exact h i (Nat.lt_succ_of_le hi)
  · intro h i hi; exact h i (Nat.le_of_lt_succ hi)

/-- The scan after the five assignments of `GetNewTextDirection`. -/
theorem scanPressed_cleared (keystate : KeyState) (shift : Nat) :
    scanPressed (clearKey (clearKey (clearKey (clearKey (clearKey keystate shift) VK_SHIFT)
        VK_CONTROL) VK_RCONTROL) VK_LCONTROL) = false ↔
      ∀ i, i ≤ VK_PACKET → i ≠ shift → i ≠ VK_SHIFT → i ≠ VK_CONTROL → i ≠ VK_RCONTROL →
        i ≠ VK_LCONTROL → keyDown keystate i = false := by
  rw [scanPressed_eq_false]
  constructor
  · intro h i hi h1 h2 h3 h4 h5
    have := h i hi
    simpa [keyDown_clearKey, h1, h2, h3, h4, h5] using this
  · intro h i hi
    simp only [keyDown_clearKey]
    by_cases h5 : i = VK_LCONTROL
    · simp [h5]
    by_cases h4 : i = VK_RCONTROL
    · simp [h4]
    by_cases h3 : i = VK_CONTROL
    · simp [h3]
    by_cases h2 : i = VK_SHIFT
    · simp [h2]
    by_cases h1 : i = shift
    · simp [h1]
    simp [h1, h2, h3, h4, h5, h i hi h1 h2 h3 h4 h5]

/-- The result of `GetNewTextDirection` with Control and right Shift down. -/
theorem GetNewTextDirection_right (keystate : KeyState)
    (hc : keyDown keystate VK_CONTROL = true) (hr : keyDown keystate VK_RSHIFT = true) :
    GetNewTextDirection (some keystate) =
      if scanPressed (clearKey (clearKey (clearKey (clearKey (clearKey keystate VK_RSHIFT)
          VK_SHIFT) VK_CONTROL) VK_RCONTROL) VK_LCONTROL) then none
      else some WebTextDirection.WebTextDirectionRightToLeft := by
  unfold GetNewTextDirection
  simp [hc, hr]

/-- The result of `GetNewTextDirection` with Control and left Shift down and
right Shift up. -/
theorem GetNewTextDirection_left (keystate : KeyState)
    (hc : keyDown keystate VK_CONTROL = true) (hr : keyDown keystate VK_RSHIFT = false)
    (hl : keyDown keystate VK_LSHIFT = true) :
    GetNewTextDirection (some keystate) =
      if scanPressed (clearKey (clearKey (clearKey (clearKey (clearKey keystate VK_LSHIFT)
          VK_SHIFT) VK_CONTROL) VK_RCONTROL) VK_LCONTROL) then none
      else some WebTextDirection.WebTextDirectionLeftToRight := by
  unfold GetNewTextDirection
  simp [hc, hr, hl]

/-- The result of `GetNewTextDirection` with Control up. -/
theorem GetNewTextDirection_no_control (keystate : KeyState)
    (hc : keyDown keystate VK_CONTROL = false) :
    GetNewTextDirection (some keystate) = none := by
  unfold GetNewTextDirection
  simp [hc]

/-- The result of `GetNewTextDirection` with both Shift keys up. -/
theorem GetNewTextDirection_no_shift (keystate : KeyState)
    (hr : keyDown keystate VK_RSHIFT = false) (hl : keyDown keystate VK_LSHIFT = false) :
    GetNewTextDirection (some keystate) = none := by
  unfold GetNewTextDirection
  by_cases hc : keyDown keystate VK_CONTROL = true <;> simp [hc, hr, hl]

/-- C13 (amended): `GetNewTextDirection` gives a direction exactly
when Control is down, exactly one of left Shift and right Shift is down, and no
other key with a virtual-key code up to `VK_PACKET` is down; the direction is
right-to-left for right Shift and left-to-right for left Shift.  Codes above
`VK_PACKET` are not looked at. -/
theorem GetNewTextDirection_iff (keystate : KeyState) (direction : WebTextDirection) :
    GetNewTextDirection (some keystate) = some direction ↔
      keyDown keystate VK_CONTROL = true ∧
      ((keyDown keystate VK_RSHIFT = true ∧ keyDown keystate VK_LSHIFT = false ∧
          direction = WebTextDirection.WebTextDirectionRightToLeft) ∨
        (keyDown keystate VK_LSHIFT = true ∧ keyDown keystate VK_RSHIFT = false ∧
          direction = WebTextDirection.WebTextDirectionLeftToRight)) ∧
      ∀ i, i ≤ VK_PACKET → i ≠ VK_SHIFT → i ≠ VK_CONTROL → i ≠ VK_LSHIFT → i ≠ VK_RSHIFT →
        i ≠ VK_LCONTROL → i ≠ VK_RCONTROL → keyDown keystate i = false := by
  by_cases hc : keyDown keystate VK_CONTROL = true
  swap
  · have hc0 : keyDown keystate VK_CONTROL = false := by simpa using hc
    rw [GetNewTextDirection_no_control keystate hc0]
    constructor
    · intro h; cases h
    · rintro ⟨h, _⟩; exact absurd h hc
  by_cases hr : keyDown keystate VK_RSHIFT = true
  · rw [GetNewTextDirection_right keystate hc hr]
    by_cases hs : scanPressed (clearKey (clearKey (clearKey (clearKey (clearKey keystate
        VK_RSHIFT) VK_SHIFT) VK_CONTROL) VK_RCONTROL) VK_LCONTROL) = true
    · rw [if_pos hs]
      constructor
      · intro h; cases h
      · rintro ⟨_, h1, h2⟩
        exfalso
        have hn : scanPressed (clearKey (clearKey (clearKey (clearKey (clearKey keystate
            VK_RSHIFT) VK_SHIFT) VK_CONTROL) VK_RCONTROL) VK_LCONTROL) = false := by
          rw [scanPressed_cleared]
          intro i hi a1 a2 a3 a4 a5
          by_cases hl : i = VK_LSHIFT
          · rcases h1 with ⟨_, h, _⟩ | ⟨_, h, _⟩
            · rw [hl]; exact h
            · rw [hr] at h; cases h
          · exact h2 i hi a2 a3 hl a1 a5 a4
        rw [hn] at hs; cases hs
    · rw [if_neg hs]
      have hn : scanPressed (clearKey (clearKey (clearKey (clearKey (clearKey keystate
          VK_RSHIFT) VK_SHIFT) VK_CONTROL) VK_RCONTROL) VK_LCONTROL) = false := by
        simpa using hs
      rw [scanPressed_cleared] at hn
      have hl : keyDown keystate VK_LSHIFT = false :=
        hn VK_LSHIFT (by decide) (by decide) (by decide) (by decide) (by decide) (by decide)
      constructor
      · intro h
        injection h with h
        refine ⟨hc, Or.inl ⟨hr, hl, h.symm⟩, ?_⟩
        intro i hi a1 a2 a3 a4 a5 a6
        exact hn i hi a4 a1 a2 a6 a5
      · rintro ⟨_, h1, _⟩
        rcases h1 with ⟨_, _, h⟩ | ⟨h, _, _⟩
        · rw [h]
        · rw [hl] at h; cases h
  · have hr0 : keyDown keystate VK_RSHIFT = false := by simpa using hr
    by_cases hl : keyDown keystate VK_LSHIFT = true
    · rw [GetNewTextDirection_left keystate hc hr0 hl]
      by_cases hs : scanPressed (clearKey (clearKey (clearKey (clearKey (clearKey keystate
          VK_LSHIFT) VK_SHIFT) VK_CONTROL) VK_RCONTROL) VK_LCONTROL) = true
      · rw [if_pos hs]
        constructor
        · intro h; cases h
        · rintro ⟨_, _, h2⟩
          exfalso
          have hn : scanPressed (clearKey (clearKey (clearKey (clearKey (clearKey keystate
              VK_LSHIFT) VK_SHIFT) VK_CONTROL) VK_RCONTROL) VK_LCONTROL) = false := by
            rw [scanPressed_cleared]
            intro i hi a1 a2 a3 a4 a5
            by_cases hrr : i = VK_RSHIFT
            · rw [hrr]; exact hr0
            · exact h2 i hi a2 a3 a1 hrr a5 a4
          rw [hn] at hs; cases hs
      · rw [if_neg hs]
        have hn : scanPressed (clearKey (clearKey (clearKey (clearKey (clearKey keystate
            VK_LSHIFT) VK_SHIFT) VK_CONTROL) VK_RCONTROL) VK_LCONTROL) = false := by
          simpa using hs
        rw [scanPressed_cleared] at hn
        constructor
        · intro h
          injection h with h
          refine ⟨hc, Or.inr ⟨hl, hr0, h.symm⟩, ?_⟩
          intro i hi a1 a2 a3 a4 a5 a6
          exact hn i hi a3 a1 a2 a6 a5
        · rintro ⟨_, h1, _⟩
          rcases h1 with ⟨h, _, _⟩ | ⟨_, _, h⟩
          · exact absurd h hr
          · rw [h]
    · have hl0 : keyDown keystate VK_LSHIFT = false := by simpa using hl
      rw [GetNewTextDirection_no_shift keystate hr0 hl0]
      constructor
      · intro h; cases h
      · rintro ⟨_, h1, _⟩
        rcases h1 with ⟨h, _, _⟩ | ⟨h, _, _⟩
        · exact absurd h hr
        · exact absurd h hl

/-- C13 (witness): the keyboard with Control and right Shift held. -/
theorem GetNewTextDirection_iff_witness :
    GetNewTextDirection (some ctrlRightShift) =
      some WebTextDirection.WebTextDirectionRightToLeft :=
  (GetNewTextDirection_iff ctrlRightShift WebTextDirection.WebTextDirectionRightToLeft).mpr
    ⟨by decide, Or.inl ⟨by decide, by decide, rfl⟩, by
      intro i _ h1 h2 _ h4 h5 _
      simp [keyDown, ctrlRightShift, h1, h2, h4, h5]⟩

/-- C13 (counterexample): with Control, right Shift and the Play key held,
another key is down and `GetNewTextDirection` still gives right-to-left. -/
theorem GetNewTextDirection_other_key_counterexample :
    keyDown ctrlRightShiftPlay VK_PLAY = true ∧
      VK_PLAY ≠ VK_SHIFT ∧ VK_PLAY ≠ VK_CONTROL ∧ VK_PLAY ≠ VK_LSHIFT ∧ VK_PLAY ≠ VK_RSHIFT ∧
      VK_PLAY ≠ VK_LCONTROL ∧ VK_PLAY ≠ VK_RCONTROL ∧ VK_PLAY < 256 ∧
      GetNewTextDirection (some ctrlRightShiftPlay) =
        some WebTextDirection.WebTextDirectionRightToLeft := by
  refine ⟨by decide, by decide, by decide, by decide, by decide, by decide, by decide,
    by decide, ?_⟩
  rw [GetNewTextDirection_right ctrlRightShiftPlay (by decide) (by decide)]
  have hn : scanPressed (clearKey (clearKey (clearKey (clearKey (clearKey ctrlRightShiftPlay
      VK_RSHIFT) VK_SHIFT) VK_CONTROL) VK_RCONTROL) VK_LCONTROL) = false := by
    rw [scanPressed_cleared]
    intro i hi h1 h2 h3 _ h5
    have hp : i ≠ VK_PLAY := by
      intro h; rw [h] at hi; revert hi; decide
    simp [keyDown, ctrlRightShiftPlay, ctrlRightShift, h1, h2, h3, h5, hp]
  rw [hn]; rfl

namespace RenderWidgetHost

/-- The directions sent depend on the text-direction calls only. -/
theorem sent_textDirectionCalls (h : RenderWidgetHost) (calls : List Call) :
    h.sent calls = h.sent (textDirectionCalls calls) := by
  induction calls generalizing h with
  | nil => rfl
  | cons c cs ih =>
    cases c <;>
      simp [sent, step, textDirectionCalls, aboutTextDirection, List.filter] <;>
      exact ih _

/-- A pending direction that is not cancelled is sent once on notification. -/
theorem sent_update_notify (h : RenderWidgetHost) (direction : WebTextDirection)
    (hc : h.text_direction_canceled_ = false) :
    h.sent [Call.UpdateTextDirection direction, Call.NotifyTextDirection] = [direction] := by
  simp [sent, step, hc]

/-- A cancelled direction is not sent on notification. -/
theorem sent_update_cancel_notify (h : RenderWidgetHost) (direction : WebTextDirection) :
    h.sent [Call.UpdateTextDirection direction, Call.CancelUpdateTextDirection,
      Call.NotifyTextDirection] = [] := by
  simp [sent, step]

end RenderWidgetHost

/-- A layout reported as installed is cached as installed. -/
theorem IsRTLKeyboardLayoutInstalled_cached (layout : RtlKeyboardLayout) (layouts : List Nat)
    (h : (IsRTLKeyboardLayoutInstalled layout layouts).1 = true) :
    (IsRTLKeyboardLayoutInstalled layout layouts).2 =
      RtlKeyboardLayout.RTL_KEYBOARD_LAYOUT_INSTALLED := by
  unfold IsRTLKeyboardLayoutInstalled at h ⊢
  split at h
  · rename_i h1
    rw [if_pos h1]
    simpa using h
  · rename_i h1
    rw [if_neg h1]
    split at h
    · cases h
    · rename_i h2
      rw [if_neg h2]
      split at h
      · rename_i h3
        rw [if_pos h3]
      · cases h

/-- The cached answer is used whatever `GetKeyboardLayoutList` reports. -/
theorem IsRTLKeyboardLayoutInstalled_installed (layouts : List Nat) :
    IsRTLKeyboardLayoutInstalled RtlKeyboardLayout.RTL_KEYBOARD_LAYOUT_INSTALLED layouts =
      (true, RtlKeyboardLayout.RTL_KEYBOARD_LAYOUT_INSTALLED) := by
  unfold IsRTLKeyboardLayoutInstalled
  simp

namespace RenderWidgetHostViewWin

/-- The shortcut makes text-direction calls only. -/
theorem textDirectionCalls_textDirectionShortcut (env : KeyEnv) :
    textDirectionCalls (textDirectionShortcut env) = textDirectionShortcut env := by
  unfold textDirectionShortcut
  split
  · split
    · split <;> simp [textDirectionCalls, aboutTextDirection]
    · split <;> simp [textDirectionCalls, aboutTextDirection]
  · split <;> simp [textDirectionCalls, aboutTextDirection]

/-- Past the Tab branch, with a right-to-left layout installed, `OnKeyEvent`
makes the text-direction calls of the shortcut, caches the layout and keeps
the host and the popup mark. -/
theorem OnKeyEvent_plain_direction (v : View) (layout : RtlKeyboardLayout) (env : KeyEnv)
    (htab : (v.close_on_deactivate_ && isTabMessage env.message env.wparam) = false)
    (hrwh : v.render_widget_host_ = true)
    (hrtl : (IsRTLKeyboardLayoutInstalled layout env.keyboard_layouts).1 = true) :
    textDirectionCalls (OnKeyEvent v layout env).calls = textDirectionShortcut env ∧
      (OnKeyEvent v layout env).layout = RtlKeyboardLayout.RTL_KEYBOARD_LAYOUT_INSTALLED ∧
      (OnKeyEvent v layout env).view.render_widget_host_ = true ∧
      (OnKeyEvent v layout env).view.close_on_deactivate_ = v.close_on_deactivate_ := by
  rw [OnKeyEvent_plain v layout env htab hrwh]
  refine ⟨?_, IsRTLKeyboardLayoutInstalled_cached _ _ hrtl, hrwh, rfl⟩
  simp only [hrtl, if_true]
  have h := textDirectionCalls_textDirectionShortcut env
  simp only [textDirectionCalls] at h
  simp only [textDirectionCalls, List.filter_append, h]
  split <;> simp [aboutTextDirection]

end RenderWidgetHostViewWin

namespace RenderWidgetHostViewWin

/-- C14 (amended): with a right-to-left keyboard layout installed
and a render widget host present, a `WM_KEYDOWN` of Shift while only Control
and right Shift are held makes the call `UpdateTextDirection` with
right-to-left, and the `WM_KEYUP` of Shift that follows makes one
`NotifyTextDirection`, on which a host with no cancelled update pending sends
right-to-left once.  A `WM_KEYDOWN` of a key other than Shift and Control in
between, unless it is Tab on an auto-dismiss popup, makes the call
`CancelUpdateTextDirection` and no update, and then nothing is sent on the
release. -/
theorem OnKeyEvent_text_direction (v : View) (layout : RtlKeyboardLayout)
    (host : RenderWidgetHost) (shift other up : KeyEnv) (keystate : KeyState)
    (hrwh : v.render_widget_host_ = true)
    (hrtl : (IsRTLKeyboardLayoutInstalled layout shift.keyboard_layouts).1 = true)
    (hshift : shift.message = WM_KEYDOWN ∧ shift.wparam = VK_SHIFT ∧
      shift.keystate = some keystate)
    (hkeys : keyDown keystate VK_CONTROL = true ∧ keyDown keystate VK_RSHIFT = true ∧
      ∀ i, i ≤ VK_PACKET → i ≠ VK_SHIFT → i ≠ VK_CONTROL → i ≠ VK_RSHIFT →
        i ≠ VK_LCONTROL → i ≠ VK_RCONTROL → keyDown keystate i = false)
    (hother : other.message = WM_KEYDOWN ∧ other.wparam ≠ VK_SHIFT ∧
      other.wparam ≠ VK_CONTROL ∧ ¬ (v.close_on_deactivate_ = true ∧ other.wparam = VK_TAB))
    (hup : up.message = WM_KEYUP ∧ up.wparam = VK_SHIFT)
    (hhost : host.text_direction_canceled_ = false) :
    (OnKeyEvents v layout [shift, up]).map textDirectionCalls =
        [[Call.UpdateTextDirection WebTextDirection.WebTextDirectionRightToLeft],
          [Call.NotifyTextDirection]] ∧
      host.sent (OnKeyEvents v layout [shift, up]).flatten =
        [WebTextDirection.WebTextDirectionRightToLeft] ∧
      (OnKeyEvents v layout [shift, other, up]).map textDirectionCalls =
        [[Call.UpdateTextDirection WebTextDirection.WebTextDirectionRightToLeft],
          [Call.CancelUpdateTextDirection], [Call.NotifyTextDirection]] ∧
      host.sent (OnKeyEvents v layout [shift, other, up]).flatten = [] := by
  obtain ⟨hs1, hs2, hs3⟩ := hshift
  obtain ⟨hk1, hk2, hk3⟩ := hkeys
  obtain ⟨ho1, ho2, ho3, ho4⟩ := hother
  obtain ⟨hu1, hu2⟩ := hup
  -- the keyboard gives right-to-left
  have hdir : GetNewTextDirection (some keystate) =
      some WebTextDirection.WebTextDirectionRightToLeft := by
    rw [GetNewTextDirection_right keystate hk1 hk2]
    have hn : scanPressed (clearKey (clearKey (clearKey (clearKey (clearKey keystate
        VK_RSHIFT) VK_SHIFT) VK_CONTROL) VK_RCONTROL) VK_LCONTROL) = false := by
      rw [scanPressed_cleared]
      intro i hi a1 a2 a3 a4 a5
      exact hk3 i hi a2 a3 a1 a5 a4
    rw [hn]; rfl
  -- the three shortcuts
  have sc1 : textDirectionShortcut shift =
      [Call.UpdateTextDirection WebTextDirection.WebTextDirectionRightToLeft] := by
    unfold textDirectionShortcut
    rw [if_pos hs1, if_pos hs2, hs3, hdir]
  have sc2 : textDirectionShortcut other = [Call.CancelUpdateTextDirection] := by
    unfold textDirectionShortcut
    rw [if_pos ho1, if_neg ho2, if_pos ho3]
  have sc3 : textDirectionShortcut up = [Call.NotifyTextDirection] := by
    unfold textDirectionShortcut
    have hne : ¬ up.message = WM_KEYDOWN := by rw [hu1]; decide
    rw [if_neg hne, if_pos ⟨hu1, Or.inl hu2⟩]
  -- none of the three messages takes the Tab branch
  have t1 : (v.close_on_deactivate_ && isTabMessage shift.message shift.wparam) = false := by
    rw [isTabMessage_of_ne _ _ (by rw [hs2]; decide)]; simp
  have tup : ∀ w : View, (w.close_on_deactivate_ && isTabMessage up.message up.wparam) = false := by
    intro w
    rw [isTabMessage_of_ne _ _ (by rw [hu2]; decide)]; simp
  have tother : ∀ w : View, w.close_on_deactivate_ = v.close_on_deactivate_ →
      (w.close_on_deactivate_ && isTabMessage other.message other.wparam) = false := by
    intro w hw
    rw [hw]
    by_cases hp : v.close_on_deactivate_ = true
    · have hne : other.wparam ≠ VK_TAB := fun h => ho4 ⟨hp, h⟩
      rw [isTabMessage_of_ne _ _ hne]; simp
    · have hp0 : v.close_on_deactivate_ = false := by simpa using hp
      rw [hp0]; rfl
  have inst : ∀ ls, (IsRTLKeyboardLayoutInstalled
      RtlKeyboardLayout.RTL_KEYBOARD_LAYOUT_INSTALLED ls).1 = true := by
    intro ls; rw [IsRTLKeyboardLayoutInstalled_installed]
  -- first message
  obtain ⟨c1, l1, r1, p1⟩ := OnKeyEvent_plain_direction v layout shift t1 hrwh hrtl
  rw [sc1] at c1
  -- release right after
  obtain ⟨c2, _, _, _⟩ := OnKeyEvent_plain_direction (OnKeyEvent v layout shift).view
    (OnKeyEvent v layout shift).layout up (tup _) r1 (by rw [l1]; exact inst _)
  rw [sc3] at c2
  -- another key in between
  obtain ⟨c3, l3, r3, _⟩ := OnKeyEvent_plain_direction (OnKeyEvent v layout shift).view
    (OnKeyEvent v layout shift).layout other (tother _ p1) r1 (by rw [l1]; exact inst _)
  rw [sc2] at c3
  obtain ⟨c4, _, _, _⟩ := OnKeyEvent_plain_direction
    (OnKeyEvent (OnKeyEvent v layout shift).view (OnKeyEvent v layout shift).layout other).view
    (OnKeyEvent (OnKeyEvent v layout shift).view (OnKeyEvent v layout shift).layout other).layout
    up (tup _) r3 (by rw [l3]; exact inst _)
  rw [sc3] at c4
  refine ⟨?_, ?_, ?_, ?_⟩
  · simp only [OnKeyEvents, List.map, c1, c2]
  · rw [RenderWidgetHost.sent_textDirectionCalls]
    simp only [OnKeyEvents, List.flatten, List.append_nil]
    have e : textDirectionCalls ((OnKeyEvent v layout shift).calls ++
        (OnKeyEvent (OnKeyEvent v layout shift).view (OnKeyEvent v layout shift).layout
          up).calls) =
        [Call.UpdateTextDirection WebTextDirection.WebTextDirectionRightToLeft,
          Call.NotifyTextDirection] := by
      simp only [textDirectionCalls, List.filter_append] at c1 c2 ⊢
      rw [c1, c2]; rfl
    rw [e]
    exact RenderWidgetHost.sent_update_notify host _ hhost
  · simp only [OnKeyEvents, List.map, c1, c3, c4]
  · rw [RenderWidgetHost.sent_textDirectionCalls]
    simp only [OnKeyEvents, List.flatten, List.append_nil]
    have e : textDirectionCalls ((OnKeyEvent v layout shift).calls ++
        ((OnKeyEvent (OnKeyEvent v layout shift).view (OnKeyEvent v layout shift).layout
          other).calls ++
        (OnKeyEvent
          (OnKeyEvent (OnKeyEvent v layout shift).view (OnKeyEvent v layout shift).layout
            other).view
          (OnKeyEvent (OnKeyEvent v layout shift).view (OnKeyEvent v layout shift).layout
            other).layout up).calls)) =
        [Call.UpdateTextDirection WebTextDirection.WebTextDirectionRightToLeft,
          Call.CancelUpdateTextDirection, Call.NotifyTextDirection] := by
      simp only [textDirectionCalls, List.filter_append] at c1 c3 c4 ⊢
      rw [c1, c3, c4]; rfl
    rw [e]
    exact RenderWidgetHost.sent_update_cancel_notify host _

/-- C14 (witness): on `sampleView`, Control and right Shift, then the letter A, then
the release of Shift. -/
theorem OnKeyEvent_text_direction_witness :
    idleHost.sent (OnKeyEvents sampleView RtlKeyboardLayout.RTL_KEYBOARD_LAYOUT_INSTALLED
        [shortcutEnv WM_KEYDOWN VK_SHIFT, shortcutEnv WM_KEYUP VK_SHIFT]).flatten =
        [WebTextDirection.WebTextDirectionRightToLeft] ∧
      idleHost.sent (OnKeyEvents sampleView RtlKeyboardLayout.RTL_KEYBOARD_LAYOUT_INSTALLED
        [shortcutEnv WM_KEYDOWN VK_SHIFT, shortcutEnv WM_KEYDOWN 0x41,
          shortcutEnv WM_KEYUP VK_SHIFT]).flatten = [] :=
  have h := OnKeyEvent_text_direction sampleView RtlKeyboardLayout.RTL_KEYBOARD_LAYOUT_INSTALLED
    idleHost (shortcutEnv WM_KEYDOWN VK_SHIFT) (shortcutEnv WM_KEYDOWN 0x41)
    (shortcutEnv WM_KEYUP VK_SHIFT) ctrlRightShift rfl rfl ⟨rfl, rfl, rfl⟩
    ⟨by decide, by decide, by
      intro i _ h1 h2 h3 h4 _
      simp [keyDown, ctrlRightShift, h1, h2, h3, h4]⟩
    ⟨rfl, by decide, by decide, by decide⟩ ⟨rfl, rfl⟩ rfl
  ⟨h.2.1, h.2.2.2⟩

/-- C14 (counterexample): on an auto-dismiss popup with a render widget host and
a right-to-left layout installed, the `WM_KEYDOWN` of Tab, a key other than
Shift and Control, makes no `CancelUpdateTextDirection` call. -/
theorem OnKeyEvent_tab_no_cancel_counterexample :
    popupView.render_widget_host_ = true ∧
      (IsRTLKeyboardLayoutInstalled RtlKeyboardLayout.RTL_KEYBOARD_LAYOUT_INSTALLED []).1 = true ∧
      VK_TAB ≠ VK_SHIFT ∧ VK_TAB ≠ VK_CONTROL ∧
      (OnKeyEvent popupView RtlKeyboardLayout.RTL_KEYBOARD_LAYOUT_INSTALLED
        (shortcutEnv WM_KEYDOWN VK_TAB)).calls =
        [Call.SendMessage 1 WM_CANCELMODE 0 0, Call.LostCapture,
          Call.SetWindowPos 1 kCancelModeFlags, Call.PostShutdownHost,
          Call.SendMessage 7 WM_KEYDOWN VK_TAB 1] ∧
      Call.CancelUpdateTextDirection ∉
        (OnKeyEvent popupView RtlKeyboardLayout.RTL_KEYBOARD_LAYOUT_INSTALLED
          (shortcutEnv WM_KEYDOWN VK_TAB)).calls := by
  decide

end RenderWidgetHostViewWin

/-! ## Pointer and wheel input -/

namespace RenderWidgetHostViewWin

/-- `TrackMouseLeave` forwards no input event and sends no message. -/
theorem TrackMouseLeave_calls (v : View) (track : Bool) :
    forwarded (TrackMouseLeave v track).2 = [] ∧
      (∀ h m w l, Call.SendMessage h m w l ∉ (TrackMouseLeave v track).2) := by
  unfold TrackMouseLeave
  by_cases h1 : track = v.track_mouse_leave_
  · simp [h1, forwarded]
  · by_cases h2 : v.m_hWnd = 0 <;> simp [h1, h2, forwarded, forwardsInput]

/-- `ForwardMouseEventToRenderer` without a render widget host does nothing. -/
theorem ForwardMouseEventToRenderer_null (v : View) (env : MouseEnv)
    (h : v.render_widget_host_ = false) : ForwardMouseEventToRenderer v env = (v, []) := by
  unfold ForwardMouseEventToRenderer
  simp [h]

/-- The calls of `ForwardMouseEventToRenderer` for a pointer-down. -/
theorem ForwardMouseEventToRenderer_down (v : View) (env : MouseEnv)
    (h : v.render_widget_host_ = true)
    (hd : mouseEventType env.message = WebInputEventType.MouseDown) :
    (ForwardMouseEventToRenderer v env).2 =
      [Call.ForwardMouseEvent env.message env.wparam env.lparam, Call.SetCapture v.m_hWnd] ++
        (if v.activatable_ then [Call.SetFocus v.m_hWnd] else []) := by
  unfold ForwardMouseEventToRenderer
  by_cases ha : v.activatable_ = true
  · simp [h, hd, ha]
  · have ha0 : v.activatable_ = false := by simpa using ha
    simp [h, hd, ha0]

/-- The calls of `ForwardMouseEventToRenderer` for a pointer-up. -/
theorem ForwardMouseEventToRenderer_up (v : View) (env : MouseEnv)
    (h : v.render_widget_host_ = true)
    (hu : mouseEventType env.message = WebInputEventType.MouseUp) :
    ForwardMouseEventToRenderer v env =
      (v, [Call.ForwardMouseEvent env.message env.wparam env.lparam] ++
        (if env.capture = v.m_hWnd then [Call.ReleaseCapture] else [])) := by
  unfold ForwardMouseEventToRenderer
  simp [h, hu]

/-- The input events `ForwardMouseEventToRenderer` forwards, and no message is
sent to a window on the way. -/
theorem ForwardMouseEventToRenderer_forwarded (v : View) (env : MouseEnv) :
    forwarded (ForwardMouseEventToRenderer v env).2 =
        (if v.render_widget_host_ then
          [Call.ForwardMouseEvent env.message env.wparam env.lparam] else []) ∧
      (∀ h m w l, Call.SendMessage h m w l ∉ (ForwardMouseEventToRenderer v env).2) := by
  by_cases hr : v.render_widget_host_ = true
  swap
  · have hr0 : v.render_widget_host_ = false := by simpa using hr
    rw [ForwardMouseEventToRenderer_null v env hr0, hr0]
    simp [forwarded]
  have t1 := TrackMouseLeave_calls v true
  have t2 := TrackMouseLeave_calls v false
  simp only [forwarded] at t1 t2
  unfold ForwardMouseEventToRenderer
  simp only [hr, Bool.not_true, Bool.false_eq_true, if_false, if_true, Bool.true_and]
  cases hm : mouseEventType env.message <;>
    by_cases ha : v.activatable_ = true <;>
    simp [ha, forwarded, forwardsInput, List.filter_append, t1.1, t2.1, t1.2, t2.2]

end RenderWidgetHostViewWin

namespace RenderWidgetHostViewWin

/-- C16 (amended): with a render widget host present,
`ForwardMouseEventToRenderer` takes the capture on a pointer-down (after it
forwarded the event), and on a pointer-up it releases the capture exactly when
`GetCapture()` is the view's window.  Without a render widget host it returns
at once: nothing is forwarded and the capture is neither taken nor released. -/
theorem ForwardMouseEventToRenderer_capture (v : View) (env : MouseEnv) :
    (v.render_widget_host_ = true →
        mouseEventType env.message = WebInputEventType.MouseDown →
        (ForwardMouseEventToRenderer v env).2 =
          [Call.ForwardMouseEvent env.message env.wparam env.lparam,
            Call.SetCapture v.m_hWnd] ++
          (if v.activatable_ then [Call.SetFocus v.m_hWnd] else [])) ∧
      (v.render_widget_host_ = true →
        mouseEventType env.message = WebInputEventType.MouseUp →
        (Call.ReleaseCapture ∈ (ForwardMouseEventToRenderer v env).2 ↔
          env.capture = v.m_hWnd)) ∧
      (v.render_widget_host_ = false → ForwardMouseEventToRenderer v env = (v, [])) := by
  refine ⟨ForwardMouseEventToRenderer_down v env, ?_, ForwardMouseEventToRenderer_null v env⟩
  intro h hu
  rw [ForwardMouseEventToRenderer_up v env h hu]
  by_cases hc : env.capture = v.m_hWnd <;> simp [hc]

/-- C16 (witness): on `sampleView` a left-button down takes the capture for
window `1`. -/
theorem ForwardMouseEventToRenderer_capture_witness :
    (ForwardMouseEventToRenderer sampleView (mouseEnv WM_LBUTTONDOWN)).2 =
      [Call.ForwardMouseEvent WM_LBUTTONDOWN 0 (pointAt 5 5), Call.SetCapture 1,
        Call.SetFocus 1] :=
  (ForwardMouseEventToRenderer_capture sampleView (mouseEnv WM_LBUTTONDOWN)).1 rfl rfl

/-- C16 (counterexample): the sample view takes the capture on a left-button
down; its render widget host is then destroyed; on the left-button up, with the
capture still held by the view's window, no call is made, so the capture is not
released. -/
theorem ForwardMouseEventToRenderer_widget_gone_counterexample :
    Call.SetCapture 1 ∈ (ForwardMouseEventToRenderer sampleView (mouseEnv WM_LBUTTONDOWN)).2 ∧
      (WillDestroyRenderWidget
        (ForwardMouseEventToRenderer sampleView (mouseEnv WM_LBUTTONDOWN)).1 true).m_hWnd = 1 ∧
      (ForwardMouseEventToRenderer
        (WillDestroyRenderWidget
          (ForwardMouseEventToRenderer sampleView (mouseEnv WM_LBUTTONDOWN)).1 true)
        { mouseEnv WM_LBUTTONUP with capture := 1 }).2 = [] ∧
      (OnMouseEvent
        (WillDestroyRenderWidget
          (ForwardMouseEventToRenderer sampleView (mouseEnv WM_LBUTTONDOWN)).1 true)
        { mouseEnv WM_LBUTTONUP with capture := 1 }).calls = [] := by
  decide

end RenderWidgetHostViewWin

namespace RenderWidgetHostViewWin

/-- The relay to the tooltip forwards no input event to the renderer and is
not a `SendMessage` to a window of the browser. -/
theorem tooltipRelay_calls (v : View) (env : MouseEnv) :
    forwarded (tooltipRelay v env) = [] ∧
      (∀ h m w l, Call.SendMessage h m w l ∉ tooltipRelay v env) := by
  unfold tooltipRelay
  split <;> simp [forwarded, forwardsInput]

/-- `OnMouseEvent` on an auto-dismiss popup. -/
theorem OnMouseEvent_popup (v : View) (env : MouseEnv) (hp : v.close_on_deactivate_ = true) :
    OnMouseEvent v env =
      { view := (ForwardMouseEventToRenderer v env).1,
        calls := tooltipRelay v env ++ (ForwardMouseEventToRenderer v env).2,
        result := 0 } := by
  unfold OnMouseEvent
  simp [hp]

/-- `OnMouseEvent` on a click on the resize corner that the root window takes. -/
theorem OnMouseEvent_corner (v : View) (env : MouseEnv) (hp : v.close_on_deactivate_ = false)
    (hc : onResizeCorner v env = true) (hr : env.root_result = 0) :
    OnMouseEvent v env =
      { view := v, calls := tooltipRelay v env ++ [resizeMessage env], result := 0 } := by
  unfold OnMouseEvent
  simp [hp, hc, hr]

/-- `OnMouseEvent` on a message that is offered to the parent, off an
auto-dismiss popup, when the root window does not take it as a resize. -/
theorem OnMouseEvent_offered (v : View) (env : MouseEnv) (hp : v.close_on_deactivate_ = false)
    (hc : ¬ (onResizeCorner v env = true ∧ env.root_result = 0))
    (ho : offeredToParent env.message = true) :
    OnMouseEvent v env =
      if env.parent_result ≠ 0 then
        { view := v,
          calls := tooltipRelay v env ++ (if onResizeCorner v env then [resizeMessage env] else [])
            ++ [parentMessage v env],
          result := 1 }
      else
        { view := (ForwardMouseEventToRenderer v env).1,
          calls := tooltipRelay v env ++ (if onResizeCorner v env then [resizeMessage env] else [])
            ++ [parentMessage v env] ++
            (if env.message = WM_LBUTTONDOWN then [Call.CleanupComposition] else []) ++
            (ForwardMouseEventToRenderer v env).2,
          result := 0 } := by
  unfold OnMouseEvent
  have hc2 : (onResizeCorner v env && env.root_result == 0) = false := by
    by_cases h1 : onResizeCorner v env = true
    · have : env.root_result ≠ 0 := fun h => hc ⟨h1, h⟩
      simp [h1, this]
    · simp [h1]
  by_cases hpr : env.parent_result = 0
  · simp [hp, hc2, ho, hpr]
  · simp [hp, hc2, ho, hpr]

end RenderWidgetHostViewWin

namespace RenderWidgetHostViewWin

/-- C17 (amended): a button-down (left, middle or right) on a view
that is not an auto-dismiss popup, unless the root window takes it as a resize,
is first sent to the parent window, before anything is forwarded, and it is
forwarded to the renderer exactly when the parent answers `0` and a render
widget host is present.  On an auto-dismiss popup no message is sent to the
parent and the event is forwarded whenever a render widget host is present. -/
theorem OnMouseEvent_parent_first (v : View) (env : MouseEnv)
    (hdown : env.message = WM_LBUTTONDOWN ∨ env.message = WM_MBUTTONDOWN ∨
      env.message = WM_RBUTTONDOWN) :
    (v.close_on_deactivate_ = false →
        ¬ (onResizeCorner v env = true ∧ env.root_result = 0) →
        (∃ pre post, (OnMouseEvent v env).calls = pre ++ parentMessage v env :: post ∧
          forwarded pre = []) ∧
        forwarded (OnMouseEvent v env).calls =
          if env.parent_result = 0 ∧ v.render_widget_host_ = true then
            [Call.ForwardMouseEvent env.message env.wparam env.lparam]
          else []) ∧
      (v.close_on_deactivate_ = true →
        (∀ h m w l, Call.SendMessage h m w l ∉ (OnMouseEvent v env).calls) ∧
        forwarded (OnMouseEvent v env).calls =
          if v.render_widget_host_ = true then
            [Call.ForwardMouseEvent env.message env.wparam env.lparam]
          else []) := by
  have ho : offeredToParent env.message = true := by
    unfold offeredToParent
    rcases hdown with h | h | h <;> rw [h] <;> decide
  have hrel := tooltipRelay_calls v env
  have hfw := ForwardMouseEventToRenderer_forwarded v env
  have hroot : forwarded (if onResizeCorner v env then [resizeMessage env] else []) = [] := by
    split <;> simp [forwarded, forwardsInput, resizeMessage]
  have hime : forwarded (if env.message = WM_LBUTTONDOWN then [Call.CleanupComposition]
      else []) = [] := by
    split <;> simp [forwarded, forwardsInput]
  simp only [forwarded] at hrel hfw hroot hime
  refine ⟨?_, ?_⟩
  · intro hp hc
    rw [OnMouseEvent_offered v env hp hc ho]
    by_cases hpr : env.parent_result = 0
    · rw [if_neg (not_not.mpr hpr)]
      refine ⟨⟨tooltipRelay v env ++ (if onResizeCorner v env then [resizeMessage env] else []),
        (if env.message = WM_LBUTTONDOWN then [Call.CleanupComposition] else []) ++
          (ForwardMouseEventToRenderer v env).2, by simp, ?_⟩, ?_⟩
      · simp only [forwarded, List.filter_append, hrel.1, hroot]; rfl
      · simp only [forwarded, List.filter_append, hrel.1, hroot, hime, hfw.1]
        by_cases hr : v.render_widget_host_ = true <;> simp [hr, hpr, parentMessage, forwardsInput]
    · rw [if_pos hpr]
      refine ⟨⟨tooltipRelay v env ++ (if onResizeCorner v env then [resizeMessage env] else []),
        [], by simp, ?_⟩, ?_⟩
      · simp only [forwarded, List.filter_append, hrel.1, hroot]; rfl
      · simp only [forwarded, List.filter_append, hrel.1, hroot]
        simp [hpr, parentMessage, forwardsInput]
  · intro hp
    rw [OnMouseEvent_popup v env hp]
    refine ⟨?_, ?_⟩
    · intro h m w l hmem
      rcases List.mem_append.mp hmem with h1 | h1
      · exact hrel.2 h m w l h1
      · exact hfw.2 h m w l h1
    · simp only [forwarded, List.filter_append, hrel.1, hfw.1]
      by_cases hr : v.render_widget_host_ = true <;> simp [hr]

/-- C17 (witness): on `sampleView` a right-button down goes to the parent `7` first
and is then forwarded. -/
theorem OnMouseEvent_parent_first_witness :
    (∃ pre post, (OnMouseEvent sampleView (mouseEnv WM_RBUTTONDOWN)).calls =
        pre ++ parentMessage sampleView (mouseEnv WM_RBUTTONDOWN) :: post ∧
        forwarded pre = []) ∧
      forwarded (OnMouseEvent sampleView (mouseEnv WM_RBUTTONDOWN)).calls =
        if (mouseEnv WM_RBUTTONDOWN).parent_result = 0 ∧ sampleView.render_widget_host_ = true
        then [Call.ForwardMouseEvent (mouseEnv WM_RBUTTONDOWN).message
          (mouseEnv WM_RBUTTONDOWN).wparam (mouseEnv WM_RBUTTONDOWN).lparam]
        else [] :=
  (OnMouseEvent_parent_first sampleView (mouseEnv WM_RBUTTONDOWN) (Or.inr (Or.inr rfl))).1 rfl
    (by decide)

/-- C17 (counterexample): on the sample auto-dismiss popup a left-button down
that the parent would handle (it would answer `1`) is not sent to the parent
and is forwarded to the renderer. -/
theorem OnMouseEvent_popup_counterexample :
    popupView.close_on_deactivate_ = true ∧
      (OnMouseEvent popupView { mouseEnv WM_LBUTTONDOWN with parent_result := 1 }).calls =
        [Call.ForwardMouseEvent WM_LBUTTONDOWN 0 (pointAt 5 5), Call.SetCapture 1,
          Call.SetFocus 1] ∧
      parentMessage popupView { mouseEnv WM_LBUTTONDOWN with parent_result := 1 } ∉
        (OnMouseEvent popupView { mouseEnv WM_LBUTTONDOWN with parent_result := 1 }).calls := by
  decide

/-- C18 (amended): a left-button down inside the resizer rectangle,
on a view that is not an auto-dismiss popup and has a render widget host, is
sent to the root window as `WM_NCLBUTTONDOWN` with `HTBOTTOMLEFT` under a
right-to-left UI and `HTBOTTOMRIGHT` otherwise; when the root window answers
`0` nothing else follows: the parent is not offered the event and nothing is
forwarded to the renderer. -/
theorem OnMouseEvent_resize_corner (v : View) (env : MouseEnv)
    (hp : v.close_on_deactivate_ = false) (hrwh : v.render_widget_host_ = true)
    (hmsg : env.message = WM_LBUTTONDOWN)
    (hin : env.resizer_rect.Contains (GET_X_LPARAM env.lparam) (GET_Y_LPARAM env.lparam)) :
    Call.SendMessage env.root_hwnd WM_NCLBUTTONDOWN
        (if env.rtl_ui then HTBOTTOMLEFT else HTBOTTOMRIGHT) env.lparam ∈
        (OnMouseEvent v env).calls ∧
      (env.root_result = 0 →
        (OnMouseEvent v env).calls = tooltipRelay v env ++
          [Call.SendMessage env.root_hwnd WM_NCLBUTTONDOWN
            (if env.rtl_ui then HTBOTTOMLEFT else HTBOTTOMRIGHT) env.lparam] ∧
        forwarded (OnMouseEvent v env).calls = [] ∧
        (OnMouseEvent v env).view = v ∧ (OnMouseEvent v env).result = 0) := by
  have hc : onResizeCorner v env = true := by
    unfold onResizeCorner
    simp [hmsg, hrwh, hin]
  have hrel := tooltipRelay_calls v env
  simp only [forwarded] at hrel
  by_cases hr : env.root_result = 0
  · rw [OnMouseEvent_corner v env hp hc hr]
    refine ⟨by simp [resizeMessage], fun _ => ⟨rfl, ?_, rfl, rfl⟩⟩
    simp only [forwarded, List.filter_append, hrel.1]
    simp [resizeMessage, forwardsInput]
  · refine ⟨?_, fun h => absurd h hr⟩
    have ho : offeredToParent env.message = true := by rw [hmsg]; decide
    rw [OnMouseEvent_offered v env hp (fun h => hr h.2) ho]
    split <;> simp [hc, resizeMessage]

/-- C18 (witness): on `sampleView` a left-button down on the corner goes to the root
window `8` as a bottom-right resize and nowhere else. -/
theorem OnMouseEvent_resize_corner_witness :
    (OnMouseEvent sampleView (cornerEnv WM_LBUTTONDOWN)).calls =
      [Call.SendMessage 8 WM_NCLBUTTONDOWN HTBOTTOMRIGHT (pointAt 95 95)] :=
  ((OnMouseEvent_resize_corner sampleView (cornerEnv WM_LBUTTONDOWN) rfl rfl rfl
    (by decide)).2 rfl).1.trans (by decide)

/-- C18 (counterexample): on the sample view a right-button down inside the
resizer rectangle is not sent to the root window; it is offered to the parent
and forwarded to the renderer. -/
theorem OnMouseEvent_right_button_corner_counterexample :
    (cornerEnv WM_RBUTTONDOWN).resizer_rect.Contains
        (GET_X_LPARAM (cornerEnv WM_RBUTTONDOWN).lparam)
        (GET_Y_LPARAM (cornerEnv WM_RBUTTONDOWN).lparam) ∧
      (OnMouseEvent sampleView (cornerEnv WM_RBUTTONDOWN)).calls =
        [Call.SendMessage 7 WM_RBUTTONDOWN 0 (pointAt 95 95),
          Call.ForwardMouseEvent WM_RBUTTONDOWN 0 (pointAt 95 95), Call.SetCapture 1,
          Call.SetFocus 1] := by
  decide

end RenderWidgetHostViewWin

namespace RenderWidgetHostViewWin

/-- The dismissal of owned popups forwards no input event. -/
theorem dismissOwnedPopups_forwarded (v : View) (env : WheelEnv) :
    forwarded (dismissOwnedPopups v env) = [] := by
  unfold dismissOwnedPopups
  split
  · induction env.thread_windows with
    | nil => rfl
    | cons w ws ih =>
      simp only [forwarded, List.map_cons, List.flatten_cons, List.filter_append] at ih ⊢
      rw [ih]
      unfold DismissOwnedPopups
      split
      · split <;> simp [forwardsInput]
      · simp
  · rfl

/-- C19: for every wheel message, when it is `WM_MOUSEWHEEL` and
`views::RerouteMouseWheel` reroutes it to the window under the pointer,
`OnWheelEvent` does nothing else and forwards nothing.  Otherwise, after the
dismissal of owned popups, a view with a parent window sends it the reflected
message before any forwarding, and the event is forwarded to the renderer
exactly when the parent did not handle it (there is no parent, or it answers
`0`) and a render widget host is present. -/
theorem OnWheelEvent_reroute_or_offer (v : View) (env : WheelEnv) :
    (env.message = WM_MOUSEWHEEL ∧ env.reroute = true →
        (OnWheelEvent v env).calls = [Call.RerouteMouseWheel v.m_hWnd env.wparam env.lparam] ∧
        forwarded (OnWheelEvent v env).calls = []) ∧
      (¬ (env.message = WM_MOUSEWHEEL ∧ env.reroute = true) →
        (OnWheelEvent v env).calls =
          dismissOwnedPopups v env ++
          (if v.os.GetParent v.m_hWnd ≠ 0 then
            [Call.ReflectedMessage (v.os.GetParent v.m_hWnd) env.message env.wparam env.lparam]
          else []) ++
          (if (v.os.GetParent v.m_hWnd = 0 ∨ env.reflected_result = 0) ∧
              v.render_widget_host_ = true then
            [Call.ForwardWheelEvent env.message env.wparam env.lparam]
          else []) ∧
        forwarded (dismissOwnedPopups v env) = [] ∧
        (forwarded (OnWheelEvent v env).calls =
          if (v.os.GetParent v.m_hWnd = 0 ∨ env.reflected_result = 0) ∧
              v.render_widget_host_ = true then
            [Call.ForwardWheelEvent env.message env.wparam env.lparam]
          else [])) := by
  have hd := dismissOwnedPopups_forwarded v env
  refine ⟨?_, ?_⟩
  · rintro ⟨hm, hr⟩
    unfold OnWheelEvent
    simp [hm, hr, forwarded, forwardsInput]
  · intro hn
    have hc : (env.message == WM_MOUSEWHEEL && env.reroute) = false := by
      by_cases hm : env.message = WM_MOUSEWHEEL
      · have : env.reroute = false := by
          by_cases hr : env.reroute = true
          · exact absurd ⟨hm, hr⟩ hn
          · simpa using hr
        simp [hm, this]
      · simp [hm]
    have e : (OnWheelEvent v env).calls =
        dismissOwnedPopups v env ++
        (if v.os.GetParent v.m_hWnd ≠ 0 then
          [Call.ReflectedMessage (v.os.GetParent v.m_hWnd) env.message env.wparam env.lparam]
        else []) ++
        (if (v.os.GetParent v.m_hWnd = 0 ∨ env.reflected_result = 0) ∧
            v.render_widget_host_ = true then
          [Call.ForwardWheelEvent env.message env.wparam env.lparam]
        else []) := by
      unfold OnWheelEvent
      rw [hc]
      by_cases hp : v.os.GetParent v.m_hWnd = 0 <;>
        by_cases hr : env.reflected_result = 0 <;>
        by_cases hh : v.render_widget_host_ = true <;>
        simp [hp, hr, hh]
    refine ⟨e, hd, ?_⟩
    rw [e]
    simp only [forwarded] at hd
    simp only [forwarded, List.filter_append, hd]
    by_cases hp : v.os.GetParent v.m_hWnd = 0 <;>
      by_cases hr : env.reflected_result = 0 <;>
      by_cases hh : v.render_widget_host_ = true <;>
      simp [hp, hr, hh, forwardsInput]

/-- C19 (witness): on `sampleView` a wheel message the parent `7` leaves alone is
reflected to it and then forwarded. -/
theorem OnWheelEvent_reroute_or_offer_witness :
    (OnWheelEvent sampleView (wheelEnv WM_MOUSEWHEEL)).calls =
      [Call.ReflectedMessage 7 WM_MOUSEWHEEL 120 (pointAt 5 5),
        Call.ForwardWheelEvent WM_MOUSEWHEEL 120 (pointAt 5 5)] :=
  ((OnWheelEvent_reroute_or_offer sampleView (wheelEnv WM_MOUSEWHEEL)).2 (by decide)).1.trans
    (by decide)

/-- C20 (amended): each of `OnMouseEvent`, `OnKeyEvent` and
`OnWheelEvent`, for every message and every view, forwards at most one input
event to the renderer.  The other calls of one callback are not limited to
one. -/
theorem input_callbacks_forward_at_most_one (v : View) (layout : RtlKeyboardLayout)
    (mouse : MouseEnv) (key : KeyEnv) (wheel : WheelEnv) :
    (forwarded (OnMouseEvent v mouse).calls).length ≤ 1 ∧
      (forwarded (OnKeyEvent v layout key).calls).length ≤ 1 ∧
      (forwarded (OnWheelEvent v wheel).calls).length ≤ 1 := by
  refine ⟨?_, ?_, ?_⟩
  · have hrel := tooltipRelay_calls v mouse
    have hfw := ForwardMouseEventToRenderer_forwarded v mouse
    simp only [forwarded] at hrel hfw
    unfold OnMouseEvent
    simp only [forwarded]
    by_cases hp : v.close_on_deactivate_ = true
    · simp only [hp, Bool.not_true, Bool.false_eq_true, if_false, List.filter_append, hrel.1,
        hfw.1]
      split <;> simp
    · have hp0 : v.close_on_deactivate_ = false := by simpa using hp
      simp only [hp0, Bool.not_false, if_true]
      split
      · simp only [List.filter_append, hrel.1]
        split <;> simp [resizeMessage, forwardsInput]
      · split
        · simp only [List.filter_append, hrel.1]
          split <;> split <;> simp [resizeMessage, parentMessage, forwardsInput]
        · simp only [List.filter_append, hrel.1, hfw.1]
          split <;> split <;> split <;> split <;>
            simp [resizeMessage, parentMessage, forwardsInput]
  · by_cases htab : (v.close_on_deactivate_ && isTabMessage key.message key.wparam) = true
    · have hc := (OnCancelMode_forwarded v).1
      simp only [forwarded] at hc
      unfold OnKeyEvent
      simp only [htab, if_true, forwarded, List.filter_append, hc]
      split <;> simp [forwardsInput]
    · have htab0 : (v.close_on_deactivate_ && isTabMessage key.message key.wparam) = false := by
        simpa using htab
      by_cases hr : v.render_widget_host_ = true
      · rw [OnKeyEvent_plain_forwarded v layout key htab0 hr]
        split <;> simp
      · have hr0 : v.render_widget_host_ = false := by simpa using hr
        unfold OnKeyEvent
        rw [htab0]
        simp [hr0, forwarded]
  · have hd := dismissOwnedPopups_forwarded v wheel
    simp only [forwarded] at hd
    unfold OnWheelEvent
    split
    · simp [forwarded, forwardsInput]
    · simp only [forwarded, List.filter_append, hd]
      split <;> split <;> simp [forwardsInput]

/-- C20 (counterexample): one left-button down on the sample view forwards the
event and does four things on the view's own side: it sends the message to the
parent, cleans up the composition, takes the capture and takes the focus. -/
theorem OnMouseEvent_local_effects_counterexample :
    (OnMouseEvent sampleView (mouseEnv WM_LBUTTONDOWN)).calls =
        [Call.SendMessage 7 WM_LBUTTONDOWN 0 (pointAt 5 5), Call.CleanupComposition,
          Call.ForwardMouseEvent WM_LBUTTONDOWN 0 (pointAt 5 5), Call.SetCapture 1,
          Call.SetFocus 1] ∧
      localEffects (OnMouseEvent sampleView (mouseEnv WM_LBUTTONDOWN)).calls =
        [Call.SendMessage 7 WM_LBUTTONDOWN 0 (pointAt 5 5), Call.CleanupComposition,
          Call.SetCapture 1, Call.SetFocus 1] ∧
      1 < (localEffects (OnMouseEvent sampleView (mouseEnv WM_LBUTTONDOWN)).calls).length := by
  decide

end RenderWidgetHostViewWin

/-! ## The remainder rectangles of OnPaint -/

namespace RenderWidgetHostViewWin

/-- The strip below the backing store is well-formed. -/
theorem bottomStrip_wellFormed (bitmap_rect damaged_rect : gfx.Rect) (r : RECT)
    (h : bottomStrip bitmap_rect damaged_rect = some r) :
    r.left ≤ r.right ∧ r.top ≤ r.bottom := by
  unfold bottomStrip at h
  split at h
  · rename_i hb
    injection h with h
    subst h
    simp only [gfx.Rect.right, gfx.Rect.bottom] at hb ⊢
    refine ⟨by omega, ?_⟩
    rcases max_cases (bitmap_rect.y + (bitmap_rect.height : Int)) damaged_rect.y with
      ⟨h1, _⟩ | ⟨h1, _⟩ <;> rw [h1] <;> omega
  · cases h

/-- The strip right of the backing store has its left edge at or before its
right edge, and its top edge at or above its bottom edge exactly when the
damaged rectangle starts at or above the bottom of the backing store. -/
theorem rightStrip_wellFormed_iff (bitmap_rect damaged_rect : gfx.Rect) (r : RECT)
    (h : rightStrip bitmap_rect damaged_rect = some r) :
    r.left ≤ r.right ∧ (r.top ≤ r.bottom ↔ damaged_rect.y ≤ bitmap_rect.bottom) := by
  unfold rightStrip at h
  split at h
  · rename_i hb
    injection h with h
    subst h
    simp only [gfx.Rect.right, gfx.Rect.bottom] at hb ⊢
    refine ⟨?_, ?_⟩
    · rcases max_cases (bitmap_rect.x + (bitmap_rect.width : Int)) damaged_rect.x with
        ⟨h1, _⟩ | ⟨h1, _⟩ <;> rw [h1] <;> omega
    · rcases min_cases (bitmap_rect.y + (bitmap_rect.height : Int))
          (damaged_rect.y + (damaged_rect.height : Int)) with ⟨h1, _⟩ | ⟨h1, _⟩
      · rw [h1]
      · rw [h1]; constructor <;> intro _ <;> omega
  · cases h

/-- C29 (failing input): `damagedBelowView` painted from a 100 x 100 backing
store over `(50, 150, 150, 200)`.  `OnPaint` passes two rectangles to
`DrawBackground`; the first, the strip right of the backing store, has its top
edge `150` below its bottom edge `100`. -/
theorem OnPaint_right_strip_inverted :
    backgroundFills (OnPaint damagedBelowView belowEnv).2 =
        [{ left := 100, top := 150, right := 150, bottom := 100 },
          { left := 50, top := 150, right := 150, bottom := 200 }] ∧
      ∃ r ∈ backgroundFills (OnPaint damagedBelowView belowEnv).2, r.bottom < r.top := by
  refine ⟨by decide, { left := 100, top := 150, right := 150, bottom := 100 }, by decide,
    by decide⟩

end RenderWidgetHostViewWin

/-! ## CleanUpDuplicates -/

/-- The string at the index after a prefix of strings. -/
theorem ListValue.GetString_append (p : List String) (x : String) (rest : ListValue) :
    ListValue.GetString (p.map Value.string ++ Value.string x :: rest) p.length = some x := by
  unfold ListValue.GetString
  have h : (p.map Value.string ++ Value.string x :: rest).get? p.length =
      some (Value.string x) := by
    rw [List.get?_eq_getElem?, List.getElem?_append_right (by simp)]
    simp
  rw [h]
  rfl

/-- Removing the item after a prefix of strings. -/
theorem ListValue.Remove_append (p : List String) (x : String) (rest : ListValue) :
    ListValue.Remove (p.map Value.string ++ Value.string x :: rest) p.length =
      p.map Value.string ++ rest := by
  unfold ListValue.Remove
  rw [List.eraseIdx_append_of_length_le (by simp)]
  simp

/-- The loop of `CleanUpDuplicates` over a prefix still to visit, with the
suffix behind it already cleaned up. -/
theorem cleanUpLoop_prefix (modulus : Nat) (pre : List String) :
    ∀ (suffix seen_values : List String) (fuel notreached : Nat),
      pre.length < modulus → pre.length + 1 ≤ fuel →
      (∀ s, s ∈ seen_values ↔ s ∈ suffix) →
      cleanUpLoop modulus fuel ((pre.length + modulus - 1) % modulus) seen_values
          (pre.map Value.string ++ suffix.dedup.map Value.string) notreached =
        some ((pre ++ suffix).dedup.map Value.string, notreached) := by
  induction pre using List.reverseRecOn with
  | nil =>
    intro suffix seen_values fuel notreached hm hf _
    obtain ⟨f, rfl⟩ : ∃ f, fuel = f + 1 := ⟨fuel - 1, by simp at hf; omega⟩
    have hi : ((([] : List String).length + modulus - 1) % modulus + 1) % modulus = 0 := by
      simp only [List.length_nil, Nat.zero_add]
      simp only [List.length_nil] at hm
      have h1 : (modulus - 1) % modulus = modulus - 1 := Nat.mod_eq_of_lt (by omega)
      rw [h1, Nat.sub_add_cancel hm, Nat.mod_self]
    simp only [cleanUpLoop, hi, gt_iff_lt, Nat.lt_irrefl, if_false, List.map_nil,
      List.nil_append]
  | append_singleton p x ih =>
    intro suffix seen_values fuel notreached hm hf hseen
    simp only [List.length_append, List.length_singleton] at hm hf
    obtain ⟨f, rfl⟩ : ∃ f, fuel = f + 1 := ⟨fuel - 1, by omega⟩
    have hidx : ((p ++ [x]).length + modulus - 1) % modulus = p.length := by
      simp only [List.length_append, List.length_singleton]
      have : p.length + 1 + modulus - 1 = p.length + modulus := by omega
      rw [this, Nat.add_mod_right, Nat.mod_eq_of_lt (by omega)]
    have hcond : (p.length + 1) % modulus > 0 := by
      rw [Nat.mod_eq_of_lt hm]; omega
    have hlist : (p ++ [x]).map Value.string ++ suffix.dedup.map Value.string =
        p.map Value.string ++ Value.string x :: suffix.dedup.map Value.string := by
      simp
    rw [hidx, hlist]
    simp only [cleanUpLoop, hcond, if_true, ListValue.GetString_append]
    by_cases hx : x ∈ seen_values
    · have hxs : x ∈ suffix := (hseen x).mp hx
      simp only [hx, if_true, ListValue.Remove_append]
      have h := ih (x :: suffix) seen_values f notreached (by omega) (by omega) (by
        intro s
        constructor
        · intro hs; exact List.mem_cons_of_mem _ ((hseen s).mp hs)
        · intro hs
          rcases List.mem_cons.mp hs with h1 | h1
          · rw [h1]; exact hx
          · exact (hseen s).mpr h1)
      rw [List.dedup_cons_of_mem hxs] at h
      rw [h]
      simp
    · have hxs : x ∉ suffix := fun h => hx ((hseen x).mpr h)
      simp only [hx, if_false]
      have h := ih (x :: suffix) (x :: seen_values) f notreached (by omega) (by omega) (by
        intro s
        simp only [List.mem_cons, hseen s])
      rw [List.dedup_cons_of_not_mem hxs] at h
      simp only [List.map_cons] at h
      rw [h]
      simp

/-- The kept occurrence of a value is its last one: when `x` does not occur
after a position, the clean list ends with `x` followed by the clean rest. -/
theorem dedup_last_occurrence (a : List String) (x : String) (b : List String)
    (hx : x ∉ b) : ∃ a1, (a ++ x :: b).dedup = a1 ++ x :: b.dedup ∧ a1.Sublist a := by
  induction a with
  | nil => exact ⟨[], by simp [List.dedup_cons_of_not_mem hx], List.Sublist.refl _⟩
  | cons y ys ih =>
    obtain ⟨a1, h1, h2⟩ := ih
    by_cases hy : y ∈ ys ++ x :: b
    · refine ⟨a1, ?_, h2.trans (List.sublist_cons_self _ _)⟩
      rw [List.cons_append, List.dedup_cons_of_mem hy, h1]
    · refine ⟨y :: a1, ?_, h2.cons₂ _⟩
      rw [List.cons_append, List.dedup_cons_of_not_mem hy, h1]
      rfl

/-- C30: `CleanUpDuplicates` de-dupes a list of strings.  For every list of
strings shorter than the number of values of `size_t`, and enough fuel, the
loop ends without a `NOTREACHED()` and leaves the list `dedup` of Mathlib, which
keeps the last occurrence of each value: the result contains no value twice,
contains exactly the values of the input, is a sublist of the input (the kept
items stay in their order), keeps of each value the occurrence that no equal
value follows, and is the empty list for the empty list. -/
theorem CleanUpDuplicates_dedup (modulus fuel : Nat) (strings : List String)
    (hm : strings.length < modulus) (hf : strings.length + 1 ≤ fuel) :
    CleanUpDuplicates modulus fuel (strings.map Value.string) =
        some (strings.dedup.map Value.string, 0) ∧
      strings.dedup.Nodup ∧
      (∀ s, s ∈ strings.dedup ↔ s ∈ strings) ∧
      strings.dedup.Sublist strings ∧
      (∀ a x b, strings = a ++ x :: b → x ∉ b →
        ∃ a1, strings.dedup = a1 ++ x :: b.dedup ∧ a1.Sublist a) ∧
      CleanUpDuplicates modulus fuel [] = some ([], 0) := by
  have hloop := cleanUpLoop_prefix modulus strings [] [] fuel 0 hm hf (by simp)
  simp only [List.dedup_nil, List.map_nil, List.append_nil] at hloop
  have hempty := cleanUpLoop_prefix modulus [] [] [] fuel 0 (by simp; omega)
    (by simp; omega) (by simp)
  simp only [List.dedup_nil, List.map_nil, List.append_nil, List.length_nil] at hempty
  refine ⟨?_, List.nodup_dedup _, fun s => List.mem_dedup, List.dedup_sublist _, ?_, ?_⟩
  · unfold CleanUpDuplicates
    rw [List.length_map, Nat.mod_eq_of_lt hm]
    exact hloop
  · intro a x b hs hx
    rw [hs]
    exact dedup_last_occurrence a x b hx
  · unfold CleanUpDuplicates
    simp only [List.length_nil, Nat.zero_mod]
    exact hempty

/-- C30 (witness): the list `b, a, b, c, a` with a 32-bit `size_t`; the kept
items are the last `b`, `c` and the last `a`. -/
theorem CleanUpDuplicates_dedup_witness :
    CleanUpDuplicates (2 ^ 32) 6 (["b", "a", "b", "c", "a"].map Value.string) =
      some (["b", "c", "a"].map Value.string, 0) :=
  (CleanUpDuplicates_dedup (2 ^ 32) 6 ["b", "a", "b", "c", "a"] (by decide) (by decide)).1.trans
    (by decide)

/-! ## The tooltip text -/

namespace RenderWidgetHostViewWin

/-- `SetTooltipText` changes no member but `tooltip_text_`. -/
theorem SetTooltipText_view (v : View) (TruncateString : String → Nat → String)
    (tooltip_text : String) :
    (SetTooltipText v TruncateString tooltip_text).1 =
      { v with tooltip_text_ := TruncateString tooltip_text kMaxTooltipLength } := by
  unfold SetTooltipText
  by_cases h : TruncateString tooltip_text kMaxTooltipLength = v.tooltip_text_
  · simp only [h, ne_eq, not_true_eq_false, if_false]
  · simp only [h, ne_eq, not_false_eq_true, if_true]

/-- C24: `SetTooltipText` never changes `tooltip_showing_`, for every text and
every view, also when it is called twice; `OnNotify` sets the flag to false on
`TTN_POP` and to true on `TTN_SHOW` when there is a tooltip window, and leaves
it alone otherwise; and the other methods around the tooltip and the window
(`EnsureTooltip`, `ResetTooltip`, `DidBecomeSelected`, `WasHidden`, `Hide`,
`OnCancelMode`, `OnActivate`, `Destroy`, `RenderViewGone`) leave it alone. -/
theorem SetTooltipText_keeps_showing (v : View) (TruncateString : String → Nat → String)
    (first second : String) (code action : Nat) (now : TimeTicks) :
    (SetTooltipText v TruncateString first).1.tooltip_showing_ = v.tooltip_showing_ ∧
      (SetTooltipText (SetTooltipText v TruncateString first).1 TruncateString
        second).1.tooltip_showing_ = v.tooltip_showing_ ∧
      (OnNotify v code).1.tooltip_showing_ =
        (if v.tooltip_hwnd_ ≠ 0 ∧ code = TTN_POP then false
         else if v.tooltip_hwnd_ ≠ 0 ∧ code = TTN_SHOW then true
         else v.tooltip_showing_) ∧
      (EnsureTooltip v).1.tooltip_showing_ = v.tooltip_showing_ ∧
      (ResetTooltip v).1.tooltip_showing_ = v.tooltip_showing_ ∧
      (DidBecomeSelected v now).1.tooltip_showing_ = v.tooltip_showing_ ∧
      (WasHidden v).1.tooltip_showing_ = v.tooltip_showing_ ∧
      (Hide v).1.tooltip_showing_ = v.tooltip_showing_ ∧
      (OnCancelMode v).1.tooltip_showing_ = v.tooltip_showing_ ∧
      (OnActivate v action).1.tooltip_showing_ = v.tooltip_showing_ ∧
      (Destroy v).1.tooltip_showing_ = v.tooltip_showing_ ∧
      (RenderViewGone v).1.tooltip_showing_ = v.tooltip_showing_ := by
  have hcancel : ∀ w : View, (OnCancelMode w).1.tooltip_showing_ = w.tooltip_showing_ := by
    intro w
    unfold OnCancelMode
    by_cases hc : (w.close_on_deactivate_ && w.shutdown_factory_ == 0) = true <;> simp [hc]
  have hensure : ∀ w : View, (EnsureTooltip w).1.tooltip_showing_ = w.tooltip_showing_ := by
    intro w
    unfold EnsureTooltip
    split <;> rfl
  have hreset : ∀ w : View, (ResetTooltip w).1.tooltip_showing_ = w.tooltip_showing_ := by
    intro w
    unfold ResetTooltip
    split <;> rfl
  have hhidden : ∀ w : View, (WasHidden w).1.tooltip_showing_ = w.tooltip_showing_ := by
    intro w
    unfold WasHidden
    split
    · rfl
    · exact hreset _
  refine ⟨?_, ?_, ?_, hensure v, hreset v, ?_, hhidden v, ?_, hcancel v, ?_, rfl, rfl⟩
  · rw [SetTooltipText_view]
  · rw [SetTooltipText_view, SetTooltipText_view]
  · have e1 : TTN_GETDISPINFO ≠ TTN_POP := by decide
    have e2 : TTN_GETDISPINFO ≠ TTN_SHOW := by decide
    have e3 : TTN_POP ≠ TTN_SHOW := by decide
    unfold OnNotify
    by_cases h0 : v.tooltip_hwnd_ = 0
    · simp [h0]
    · by_cases h1 : code = TTN_GETDISPINFO
      · subst h1
        simp [h0, e1, e2]
      · by_cases h2 : code = TTN_POP
        · subst h2
          simp [h0, e1.symm]
        · by_cases h3 : code = TTN_SHOW
          · subst h3
            simp [h0, e2.symm, e3.symm]
          · simp [h0, h1, h2, h3]
  · unfold DidBecomeSelected
    split
    · rfl
    · simp only
      rw [hensure]
      split <;> rfl
  · unfold Hide
    split
    · rfl
    · simp only
      rw [hhidden]
      rfl
  · unfold OnActivate
    split
    · exact hcancel v
    · rfl

/-- C25: with a tooltip window present, `SetTooltipText` sends it `TTM_POP`
followed by `TTM_POPUP` when the truncated text differs from `tooltip_text_`
and the tooltip is showing; one `TTM_POP` when the text is the same and the
tooltip is not showing; and nothing in the two other cases.  `tooltip_text_`
becomes the truncated text. -/
theorem SetTooltipText_messages (v : View) (TruncateString : String → Nat → String)
    (tooltip_text : String) (htip : v.os.IsWindow v.tooltip_hwnd_ = true) :
    (SetTooltipText v TruncateString tooltip_text).2 =
        (if TruncateString tooltip_text kMaxTooltipLength ≠ v.tooltip_text_ ∧
            v.tooltip_showing_ = true then
          [Call.SendMessage v.tooltip_hwnd_ TTM_POP 0 0,
            Call.SendMessage v.tooltip_hwnd_ TTM_POPUP 0 0]
        else if TruncateString tooltip_text kMaxTooltipLength = v.tooltip_text_ ∧
            v.tooltip_showing_ = false then
          [Call.SendMessage v.tooltip_hwnd_ TTM_POP 0 0]
        else []) ∧
      (SetTooltipText v TruncateString tooltip_text).1.tooltip_text_ =
        TruncateString tooltip_text kMaxTooltipLength := by
  refine ⟨?_, by rw [SetTooltipText_view]⟩
  unfold SetTooltipText
  by_cases h : TruncateString tooltip_text kMaxTooltipLength = v.tooltip_text_ <;>
    by_cases hs : v.tooltip_showing_ = true <;>
    simp [h, hs, htip]

/-- C25 (witness): on `tooltipView`, which shows the text `A`, the text `B`
hides and shows the tooltip `10` again. -/
theorem SetTooltipText_messages_witness :
    (SetTooltipText tooltipView keepShort "B").2 =
      [Call.SendMessage 10 TTM_POP 0 0, Call.SendMessage 10 TTM_POPUP 0 0] :=
  (SetTooltipText_messages tooltipView keepShort "B" (by decide)).1.trans (by decide)

end RenderWidgetHostViewWin

/-! ## Cancel mode and teardown -/

namespace RenderWidgetHostViewWin

/-- `OnCancelMode` off an auto-dismiss popup, or with a teardown pending: only
the capture loss is passed on. -/
theorem OnCancelMode_idle (v : View)
    (h : v.close_on_deactivate_ = false ∨ v.shutdown_factory_ ≠ 0) :
    OnCancelMode v = (v, if v.render_widget_host_ then [Call.LostCapture] else []) := by
  unfold OnCancelMode
  have hc : (v.close_on_deactivate_ && v.shutdown_factory_ == 0) = false := by
    rcases h with h | h
    · simp [h]
    · simp [h]
  simp [hc]

/-- `OnCancelMode` on an auto-dismiss popup with no teardown pending. -/
theorem OnCancelMode_popup (v : View) (hpop : v.close_on_deactivate_ = true)
    (hnone : v.shutdown_factory_ = 0) :
    OnCancelMode v =
      ({ v with shutdown_factory_ := 1, os := v.os.ShowWindow v.m_hWnd false },
        (if v.render_widget_host_ then [Call.LostCapture] else []) ++
          [Call.SetWindowPos v.m_hWnd kCancelModeFlags, Call.PostShutdownHost]) := by
  unfold OnCancelMode
  simp [hpop, hnone]

/-- With a teardown pending, any number of `OnCancelMode` calls leaves the view
as it is and only passes the capture loss on. -/
theorem cancelModes_pending (v : View) (h : v.shutdown_factory_ ≠ 0) (n : Nat) :
    (cancelModes v n).1 = v ∧ ∀ c ∈ (cancelModes v n).2, c = Call.LostCapture := by
  induction n with
  | zero => exact ⟨rfl, by simp [cancelModes]⟩
  | succ n ih =>
    simp only [cancelModes, OnCancelMode_idle v (Or.inr h)]
    refine ⟨ih.1, ?_⟩
    intro c hc
    rcases List.mem_append.mp hc with h1 | h1
    · by_cases hr : v.render_widget_host_ = true
      · simpa [hr] using h1
      · simp [hr] at h1
    · exact ih.2 c h1

/-- C26: on an auto-dismiss popup with no teardown pending, after any number
`n + 1` of cancel-mode notifications received before the posted task runs,
exactly one `ShutdownHost` task is pending: the first notification hides the
window with one `SetWindowPos` that carries `SWP_HIDEWINDOW` and posts the
task, the later ones do neither, and `Shutdown` is never called inline.  When
the task runs none is pending any more.  On a view that is not an auto-dismiss
popup `OnCancelMode` hides nothing and posts nothing. -/
theorem OnCancelMode_one_teardown (v w : View) (n : Nat)
    (hpop : v.close_on_deactivate_ = true) (hnone : v.shutdown_factory_ = 0)
    (hw : w.close_on_deactivate_ = false) :
    (cancelModes v (n + 1)).1.shutdown_factory_ = 1 ∧
      (cancelModes v (n + 1)).2.count Call.PostShutdownHost = 1 ∧
      (cancelModes v (n + 1)).2.count (Call.SetWindowPos v.m_hWnd kCancelModeFlags) = 1 ∧
      hasFlag kCancelModeFlags SWP_HIDEWINDOW = true ∧
      (cancelModes v (n + 1)).1.os = v.os.ShowWindow v.m_hWnd false ∧
      Call.Shutdown ∉ (cancelModes v (n + 1)).2 ∧
      (ShutdownHost (cancelModes v (n + 1)).1).1.shutdown_factory_ = 0 ∧
      OnCancelMode w = (w, if w.render_widget_host_ then [Call.LostCapture] else []) := by
  have hp := cancelModes_pending
    { v with shutdown_factory_ := 1, os := v.os.ShowWindow v.m_hWnd false } (by simp) n
  have hview : (cancelModes v (n + 1)).1 =
      { v with shutdown_factory_ := 1, os := v.os.ShowWindow v.m_hWnd false } := by
    simp only [cancelModes, OnCancelMode_popup v hpop hnone]
    exact hp.1
  have hcalls : (cancelModes v (n + 1)).2 =
      (if v.render_widget_host_ then [Call.LostCapture] else []) ++
        [Call.SetWindowPos v.m_hWnd kCancelModeFlags, Call.PostShutdownHost] ++
        (cancelModes { v with shutdown_factory_ := 1, os := v.os.ShowWindow v.m_hWnd false }
          n).2 := by
    simp only [cancelModes, OnCancelMode_popup v hpop hnone]
  have hrest : ∀ c, c ≠ Call.LostCapture →
      (cancelModes { v with shutdown_factory_ := 1, os := v.os.ShowWindow v.m_hWnd false }
        n).2.count c = 0 := by
    intro c hc
    apply List.count_eq_zero_of_not_mem
    intro hm
    exact hc (hp.2 c hm)
  have hlost : ∀ c, c ≠ Call.LostCapture →
      (if v.render_widget_host_ then [Call.LostCapture] else []).count c = 0 := by
    intro c hc
    by_cases hr : v.render_widget_host_ = true
    · simp [hr, List.count_cons, Ne.symm hc]
    · simp [hr]
  refine ⟨by rw [hview], ?_, ?_, by decide, by rw [hview], ?_, rfl,
    OnCancelMode_idle w (Or.inl hw)⟩
  · rw [hcalls, List.count_append, List.count_append, hrest _ (by simp), hlost _ (by simp)]
    simp [List.count_cons]
  · rw [hcalls, List.count_append, List.count_append, hrest _ (by simp), hlost _ (by simp)]
    simp [List.count_cons]
  · rw [hcalls]
    intro hm
    rcases List.mem_append.mp hm with h1 | h1
    · rcases List.mem_append.mp h1 with h2 | h2
      · by_cases hr : v.render_widget_host_ = true
        · simp [hr] at h2
        · simp [hr] at h2
      · simp at h2
    · have := hp.2 _ h1
      cases this

/-- C26 (witness): three cancel-mode notifications in a row on `popupView`,
then one on `sampleView`, which is not a popup. -/
theorem OnCancelMode_one_teardown_witness :
    (cancelModes popupView 3).2 =
        [Call.LostCapture, Call.SetWindowPos 1 kCancelModeFlags, Call.PostShutdownHost,
          Call.LostCapture, Call.LostCapture] ∧
      (cancelModes popupView 3).2.count Call.PostShutdownHost = 1 :=
  ⟨by decide,
    (OnCancelMode_one_teardown popupView sampleView 2 rfl rfl rfl).2.1⟩

/-- Neither `OnCancelMode` nor `OnActivate` reads `being_destroyed_`: setting
the flag to any value changes none of their calls. -/
theorem handlers_ignore_being_destroyed (v : View) (action : Nat) (flag : Bool) :
    (OnCancelMode { v with being_destroyed_ := flag }).2 = (OnCancelMode v).2 ∧
      (OnActivate { v with being_destroyed_ := flag } action).2 = (OnActivate v action).2 := by
  have hflag : (OnCancelMode { v with being_destroyed_ := flag }).2 = (OnCancelMode v).2 := by
    unfold OnCancelMode
    by_cases hc : (v.close_on_deactivate_ && v.shutdown_factory_ == 0) = true <;> simp [hc]
  refine ⟨hflag, ?_⟩
  unfold OnActivate
  by_cases hc : (v.close_on_deactivate_ && action == WA_INACTIVE) = true
  · simp only [hc, if_true]
    rw [hflag]
  · simp [hc]

/-- After `Destroy()`, which clears `close_on_deactivate_` and sets
`being_destroyed_`, a deactivation makes no call at all and a cancel-mode
notification only passes the capture loss on. -/
theorem Destroy_guards_teardown (v : View) (action : Nat) :
    (Destroy v).1.being_destroyed_ = true ∧
      (Destroy v).1.close_on_deactivate_ = false ∧
      OnActivate (Destroy v).1 action = ((Destroy v).1, []) ∧
      OnCancelMode (Destroy v).1 =
        ((Destroy v).1, if v.render_widget_host_ then [Call.LostCapture] else []) := by
  refine ⟨rfl, rfl, ?_, ?_⟩
  · unfold OnActivate
    simp [Destroy]
  · rw [OnCancelMode_idle (Destroy v).1 (Or.inl rfl)]
    rfl

/-- C27: `Destroy()` clears `close_on_deactivate_` before it destroys the
window, so on every view a deactivation after it makes no call and a cancel-mode
notification only passes the capture loss on: the window is not hidden again and
no teardown is posted.  `RenderViewGone()` sets `being_destroyed_` and destroys
the window but leaves `close_on_deactivate_` as it is, and neither handler reads
`being_destroyed_`: on every auto-dismiss popup with no teardown pending, a
deactivation or a cancel-mode notification that arrives once the flag is set,
while the window is being destroyed or after `RenderViewGone()` has returned,
still hides the window with `SWP_HIDEWINDOW`, marks a teardown pending and posts
`ShutdownHost`. -/
theorem RenderViewGone_leaves_teardown (v : View) (action : Nat)
    (hpop : v.close_on_deactivate_ = true) (hnone : v.shutdown_factory_ = 0) :
    (RenderViewGone v).1.being_destroyed_ = true ∧
      (RenderViewGone v).1.close_on_deactivate_ = true ∧
      OnCancelMode (RenderViewGone v).1 =
        ({ (RenderViewGone v).1 with
            shutdown_factory_ := 1,
            os := (RenderViewGone v).1.os.ShowWindow v.m_hWnd false },
          (if v.render_widget_host_ then [Call.LostCapture] else []) ++
            [Call.SetWindowPos v.m_hWnd kCancelModeFlags, Call.PostShutdownHost]) ∧
      OnActivate (RenderViewGone v).1 WA_INACTIVE =
        ({ (RenderViewGone v).1 with
            shutdown_factory_ := 1,
            os := (RenderViewGone v).1.os.ShowWindow v.m_hWnd false },
          Call.SendMessage v.m_hWnd WM_CANCELMODE 0 0 ::
            ((if v.render_widget_host_ then [Call.LostCapture] else []) ++
              [Call.SetWindowPos v.m_hWnd kCancelModeFlags, Call.PostShutdownHost])) ∧
      (OnCancelMode { v with being_destroyed_ := true }).2 =
        (if v.render_widget_host_ then [Call.LostCapture] else []) ++
          [Call.SetWindowPos v.m_hWnd kCancelModeFlags, Call.PostShutdownHost] ∧
      (OnActivate { v with being_destroyed_ := true } WA_INACTIVE).2 =
        Call.SendMessage v.m_hWnd WM_CANCELMODE 0 0 ::
          ((if v.render_widget_host_ then [Call.LostCapture] else []) ++
            [Call.SetWindowPos v.m_hWnd kCancelModeFlags, Call.PostShutdownHost]) ∧
      hasFlag kCancelModeFlags SWP_HIDEWINDOW = true ∧
      (Destroy v).1.being_destroyed_ = true ∧
      OnActivate (Destroy v).1 action = ((Destroy v).1, []) ∧
      OnCancelMode (Destroy v).1 =
        ((Destroy v).1, if v.render_widget_host_ then [Call.LostCapture] else []) := by
  have hgone : OnCancelMode (RenderViewGone v).1 =
      ({ (RenderViewGone v).1 with
          shutdown_factory_ := 1,
          os := (RenderViewGone v).1.os.ShowWindow v.m_hWnd false },
        (if v.render_widget_host_ then [Call.LostCapture] else []) ++
          [Call.SetWindowPos v.m_hWnd kCancelModeFlags, Call.PostShutdownHost]) :=
    OnCancelMode_popup (RenderViewGone v).1 hpop hnone
  have hmid : (OnCancelMode { v with being_destroyed_ := true }).2 =
      (if v.render_widget_host_ then [Call.LostCapture] else []) ++
        [Call.SetWindowPos v.m_hWnd kCancelModeFlags, Call.PostShutdownHost] := by
    rw [OnCancelMode_popup { v with being_destroyed_ := true } hpop hnone]
  have hd := Destroy_guards_teardown v action
  refine ⟨rfl, hpop, hgone, ?_, hmid, ?_, by decide, rfl, hd.2.2.1, hd.2.2.2⟩
  · have hc : ((RenderViewGone v).1.close_on_deactivate_ && WA_INACTIVE == WA_INACTIVE) = true := by
      simp [RenderViewGone, hpop]
    unfold OnActivate
    simp only [hc, if_true]
    rw [hgone]
    rfl
  · have hc : (({ v with being_destroyed_ := true } : View).close_on_deactivate_ &&
        WA_INACTIVE == WA_INACTIVE) = true := by
      simp [hpop]
    unfold OnActivate
    simp only [hc, if_true]
    rw [hmid]

/-- C27 (failing input): `RenderViewGone()` on `popupView`, an auto-dismiss
popup with window `1`, a render widget host and no teardown pending; the
deactivation and the cancel-mode notification that follow hide the window and
post the teardown. -/
theorem RenderViewGone_leaves_teardown_witness :
    popupView.close_on_deactivate_ = true ∧ popupView.shutdown_factory_ = 0 ∧
      (RenderViewGone popupView).1.being_destroyed_ = true ∧
      (OnActivate (RenderViewGone popupView).1 WA_INACTIVE).2 =
        [Call.SendMessage 1 WM_CANCELMODE 0 0, Call.LostCapture,
          Call.SetWindowPos 1 kCancelModeFlags, Call.PostShutdownHost] ∧
      (OnCancelMode (RenderViewGone popupView).1).2 =
        [Call.LostCapture, Call.SetWindowPos 1 kCancelModeFlags, Call.PostShutdownHost] ∧
      (OnActivate (RenderViewGone popupView).1 WA_INACTIVE).1.shutdown_factory_ = 1 ∧
      OnActivate (Destroy popupView).1 WA_INACTIVE = ((Destroy popupView).1, []) :=
  ⟨rfl, rfl,
    (RenderViewGone_leaves_teardown popupView WA_INACTIVE rfl rfl).1,
    by decide, by decide, by decide,
    (RenderViewGone_leaves_teardown popupView WA_INACTIVE rfl rfl).2.2.2.2.2.2.2.2.1⟩

end RenderWidgetHostViewWin

/-! ## The input method -/

namespace RenderWidgetHostViewWin

/-- With a render widget host, `Send` passes the message on and returns what
the host returns, and `routing_id` is read without harm. -/
theorem Send_present (v : View) (sent : Bool) (message : ViewMsg)
    (hrwh : v.render_widget_host_ = true) :
    Send v sent message = (sent, [Call.Send message]) ∧ routing_id v = [] := by
  unfold Send routing_id
  simp [hrwh]

/-- The calls of `OnImeComposition` with a render widget host. -/
theorem OnImeComposition_present (v : View) (ime : ImeInput) (env : ImeEnv) (sent : Bool)
    (hrwh : v.render_widget_host_ = true) :
    OnImeComposition v ime env sent =
      { view := v,
        ime_input_ :=
          (match env.result with
            | some _ => ime.ResetComposition
            | none => ime).GetComposition env.composition,
        calls := [Call.UpdateImeWindow] ++
          (match env.result with
            | some composition =>
              [Call.Send (imeSetComposition WebCompositionCommand.WebCompositionCommandConfirm
                composition), Call.ResetComposition]
            | none => []) ++
          (match env.composition with
            | some composition =>
              [Call.Send (imeSetComposition WebCompositionCommand.WebCompositionCommandSet
                composition)]
            | none => []) } := by
  obtain ⟨hs, hr⟩ : (∀ m, Send v sent m = (sent, [Call.Send m])) ∧ routing_id v = [] :=
    ⟨fun m => (Send_present v sent m hrwh).1, (Send_present v sent
      (ViewMsg.ImeSetInputMode true) hrwh).2⟩
  unfold OnImeComposition
  simp only [hrwh, Bool.not_true, Bool.false_eq_true, if_false, hs, hr, List.nil_append]
  cases env.result <;> cases env.composition <;> rfl

/-- C21: with a render widget host, `OnImeComposition` sends a confirm exactly
when `GetResult` has a result string, and a set after it exactly when
`GetComposition` has a composition string.  For the sequence
`OnImeStartComposition`, then a notification with a composition string only,
then a notification with a result string only, the last step sends exactly one
message, the confirm with the result, and leaves the input method not
composing. -/
theorem OnImeComposition_confirm_then_set (v : View) (ime : ImeInput) (env : ImeEnv)
    (sent : Bool) (update result : ImeComposition) (hrwh : v.render_widget_host_ = true) :
    sentMessages (OnImeComposition v ime env sent).calls =
        (match env.result with
          | some composition =>
            [imeSetComposition WebCompositionCommand.WebCompositionCommandConfirm composition]
          | none => []) ++
        (match env.composition with
          | some composition =>
            [imeSetComposition WebCompositionCommand.WebCompositionCommandSet composition]
          | none => []) ∧
      sentMessages (OnImeComposition
          (OnImeComposition (OnImeStartComposition v ime).view
            (OnImeStartComposition v ime).ime_input_
            { result := none, composition := some update } sent).view
          (OnImeComposition (OnImeStartComposition v ime).view
            (OnImeStartComposition v ime).ime_input_
            { result := none, composition := some update } sent).ime_input_
          { result := some result, composition := none } sent).calls =
        [imeSetComposition WebCompositionCommand.WebCompositionCommandConfirm result] ∧
      (OnImeComposition (OnImeStartComposition v ime).view
          (OnImeStartComposition v ime).ime_input_
          { result := none, composition := some update } sent).ime_input_.is_composing_ = true ∧
      (OnImeComposition
          (OnImeComposition (OnImeStartComposition v ime).view
            (OnImeStartComposition v ime).ime_input_
            { result := none, composition := some update } sent).view
          (OnImeComposition (OnImeStartComposition v ime).view
            (OnImeStartComposition v ime).ime_input_
            { result := none, composition := some update } sent).ime_input_
          { result := some result, composition := none } sent).ime_input_.is_composing_ =
        false := by
  have hstart : (OnImeStartComposition v ime).view = v := by
    unfold OnImeStartComposition
    simp [hrwh]
  refine ⟨?_, ?_, ?_, ?_⟩
  · rw [OnImeComposition_present v ime env sent hrwh]
    cases env.result <;> cases env.composition <;> rfl
  · rw [hstart, OnImeComposition_present v _ _ sent hrwh]
    simp only
    rw [OnImeComposition_present v _ _ sent hrwh]
    rfl
  · rw [hstart, OnImeComposition_present v _ _ sent hrwh]
    rfl
  · rw [hstart, OnImeComposition_present v _ _ sent hrwh]
    simp only
    rw [OnImeComposition_present v _ _ sent hrwh]
    rfl

/-- C21 (witness): on `sampleView`, a composition started, updated to `ab` and
finished with the result `ab`. -/
theorem OnImeComposition_confirm_then_set_witness :
    sentMessages (OnImeComposition
        (OnImeComposition (OnImeStartComposition sampleView idleIme).view
          (OnImeStartComposition sampleView idleIme).ime_input_
          { result := none, composition := some updateAb } true).view
        (OnImeComposition (OnImeStartComposition sampleView idleIme).view
          (OnImeStartComposition sampleView idleIme).ime_input_
          { result := none, composition := some updateAb } true).ime_input_
        { result := some resultAb, composition := none } true).calls =
      [ViewMsg.ImeSetComposition WebCompositionCommand.WebCompositionCommandConfirm
        (-1) (-1) (-1) "ab"] :=
  (OnImeComposition_confirm_then_set sampleView idleIme
    { result := none, composition := none } true updateAb resultAb rfl).2.1

/-- C22: with a render widget host, `OnImeEndComposition` sends a discard
(empty text, cursor and target span all `-1`) and resets the composition
exactly when a composition is ongoing, and sends nothing otherwise; in both
cases its last call releases the composition window, and afterwards the input
method is not composing and has no composition window. -/
theorem OnImeEndComposition_discard (v : View) (ime : ImeInput) (sent : Bool)
    (hrwh : v.render_widget_host_ = true) :
    (OnImeEndComposition v ime sent).calls =
        (if ime.is_composing_ then
          [Call.Send (ViewMsg.ImeSetComposition
            WebCompositionCommand.WebCompositionCommandDiscard (-1) (-1) (-1) ""),
            Call.ResetComposition]
        else []) ++ [Call.DestroyImeWindow] ∧
      sentMessages (OnImeEndComposition v ime sent).calls =
        (if ime.is_composing_ then
          [ViewMsg.ImeSetComposition WebCompositionCommand.WebCompositionCommandDiscard
            (-1) (-1) (-1) ""]
        else []) ∧
      (OnImeEndComposition v ime sent).ime_input_.is_composing_ = false ∧
      (OnImeEndComposition v ime sent).ime_input_.has_ime_window = false := by
  obtain ⟨hs, hr⟩ := Send_present v sent (ViewMsg.ImeSetComposition
    WebCompositionCommand.WebCompositionCommandDiscard (-1) (-1) (-1) "") hrwh
  unfold OnImeEndComposition
  simp only [hrwh, Bool.not_true, Bool.false_eq_true, if_false, hs, hr, List.nil_append]
  by_cases hc : ime.is_composing_ = true
  · simp [hc, sentMessages, ImeInput.ResetComposition, ImeInput.DestroyImeWindow]
  · have hc0 : ime.is_composing_ = false := by simpa using hc
    simp [hc0, sentMessages, ImeInput.DestroyImeWindow]

/-- C22 (witness): on `sampleView`, the end of a composition that is still
ongoing. -/
theorem OnImeEndComposition_discard_witness :
    (OnImeEndComposition sampleView { is_composing_ := true, has_ime_window := true }
        true).calls =
      [Call.Send (ViewMsg.ImeSetComposition WebCompositionCommand.WebCompositionCommandDiscard
        (-1) (-1) (-1) ""), Call.ResetComposition, Call.DestroyImeWindow] :=
  (OnImeEndComposition_discard sampleView { is_composing_ := true, has_ime_window := true }
    true rfl).1

end RenderWidgetHostViewWin

namespace RenderWidgetHostViewWin

/-- C23 (amended): `OnInputLangChange` is edge-triggered: it sends
`ViewMsg_ImeSetInputMode` exactly when the wanted state differs from
`ime_notification_` (and a render widget host is present), and
`ime_notification_` takes the wanted state exactly when that send succeeds.
`OnImeSetContext`, with a render widget host, sends the activation state every
time, whatever `ime_notification_` is, and `ime_notification_` takes it exactly
when the send succeeds. -/
theorem ime_notification_edge (v : View) (ime : ImeInput) (ime_status sent : Bool)
    (wparam : Nat) :
    sentMessages (OnInputLangChange v ime_status sent).2 =
        (if ime_status ≠ v.ime_notification_ ∧ v.render_widget_host_ = true then
          [ViewMsg.ImeSetInputMode ime_status]
        else []) ∧
      (OnInputLangChange v ime_status sent).1.ime_notification_ =
        (if ime_status ≠ v.ime_notification_ ∧ v.render_widget_host_ = true ∧ sent = true then
          ime_status
        else v.ime_notification_) ∧
      (v.render_widget_host_ = true →
        sentMessages (OnImeSetContext v ime wparam sent).calls =
          [ViewMsg.ImeSetInputMode (wparam == 1)] ∧
        (OnImeSetContext v ime wparam sent).view.ime_notification_ =
          (if sent then wparam == 1 else v.ime_notification_)) := by
  refine ⟨?_, ?_, ?_⟩
  · unfold OnInputLangChange Send routing_id
    by_cases h : ime_status = v.ime_notification_ <;>
      by_cases hr : v.render_widget_host_ = true <;>
      simp [h, hr, sentMessages]
  · unfold OnInputLangChange Send
    by_cases h : ime_status = v.ime_notification_ <;>
      by_cases hr : v.render_widget_host_ = true <;>
      by_cases hs : sent = true <;>
      simp [h, hr, hs]
  · intro hr
    unfold OnImeSetContext Send routing_id
    by_cases hs : sent = true
    · by_cases hw : (wparam == 1) = true <;> simp [hr, hs, hw, sentMessages]
    · by_cases hn : v.ime_notification_ = true <;> simp [hr, hs, hn, sentMessages]

/-- C23 (witness): on `sampleView`, whose `ime_notification_` is false, an
activation sends the state `true` and records it. -/
theorem ime_notification_edge_witness :
    sentMessages (OnImeSetContext sampleView idleIme 1 true).calls =
        [ViewMsg.ImeSetInputMode true] ∧
      (OnImeSetContext sampleView idleIme 1 true).view.ime_notification_ =
        (if true then 1 == 1 else sampleView.ime_notification_) :=
  (ime_notification_edge sampleView idleIme true true 1).2.2 rfl

/-- C23 (counterexample): on a view whose `ime_notification_` is already true,
`OnImeSetContext` for an activation sends the state `true` once more. -/
theorem OnImeSetContext_level_counterexample :
    ({ sampleView with ime_notification_ := true } : View).ime_notification_ = true ∧
      sentMessages (OnImeSetContext { sampleView with ime_notification_ := true } idleIme 1
        true).calls = [ViewMsg.ImeSetInputMode true] := by
  decide

end RenderWidgetHostViewWin

/-! ## A null render widget host -/

namespace RenderWidgetHostViewWin

/-- The dismissal of owned popups does not use the render widget host. -/
theorem dismissOwnedPopups_hostFree (v : View) (env : WheelEnv) :
    hostFree (dismissOwnedPopups v env) = true := by
  unfold dismissOwnedPopups
  split
  · induction env.thread_windows with
    | nil => rfl
    | cons w ws ih =>
      simp only [hostFree, List.map_cons, List.flatten_cons, List.all_append] at ih ⊢
      rw [ih]
      unfold DismissOwnedPopups
      split
      · split <;> simp [usesHost, throughHost]
      · simp
  · rfl

/-- Without a render widget host `OnCancelMode` makes no call through it. -/
theorem OnCancelMode_null (v : View) (hnull : v.render_widget_host_ = false) :
    hostFree (OnCancelMode v).2 = true := by
  unfold OnCancelMode
  by_cases hc : (v.close_on_deactivate_ && v.shutdown_factory_ == 0) = true <;>
    simp [hnull, hc, hostFree, usesHost, throughHost]

/-- C28: without a render widget host, the handlers for focus gained and lost,
capture changed, cancel mode, theme changed, the four IME messages, key, wheel
and pointer input, and `Send`, make no call through the null pointer and do
not dereference it; the IME handlers, `ForwardMouseEventToRenderer` and `Send`
do nothing at all.  `OnInputLangChange` is the exception: when the wanted
state differs from `ime_notification_` it evaluates
`render_widget_host_->routing_id()` through the null pointer. -/
theorem handlers_without_widget (v : View) (hnull : v.render_widget_host_ = false)
    (window wparam : Nat) (ime : ImeInput) (ienv : ImeEnv) (sent ime_status : Bool)
    (layout : RtlKeyboardLayout) (key : KeyEnv) (mouse : MouseEnv) (wheel : WheelEnv)
    (message : ViewMsg) :
    (OnSetFocus v window).2 = [Call.OnWidgetFocusEvent window v.m_hWnd] ∧
      (OnKillFocus v window).2 = [Call.OnWidgetFocusEvent v.m_hWnd window] ∧
      (OnCaptureChanged v).2 = [] ∧
      hostFree (OnCancelMode v).2 = true ∧
      (OnThemeChanged v).2 = [] ∧
      (OnImeSetContext v ime wparam sent).calls = [] ∧
      (OnImeStartComposition v ime).calls = [] ∧
      (OnImeComposition v ime ienv sent).calls = [] ∧
      (OnImeEndComposition v ime sent).calls = [] ∧
      hostFree (OnKeyEvent v layout key).calls = true ∧
      hostFree (OnWheelEvent v wheel).calls = true ∧
      hostFree (OnMouseEvent v mouse).calls = true ∧
      ForwardMouseEventToRenderer v mouse = (v, []) ∧
      Send v sent message = (false, []) ∧
      (OnInputLangChange v ime_status sent).2 =
        Call.SetInputLanguage ::
          (if ime_status ≠ v.ime_notification_ then [Call.NullDereference] else []) := by
  have hcancel := OnCancelMode_null v hnull
  have hfwd := ForwardMouseEventToRenderer_null v mouse hnull
  refine ⟨?_, ?_, ?_, hcancel, ?_, ?_, ?_, ?_, ?_, ?_, ?_, ?_, hfwd, ?_, ?_⟩
  · simp [OnSetFocus, hnull]
  · simp [OnKillFocus, hnull]
  · simp [OnCaptureChanged, hnull]
  · simp [OnThemeChanged, hnull]
  · simp [OnImeSetContext, hnull]
  · simp [OnImeStartComposition, hnull]
  · simp [OnImeComposition, hnull]
  · simp [OnImeEndComposition, hnull]
  · unfold OnKeyEvent
    simp only [hostFree] at hcancel
    by_cases htab : (v.close_on_deactivate_ && isTabMessage key.message key.wparam) = true
    · simp only [htab, if_true, hostFree, List.all_append, hcancel]
      split <;> simp [usesHost, throughHost]
    · simp [htab, hnull, hostFree]
  · have hd := dismissOwnedPopups_hostFree v wheel
    simp only [hostFree] at hd
    unfold OnWheelEvent
    split
    · simp [hostFree, usesHost, throughHost]
    · simp only [hostFree, List.all_append, hd, hnull]
      split <;> simp [usesHost, throughHost]
  · have hcorner : onResizeCorner v mouse = false := by
      unfold onResizeCorner
      simp [hnull]
    have hrelay : hostFree (tooltipRelay v mouse) = true := by
      unfold tooltipRelay
      split <;> simp [hostFree, usesHost, throughHost]
    simp only [hostFree] at hrelay
    unfold OnMouseEvent
    simp only [hcorner, hfwd, hostFree]
    by_cases hp : v.close_on_deactivate_ = true
    · simp [hp, hrelay]
    · have hp0 : v.close_on_deactivate_ = false := by simpa using hp
      simp only [hp0, Bool.not_false, if_true, Bool.false_and, Bool.false_eq_true, if_false]
      split
      · simp only [List.all_append, hrelay]
        split <;> simp [usesHost, throughHost, parentMessage]
      · simp only [List.all_append, hrelay]
        split <;> split <;> simp [usesHost, throughHost, parentMessage]
  · simp [Send, hnull]
  · unfold OnInputLangChange Send routing_id
    by_cases h : ime_status = v.ime_notification_ <;> simp [h, hnull]

/-- C28 (failing input): on `goneView`, whose render widget host is gone and
whose `ime_notification_` is false, a change to an input language with an
IME makes `OnInputLangChange` read `routing_id()` through the null pointer. -/
theorem handlers_without_widget_witness :
    goneView.render_widget_host_ = false ∧ goneView.ime_notification_ = false ∧
      (OnInputLangChange goneView true true).2 =
        [Call.SetInputLanguage, Call.NullDereference] :=
  ⟨rfl, rfl,
    (handlers_without_widget goneView rfl 0 0 idleIme { result := none, composition := none }
      true true RtlKeyboardLayout.RTL_KEYBOARD_LAYOUT_NOT_INITIALIZED (keyEnv WM_KEYDOWN 0x41 1)
      (mouseEnv WM_MOUSEMOVE) (wheelEnv WM_MOUSEWHEEL)
      (ViewMsg.ImeSetInputMode true)).2.2.2.2.2.2.2.2.2.2.2.2.2.2.trans (by decide)⟩

end RenderWidgetHostViewWin
